import Mathlib

set_option maxHeartbeats 1000000

/-!
Verification of the tick-driven timer wheel of timers2.h (srsRAN).

The frontend handle class unique_timer is fully given in the header
src/include/srsran/support/timers2.h and is embedded from that source.
The backend engine (timer_manager2::tick_all and the bodies of the
timer_handle methods) lives in a timers2.cpp translation unit that is
not part of the source tree; those operations are modelled from the
spec, as indicated by the doc comments of the corresponding
definitions.

Machine integers: all counters of the subsystem (timer ids, epochs,
ticks, durations) are 32-bit unsigned in the source.  None of the
embedded header code performs arithmetic on them (the header only
compares and copies), and the spec describes the epoch and the cursor
as monotonically increasing counters and absolute tick counts, so the
model uses Nat.  The two sentinel values of the header are kept as the
explicit constant 2 ^ 32 - 1.
-/

namespace srsran

/-- Sentinel for an invalid timer identifier (timers2.h, INVALID_TIMER_ID,
the maximal uint32 value). -/
def INVALID_TIMER_ID : Nat := 2 ^ 32 - 1

/-- Sentinel duration (timers2.h, timer_manager2::INVALID_DURATION, the
maximal uint32 value). -/
def INVALID_DURATION : Nat := 2 ^ 32 - 1

/-- Timer state (timers2.h, timer_manager2::state_t). -/
inductive state_t where
  | stopped
  | running
  | expired
deriving DecidableEq, Repr

/-- Action of a frontend-to-backend command (timers2.h, cmd_t::action_t). -/
inductive action_t where
  | start
  | stop
  | destroy
deriving DecidableEq, Repr

/-- Command sent from the timer frontend to the backend
(timers2.h, timer_manager2::cmd_t). -/
structure cmd_t where
  id : Nat
  epoch : Nat
  action : action_t
  duration : Nat
deriving DecidableEq, Repr

/-- Frontend view of one timer slot (timers2.h,
timer_manager2::timer_frontend_context).  The callback field of the
source is an opaque unique_function; the model keeps only whether a
callback is installed, which is all the embedded properties need. -/
structure timer_frontend_context where
  epoch : Nat
  state : state_t
  duration : Nat
  has_callback : Bool
deriving DecidableEq, Repr

/-- Backend view of one timer slot (timers2.h,
timer_manager2::timer_backend_context).  The timeout field holds the
absolute expiry tick while the backend state is running (spec,
backend_deadline).  exec_alloc models whether the task_executor pointer
is non-null; a null executor means the slot is not allocated. -/
structure timer_backend_context where
  epoch : Nat
  state : state_t
  timeout : Nat
  exec_alloc : Bool
deriving DecidableEq, Repr

/-- One timer slot (timers2.h, timer_manager2::timer_handle).  The id is
assigned when the slot is appended to the pool (equal to its position)
and, per the header comment, remains constant throughout the timer
lifetime.  The owned flag is ghost state: it records whether a live
unique_timer currently owns the slot, standing for the C++ unique
ownership discipline; the trace semantics uses it to restrict frontend
operations to those reachable through a live handle. -/
structure timer_handle where
  id : Nat
  frontend : timer_frontend_context
  backend : timer_backend_context
  owned : Bool
deriving DecidableEq, Repr

/-- A freshly constructed, unallocated slot at pool position i. -/
def blank_timer (i : Nat) : timer_handle :=
  { id := i
    frontend := { epoch := 0, state := .stopped, duration := INVALID_DURATION, has_callback := false }
    backend := { epoch := 0, state := .stopped, timeout := 0, exec_alloc := false }
    owned := false }

/-- State of the timer manager (timers2.h, timer_manager2).  timer_list
is the grow-only slot pool (indices are stable addresses), free_list the
stack of reusable slot indices, time_wheel the ring of buckets holding
slot indices (the intrusive collision lists of the source), and
pending_cmds the frontend-to-backend mailbox.  dispatched holds the
expiry closures handed to executors and not yet executed, as pairs of
slot index and the epoch captured at dispatch.  dispatch_log and fired
are ghost, append-only logs of every dispatch and of every user
callback invocation. -/
structure timer_manager2 where
  cur_time : Nat
  timer_list : List timer_handle
  free_list : List Nat
  time_wheel : List (List Nat)
  pending_cmds : List cmd_t
  dispatched : List (Nat × Nat)
  dispatch_log : List (Nat × Nat)
  fired : List (Nat × Nat)
deriving DecidableEq, Repr

/-- Initial manager with a wheel of W buckets and an empty pool. -/
def timer_manager2.init (W : Nat) : timer_manager2 :=
  { cur_time := 0, timer_list := [], free_list := []
    time_wheel := List.replicate W []
    pending_cmds := [], dispatched := [], dispatch_log := [], fired := [] }

/-- Read slot i of the pool (a blank slot when out of range; all
operations guard the range). -/
def timer_manager2.getSlot (m : timer_manager2) (i : Nat) : timer_handle :=
  m.timer_list.getD i (blank_timer 0)

/-- Overwrite slot i of the pool. -/
def timer_manager2.setSlot (m : timer_manager2) (i : Nat) (s : timer_handle) : timer_manager2 :=
  { m with timer_list := m.timer_list.set i s }

/-- Unlink slot i from every wheel bucket (the O(1) intrusive unlink of
the source, rendered as a filter over the bucket lists). -/
def wheelRemove (w : List (List Nat)) (i : Nat) : List (List Nat) :=
  w.map (fun bkt => bkt.filter (fun j => decide (j ≠ i)))

/-- Link slot i at the tail of bucket b. -/
def wheelInsert (w : List (List Nat)) (b i : Nat) : List (List Nat) :=
  w.set b (w.getD b [] ++ [i])

/-- Number of wheel links of slot i (over all buckets). -/
def wcount (w : List (List Nat)) (i : Nat) : Nat :=
  (w.map (fun bkt => bkt.count i)).sum

namespace timer_handle

/-- Modelled from the spec: body of timer_manager2::timer_handle::set
(timers2.cpp, absent from src).  Stores the duration locally and posts
no command (spec 4.F). -/
def set (m : timer_manager2) (i : Nat) (dur : Nat) : timer_manager2 :=
  let s := m.getSlot i
  m.setSlot i { s with frontend := { s.frontend with duration := dur } }

/-- Modelled from the spec: body of the two-argument
timer_manager2::timer_handle::set (timers2.cpp, absent from src).
Stores the duration and the callback locally and posts no command
(spec 4.F). -/
def set_cb (m : timer_manager2) (i : Nat) (dur : Nat) : timer_manager2 :=
  let s := m.getSlot i
  m.setSlot i { s with frontend := { s.frontend with duration := dur, has_callback := true } }

/-- Modelled from the spec: body of timer_manager2::timer_handle::run
(timers2.cpp, absent from src).  Bumps the frontend epoch, sets the
frontend state to running and posts a start command carrying the new
epoch and the configured duration (spec 4.F). -/
def run (m : timer_manager2) (i : Nat) : timer_manager2 :=
  let s := m.getSlot i
  let e := s.frontend.epoch + 1
  let m1 := m.setSlot i { s with frontend := { s.frontend with epoch := e, state := .running } }
  { m1 with pending_cmds := m1.pending_cmds ++ [⟨s.id, e, .start, s.frontend.duration⟩] }

/-- Modelled from the spec: body of timer_manager2::timer_handle::stop
(timers2.cpp, absent from src).  If and only if the frontend state is
running: bumps the frontend epoch, sets the frontend state to stopped
and posts a stop command with the new epoch; otherwise a no-op
(spec 4.F). -/
def stop (m : timer_manager2) (i : Nat) : timer_manager2 :=
  let s := m.getSlot i
  if s.frontend.state = .running then
    let e := s.frontend.epoch + 1
    let m1 := m.setSlot i { s with frontend := { s.frontend with epoch := e, state := .stopped } }
    { m1 with pending_cmds := m1.pending_cmds ++ [⟨s.id, e, .stop, 0⟩] }
  else m

/-- Modelled from the spec: body of timer_manager2::timer_handle::destroy
(timers2.cpp, absent from src).  Posts a destroy command with a fresh
epoch (spec 4.F, release). -/
def destroy (m : timer_manager2) (i : Nat) : timer_manager2 :=
  let s := m.getSlot i
  let e := s.frontend.epoch + 1
  let m1 := m.setSlot i { s with frontend := { s.frontend with epoch := e } }
  { m1 with pending_cmds := m1.pending_cmds ++ [⟨s.id, e, .destroy, 0⟩] }

end timer_handle

namespace timer_manager2

/-- Modelled from the spec: command application inside
timer_manager2::tick_all (timers2.cpp, absent from src).  Resolves the
slot by id (the pool hands out ids equal to slot positions), drops the
command when its epoch is below the backend epoch of the slot, and
otherwise records the epoch and performs the start, stop or destroy
transition on the wheel and the backend state (spec 4.G step 2). -/
def applyCmd (m : timer_manager2) (c : cmd_t) : timer_manager2 :=
  if c.id < m.timer_list.length then
    if c.epoch < (m.getSlot c.id).backend.epoch then m
    else
      match c.action with
      | .start =>
        ({ m with time_wheel := wheelInsert (wheelRemove m.time_wheel c.id) ((m.cur_time + c.duration) % m.time_wheel.length) c.id }).setSlot c.id
          { m.getSlot c.id with backend :=
            { epoch := c.epoch, state := .running, timeout := m.cur_time + c.duration,
              exec_alloc := (m.getSlot c.id).backend.exec_alloc } }
      | .stop =>
        ({ m with time_wheel := wheelRemove m.time_wheel c.id }).setSlot c.id
          { m.getSlot c.id with backend :=
            { epoch := c.epoch, state := .stopped, timeout := (m.getSlot c.id).backend.timeout,
              exec_alloc := (m.getSlot c.id).backend.exec_alloc } }
      | .destroy =>
        ({ m with
          time_wheel := wheelRemove m.time_wheel c.id
          free_list := c.id :: m.free_list }).setSlot c.id
          { m.getSlot c.id with backend :=
            { epoch := c.epoch, state := .stopped, timeout := (m.getSlot c.id).backend.timeout,
              exec_alloc := false } }
  else m

/-- Modelled from the spec: the per-slot body of the expiry drain inside
timer_manager2::tick_all (timers2.cpp, absent from src).  If the stored
absolute deadline lies beyond the cursor (wrapped longer-than-wheel
deadline) the slot is re-inserted into the same bucket; otherwise the
backend state becomes expired and an expiry closure carrying the
backend epoch is dispatched onto the slot executor (spec 4.G step 4). -/
def drainSlot (b : Nat) (m : timer_manager2) (i : Nat) : timer_manager2 :=
  if i < m.timer_list.length then
    if m.cur_time < (m.getSlot i).backend.timeout then
      { m with time_wheel := wheelInsert m.time_wheel b i }
    else if (m.getSlot i).backend.exec_alloc then
      { m.setSlot i { m.getSlot i with
          backend := { (m.getSlot i).backend with state := .expired } } with
        dispatched := m.dispatched ++ [(i, (m.getSlot i).backend.epoch)]
        dispatch_log := m.dispatch_log ++ [(i, (m.getSlot i).backend.epoch)] }
    else
      m.setSlot i { m.getSlot i with
        backend := { (m.getSlot i).backend with state := .expired } }
  else m

/-- Modelled from the spec: timer_manager2::tick_all (timers2.cpp,
absent from src).  Takes the pending commands (the double-buffer swap),
applies them in order, advances the cursor by one tick, and drains the
bucket at the new cursor position (spec 4.G). -/
def tick_all (m : timer_manager2) : timer_manager2 :=
  let cs := m.pending_cmds
  let m1 := cs.foldl applyCmd { m with pending_cmds := [] }
  let m2 := { m1 with cur_time := m1.cur_time + 1 }
  let b := m2.cur_time % m2.time_wheel.length
  let bucket := m2.time_wheel.getD b []
  let m3 := { m2 with time_wheel := m2.time_wheel.set b [] }
  bucket.foldl (drainSlot b) m3

/-- Modelled from the spec: execution of one dispatched expiry closure
on its executor (spec 4.G step 4).  The closure compares the dispatched
epoch with the current frontend epoch of the slot; on a match it sets
the frontend state to expired and invokes the user callback (recorded
in the fired log when a callback is installed), otherwise the run was
cancelled in flight and the callback is dropped. -/
def run_dispatched (m : timer_manager2) (n : Nat) : timer_manager2 :=
  if n < m.dispatched.length then
    let p := m.dispatched.getD n (0, 0)
    let m1 := { m with dispatched := m.dispatched.eraseIdx n }
    if p.1 < m1.timer_list.length ∧ (m1.getSlot p.1).frontend.epoch = p.2 then
      let s := m1.getSlot p.1
      let m2 := m1.setSlot p.1 { s with frontend := { s.frontend with state := .expired } }
      if s.frontend.has_callback then { m2 with fired := m2.fired ++ [p] } else m2
    else m1
  else m

/-- Modelled from the spec: timer_manager2::create_timer (timers2.cpp,
absent from src).  Pops the head of the free list, or appends a new
slot to the pool; attaches the executor and hands ownership to the new
handle (spec 4.C). -/
def create_timer (m : timer_manager2) : timer_manager2 × Nat :=
  match m.free_list with
  | f :: rest =>
    let s := m.getSlot f
    (({ m with free_list := rest }).setSlot f
        { s with owned := true, backend := { s.backend with exec_alloc := true } }, f)
  | [] =>
    let i := m.timer_list.length
    let s := blank_timer i
    ({ m with timer_list := m.timer_list ++
        [{ s with owned := true, backend := { s.backend with exec_alloc := true } }] }, i)

/-- Clear the ghost ownership flag of slot i (the owning handle has been
released). -/
def markUnowned (m : timer_manager2) (i : Nat) : timer_manager2 :=
  m.setSlot i { m.getSlot i with owned := false }

end timer_manager2

/-- One atomic event of the interleaving semantics: a frontend operation
performed through the live handle owning slot i, a backend tick, or the
execution of one dispatched expiry closure on its executor. -/
inductive op where
  | create
  | fset (i dur : Nat)
  | fset_cb (i dur : Nat)
  | frun (i : Nat)
  | fstop (i : Nat)
  | fdestroy (i : Nat)
  | tick
  | run_disp (n : Nat)
deriving DecidableEq, Repr

/-- Small-step semantics over manager states.  Frontend operations are
guarded by the ghost ownership flag: in the source they can only be
reached through a live unique_timer, so an operation on an unowned slot
does not occur and is modelled as a no-op. -/
def step (m : timer_manager2) (o : op) : timer_manager2 :=
  match o with
  | .create => (m.create_timer).1
  | .fset i dur => if (m.getSlot i).owned then timer_handle.set m i dur else m
  | .fset_cb i dur => if (m.getSlot i).owned then timer_handle.set_cb m i dur else m
  | .frun i => if (m.getSlot i).owned then timer_handle.run m i else m
  | .fstop i => if (m.getSlot i).owned then timer_handle.stop m i else m
  | .fdestroy i => if (m.getSlot i).owned then (timer_handle.destroy m i).markUnowned i else m
  | .tick => m.tick_all
  | .run_disp n => m.run_dispatched n

/-- Run a trace of events from a state. -/
def applyOps (m : timer_manager2) (tr : List op) : timer_manager2 :=
  tr.foldl step m

/-- Owning handle over a timer slot (timers2.h, unique_timer).  The
handle field models the timer_handle pointer: some i is a pointer to
slot i of the pool, none is nullptr.  Copy construction and copy
assignment are deleted in the source, so no copying operation exists in
the model either. -/
structure unique_timer where
  handle : Option Nat
deriving DecidableEq, Repr

/-- Fatal assertion raised by srsran_assert on a released handle. -/
inductive assert_error where
  | InvalidHandle
deriving DecidableEq, Repr

namespace unique_timer

/-- Embedded from timers2.h line 181: handle != nullptr. -/
def is_valid (t : unique_timer) : Bool :=
  t.handle.isSome

/-- Embedded from timers2.h line 184: the slot id when valid, otherwise
INVALID_TIMER_ID. -/
def id (m : timer_manager2) (t : unique_timer) : Nat :=
  match t.handle with
  | some i => (m.getSlot i).id
  | none => INVALID_TIMER_ID

/-- Embedded from timers2.h line 187: valid and the frontend duration
differs from the INVALID_DURATION sentinel. -/
def is_set (m : timer_manager2) (t : unique_timer) : Bool :=
  match t.handle with
  | some i => decide ((m.getSlot i).frontend.duration ≠ INVALID_DURATION)
  | none => false

/-- Embedded from timers2.h line 190: valid and the frontend state is
running. -/
def is_running (m : timer_manager2) (t : unique_timer) : Bool :=
  match t.handle with
  | some i => decide ((m.getSlot i).frontend.state = state_t.running)
  | none => false

/-- Embedded from timers2.h line 193: valid and the frontend state is
expired. -/
def has_expired (m : timer_manager2) (t : unique_timer) : Bool :=
  match t.handle with
  | some i => decide ((m.getSlot i).frontend.state = state_t.expired)
  | none => false

/-- Embedded from timers2.h lines 196-199: the frontend duration when
valid, otherwise INVALID_DURATION. -/
def duration (m : timer_manager2) (t : unique_timer) : Nat :=
  match t.handle with
  | some i => (m.getSlot i).frontend.duration
  | none => INVALID_DURATION

/-- Embedded from timers2.h lines 209-213: srsran_assert on a released
handle, otherwise forward to timer_handle::set. -/
def set (m : timer_manager2) (t : unique_timer) (dur : Nat) : Except assert_error timer_manager2 :=
  match t.handle with
  | some i => .ok (timer_handle.set m i dur)
  | none => .error .InvalidHandle

/-- Embedded from timers2.h lines 202-206 (the duration plus callback
overload): srsran_assert on a released handle, otherwise forward to
timer_handle::set. -/
def set_with_callback (m : timer_manager2) (t : unique_timer) (dur : Nat) :
    Except assert_error timer_manager2 :=
  match t.handle with
  | some i => .ok (timer_handle.set_cb m i dur)
  | none => .error .InvalidHandle

/-- Embedded from timers2.h lines 216-220: srsran_assert on a released
handle, otherwise forward to timer_handle::run. -/
def run (m : timer_manager2) (t : unique_timer) : Except assert_error timer_manager2 :=
  match t.handle with
  | some i => .ok (timer_handle.run m i)
  | none => .error .InvalidHandle

/-- Embedded from timers2.h lines 223-228: forward to timer_handle::stop
when is_running() holds, otherwise do nothing. -/
def stop (m : timer_manager2) (t : unique_timer) : timer_manager2 :=
  match t.handle with
  | some i =>
    if (m.getSlot i).frontend.state = state_t.running then timer_handle.stop m i else m
  | none => m

/-- Embedded from timers2.h lines 172-178 (the destructor): when valid,
post destroy through the slot and null the handle.  Clearing the ghost
ownership flag mirrors the end of the C++ ownership. -/
def release (m : timer_manager2) (t : unique_timer) : timer_manager2 × unique_timer :=
  match t.handle with
  | some i => ((timer_handle.destroy m i).markUnowned i, ⟨none⟩)
  | none => (m, ⟨none⟩)

/-- Embedded from timers2.h line 166 (the move constructor): the new
handle steals the pointer, the source is left null.  Returns the pair
(constructed handle, moved-from source). -/
def move_construct (other : unique_timer) : unique_timer × unique_timer :=
  (⟨other.handle⟩, ⟨none⟩)

/-- Embedded from timers2.h lines 167-171 (the move assignment, for a
destination distinct from the source): the destination handle is
overwritten with the source handle via std::exchange and the source is
left null.  Note the destination does not release the slot it held.
Returns the pair (assigned destination, moved-from source). -/
def move_assign (dst src : unique_timer) : unique_timer × unique_timer :=
  (⟨src.handle⟩, ⟨none⟩)

end unique_timer

/-- Embedded from timers2.h line 111 together with the spec-modelled
create_timer: allocates a slot and wraps it in an owning handle. -/
def timer_manager2.create_unique_timer (m : timer_manager2) :
    timer_manager2 × unique_timer :=
  let p := m.create_timer
  (p.1, ⟨some p.2⟩)

/-- Move assignment acting on a pool of handles, destination position i
and source position j (timers2.h lines 167-171).  A self move leaves
the handle unchanged: std::exchange writes nullptr into the slot and
the returned old value is stored right back. -/
def movePool (hs : List unique_timer) (ij : Nat × Nat) : List unique_timer :=
  if ij.1 = ij.2 then hs
  else (hs.set ij.1 ⟨(hs.getD ij.2 ⟨none⟩).handle⟩).set ij.2 ⟨none⟩

/-- No two live handles of the pool reference the same slot. -/
def NoAlias (hs : List unique_timer) : Prop :=
  ∀ i j a, i < hs.length → j < hs.length → i ≠ j →
    (hs.getD i ⟨none⟩).handle = some a → (hs.getD j ⟨none⟩).handle = some a → False

/-! ### List and wheel helper lemmas -/

theorem getD_set_self {α : Type} (l : List α) (i : Nat) (a d : α) (h : i < l.length) :
    (l.set i a).getD i d = a := by
  simp [List.getD_eq_getElem?_getD, List.getElem?_set_self h]

theorem getD_set_ne {α : Type} (l : List α) {i j : Nat} (a d : α) (h : i ≠ j) :
    (l.set i a).getD j d = l.getD j d := by
  simp [List.getD_eq_getElem?_getD, List.getElem?_set_ne h]

theorem getD_of_length_le {α : Type} (l : List α) {i : Nat} (d : α) (h : l.length ≤ i) :
    l.getD i d = d := by
  simp [List.getD_eq_getElem?_getD, List.getElem?_eq_none h]

theorem getD_append_left {α : Type} (l l' : List α) (d : α) {i : Nat} (h : i < l.length) :
    (l ++ l').getD i d = l.getD i d :=
  List.getD_append l l' d i h

namespace timer_manager2

theorem getSlot_setSlot_self (m : timer_manager2) (i : Nat) (s : timer_handle)
    (h : i < m.timer_list.length) : (m.setSlot i s).getSlot i = s := by
  show (m.timer_list.set i s).getD i (blank_timer 0) = s
  exact getD_set_self _ _ _ _ h

theorem getSlot_setSlot_ne (m : timer_manager2) {i j : Nat} (s : timer_handle)
    (h : i ≠ j) : (m.setSlot i s).getSlot j = m.getSlot j := by
  show (m.timer_list.set i s).getD j (blank_timer 0) = m.timer_list.getD j (blank_timer 0)
  exact getD_set_ne _ _ _ h

theorem length_setSlot (m : timer_manager2) (i : Nat) (s : timer_handle) :
    (m.setSlot i s).timer_list.length = m.timer_list.length := by
  simp [setSlot]

theorem getSlot_of_length_le (m : timer_manager2) {i : Nat}
    (h : m.timer_list.length ≤ i) : m.getSlot i = blank_timer 0 := by
  show m.timer_list.getD i (blank_timer 0) = blank_timer 0
  exact getD_of_length_le _ _ h

theorem lt_of_owned {m : timer_manager2} {i : Nat}
    (h : (m.getSlot i).owned = true) : i < m.timer_list.length := by
  by_contra hn
  rw [getSlot_of_length_le m (Nat.le_of_not_lt hn)] at h
  simp [blank_timer] at h

end timer_manager2

theorem wcount_nil (i : Nat) : wcount [] i = 0 := rfl

theorem wcount_cons (b : List Nat) (w : List (List Nat)) (i : Nat) :
    wcount (b :: w) i = b.count i + wcount w i := by
  simp [wcount]

theorem wcount_set (w : List (List Nat)) (b : Nat) (bkt : List Nat) (i : Nat)
    (h : b < w.length) :
    wcount (w.set b bkt) i + (w.getD b []).count i = wcount w i + bkt.count i := by
  induction w generalizing b with
  | nil => simp at h
  | cons x w ih =>
    cases b with
    | zero => simp [wcount_cons]; omega
    | succ b =>
      have hb : b < w.length := by simpa using h
      have := ih b hb
      simp only [List.set_cons_succ, wcount_cons, List.getD_cons_succ]
      omega

theorem length_wheelRemove (w : List (List Nat)) (i : Nat) :
    (wheelRemove w i).length = w.length := by
  simp [wheelRemove]

theorem length_wheelInsert (w : List (List Nat)) (b i : Nat) :
    (wheelInsert w b i).length = w.length := by
  simp [wheelInsert]

theorem count_filter_ne_self (l : List Nat) (i : Nat) :
    (l.filter (fun j => decide (j ≠ i))).count i = 0 := by
  rw [List.count_eq_zero]
  intro hmem
  rcases List.mem_filter.1 hmem with ⟨-, hdec⟩
  simp at hdec

theorem count_filter_ne_of_ne (l : List Nat) {i j : Nat} (h : j ≠ i) :
    (l.filter (fun k => decide (k ≠ i))).count j = l.count j := by
  apply List.count_filter
  simpa using h

theorem wheelRemove_cons (x : List Nat) (w : List (List Nat)) (i : Nat) :
    wheelRemove (x :: w) i = x.filter (fun j => decide (j ≠ i)) :: wheelRemove w i := rfl

theorem wcount_wheelRemove_self (w : List (List Nat)) (i : Nat) :
    wcount (wheelRemove w i) i = 0 := by
  induction w with
  | nil => rfl
  | cons x w ih =>
    rw [wheelRemove_cons, wcount_cons, count_filter_ne_self, ih]

theorem wcount_wheelRemove_ne (w : List (List Nat)) {i j : Nat} (h : j ≠ i) :
    wcount (wheelRemove w i) j = wcount w j := by
  induction w with
  | nil => rfl
  | cons x w ih =>
    rw [wheelRemove_cons, wcount_cons, count_filter_ne_of_ne x h, ih, wcount_cons]

theorem wcount_wheelInsert_self (w : List (List Nat)) (b i : Nat) (h : b < w.length) :
    wcount (wheelInsert w b i) i = wcount w i + 1 := by
  have h2 := wcount_set w b (w.getD b [] ++ [i]) i h
  rw [List.count_append] at h2
  have h3 : List.count i [i] = 1 := by simp
  rw [wheelInsert]
  omega

theorem wcount_wheelInsert_ne (w : List (List Nat)) (b : Nat) {i j : Nat} (h : j ≠ i) :
    wcount (wheelInsert w b i) j = wcount w j := by
  by_cases hb : b < w.length
  · have h2 := wcount_set w b (w.getD b [] ++ [i]) j hb
    rw [List.count_append] at h2
    have h3 : List.count j [i] = 0 := List.count_eq_zero.mpr (by simp [h])
    rw [wheelInsert]
    omega
  · rw [wheelInsert, List.set_eq_of_length_le (Nat.le_of_not_lt hb)]

theorem getD_wheelRemove (w : List (List Nat)) (i b : Nat) :
    (wheelRemove w i).getD b [] = (w.getD b []).filter (fun j => decide (j ≠ i)) := by
  induction w generalizing b with
  | nil => cases b <;> rfl
  | cons x w ih =>
    cases b with
    | zero => rfl
    | succ b => simpa [wheelRemove] using ih b

theorem getD_wheelInsert_self (w : List (List Nat)) (b i : Nat) (h : b < w.length) :
    (wheelInsert w b i).getD b [] = w.getD b [] ++ [i] := by
  rw [wheelInsert, getD_set_self _ _ _ _ h]

theorem getD_wheelInsert_ne (w : List (List Nat)) {b b' : Nat} (i : Nat) (h : b ≠ b') :
    (wheelInsert w b i).getD b' [] = w.getD b' [] := by
  rw [wheelInsert, getD_set_ne _ _ _ h]

theorem count_getD_le_wcount (w : List (List Nat)) (b i : Nat) :
    ((w.getD b []).count i) ≤ wcount w i := by
  induction w generalizing b with
  | nil => simp [wcount_nil, List.getD]
  | cons x w ih =>
    cases b with
    | zero =>
      rw [List.getD_cons_zero, wcount_cons]
      omega
    | succ b =>
      have := ih b
      rw [List.getD_cons_succ, wcount_cons]
      omega

namespace timer_manager2

theorem setSlot_of_length_le (m : timer_manager2) {i : Nat} (s : timer_handle)
    (h : m.timer_list.length ≤ i) : m.setSlot i s = m := by
  simp [setSlot, List.set_eq_of_length_le h]

theorem getSlot_setSlot (m : timer_manager2) (i : Nat) (s' : timer_handle) (j : Nat) :
    (m.setSlot i s').getSlot j =
      if j = i ∧ i < m.timer_list.length then s' else m.getSlot j := by
  by_cases hj : j = i
  · subst hj
    by_cases hi : j < m.timer_list.length
    · simp [hi, getSlot_setSlot_self _ _ _ hi]
    · rw [setSlot_of_length_le m s' (Nat.le_of_not_lt hi)]
      simp [hi]
  · simp only [hj, false_and, if_false]
    exact getSlot_setSlot_ne m s' (Ne.symm hj)

end timer_manager2

theorem count_pair_eq_zero {l : List (Nat × Nat)} {s e : Nat}
    (h : ∀ p ∈ l, p.1 = s → p.2 < e) : l.count (s, e) = 0 := by
  rw [List.count_eq_zero]
  intro hmem
  exact absurd (h _ hmem rfl) (by simp)

/-! ### Protocol invariant -/

/-- Number of start commands for slot s carrying epoch e in a command
list. -/
def cntStart (cs : List cmd_t) (s e : Nat) : Nat :=
  cs.countP (fun c => decide (c.id = s ∧ c.epoch = e ∧ c.action = action_t.start))

/-- One if the backend believes slot s is running at epoch e. -/
def bRunTok (m : timer_manager2) (s e : Nat) : Nat :=
  if (m.getSlot s).backend.state = state_t.running ∧ (m.getSlot s).backend.epoch = e
  then 1 else 0

/-- Fire tokens of the pair (slot s, epoch e): a pending start command,
a running wheel registration, an in-flight dispatched closure, or a
delivered callback.  The argument cs is the command list being counted
(the mailbox, or during a tick the commands still to be processed). -/
def tok (m : timer_manager2) (cs : List cmd_t) (s e : Nat) : Nat :=
  cntStart cs s e + bRunTok m s e + m.dispatched.count (s, e) + m.fired.count (s, e)

/-- Conditions on a list of in-flight commands relative to a state: every
command targets an existing allocated slot and carries an epoch not
above the frontend epoch of its slot; a destroy command belongs to a
slot whose handle is already gone; and after a destroy command no later
in-flight command mentions the same slot (the handle was the only
producer of commands for it). -/
structure InvCmds (m : timer_manager2) (cs : List cmd_t) : Prop where
  cmdBound : ∀ c ∈ cs, c.id < m.timer_list.length ∧ c.epoch ≤ (m.getSlot c.id).frontend.epoch
  cmdAlloc : ∀ c ∈ cs, (m.getSlot c.id).backend.exec_alloc = true
  destroyUnowned : ∀ c ∈ cs, c.action = action_t.destroy → (m.getSlot c.id).owned = false
  destroyLast : List.Pairwise (fun c1 c2 => c1.action = action_t.destroy → c2.id ≠ c1.id) cs

/-- Core state invariant of the timer manager, maintained at every
quiescent point (between atomic events of the semantics). -/
structure InvCore (m : timer_manager2) : Prop where
  wheelPos : 0 < m.time_wheel.length
  wEq : ∀ i, wcount m.time_wheel i =
    if (m.getSlot i).backend.state = state_t.running then 1 else 0
  bucketMod : ∀ b < m.time_wheel.length, ∀ i ∈ m.time_wheel.getD b [],
    (m.getSlot i).backend.timeout % m.time_wheel.length = b
  epochLe : ∀ i, (m.getSlot i).backend.epoch ≤ (m.getSlot i).frontend.epoch
  idIdx : ∀ i, i < m.timer_list.length → (m.getSlot i).id = i
  dispBound : ∀ p ∈ m.dispatched,
    p.1 < m.timer_list.length ∧ p.2 ≤ (m.getSlot p.1).frontend.epoch
  logBound : ∀ p ∈ m.dispatch_log,
    p.1 < m.timer_list.length ∧ p.2 ≤ (m.getSlot p.1).frontend.epoch
  firedBound : ∀ p ∈ m.fired,
    p.1 < m.timer_list.length ∧ p.2 ≤ (m.getSlot p.1).frontend.epoch
  freeBound : ∀ i ∈ m.free_list, i < m.timer_list.length
  freeNodup : m.free_list.Nodup
  freeState : ∀ i ∈ m.free_list,
    (m.getSlot i).owned = false ∧ (m.getSlot i).backend.exec_alloc = false
  ownedAlloc : ∀ i, (m.getSlot i).owned = true → (m.getSlot i).backend.exec_alloc = true

/-- At most one fire token per (slot, epoch) pair. -/
def TokInv (m : timer_manager2) (cs : List cmd_t) : Prop :=
  ∀ s e, tok m cs s e ≤ 1

/-- Full invariant of a quiescent manager state. -/
def Inv (m : timer_manager2) : Prop :=
  InvCore m ∧ InvCmds m m.pending_cmds ∧ TokInv m m.pending_cmds

theorem cntStart_append (cs1 cs2 : List cmd_t) (s e : Nat) :
    cntStart (cs1 ++ cs2) s e = cntStart cs1 s e + cntStart cs2 s e := by
  simp [cntStart]

theorem cntStart_cons (c : cmd_t) (cs : List cmd_t) (s e : Nat) :
    cntStart (c :: cs) s e =
      cntStart cs s e +
        if c.id = s ∧ c.epoch = e ∧ c.action = action_t.start then 1 else 0 := by
  simp [cntStart, List.countP_cons]

theorem cntStart_eq_zero {cs : List cmd_t} {s e : Nat}
    (h : ∀ c ∈ cs, c.id = s → c.epoch < e) : cntStart cs s e = 0 := by
  simp only [cntStart, List.countP_eq_zero]
  intro c hc
  simp only [decide_eq_true_eq]
  rintro ⟨h1, h2, -⟩
  exact absurd (h c hc h1) (by omega)

/-! ### Generic preservation of the invariant under one slot update

Every frontend operation rewrites one slot, leaving its backend context
and its id untouched and never decreasing its frontend epoch, and does
not move a slot in or out of the free list.  The two lemmas below settle
all invariant fields for such updates at once. -/

theorem InvCore.updateSlotCore {m : timer_manager2} (h : InvCore m) (i : Nat) (s' : timer_handle)
    (hb : s'.backend = (m.getSlot i).backend)
    (hid : s'.id = (m.getSlot i).id)
    (he : (m.getSlot i).frontend.epoch ≤ s'.frontend.epoch)
    (hown : (m.getSlot i).owned = false → s'.owned = false) :
    InvCore (m.setSlot i s') := by
  have hlen : (m.setSlot i s').timer_list.length = m.timer_list.length := m.length_setSlot i s'
  have hget := m.getSlot_setSlot i s'
  have hwheel : (m.setSlot i s').time_wheel = m.time_wheel := rfl
  constructor
  · rw [hwheel]; exact h.wheelPos
  · intro j
    rw [hwheel, hget j]
    split
    · rename_i hj
      rw [hb, ← hj.1]
      exact h.wEq j
    · exact h.wEq j
  · intro b hbb j hj
    rw [hwheel] at hbb hj ⊢
    rw [hget j]
    split
    · rw [hb]
      rename_i hj2
      rw [← hj2.1]
      exact h.bucketMod b hbb j hj
    · exact h.bucketMod b hbb j hj
  · intro j
    rw [hget j]
    split
    · rename_i hj
      rw [hb, ← hj.1]
      exact Nat.le_trans (h.epochLe j) (hj.1 ▸ he)
    · exact h.epochLe j
  · intro j hjl
    rw [hget j]
    split
    · rename_i hj
      rw [hid, ← hj.1]
      exact h.idIdx j (hlen ▸ hjl)
    · exact h.idIdx j (hlen ▸ hjl)
  · intro p hp
    have hp0 : p ∈ m.dispatched := hp
    rcases h.dispBound p hp0 with ⟨h1, h2⟩
    refine ⟨hlen ▸ h1, ?_⟩
    rw [hget p.1]
    split
    · rename_i hj
      exact Nat.le_trans h2 (hj.1 ▸ he)
    · exact h2
  · intro p hp
    have hp0 : p ∈ m.dispatch_log := hp
    rcases h.logBound p hp0 with ⟨h1, h2⟩
    refine ⟨hlen ▸ h1, ?_⟩
    rw [hget p.1]
    split
    · rename_i hj
      exact Nat.le_trans h2 (hj.1 ▸ he)
    · exact h2
  · intro p hp
    have hp0 : p ∈ m.fired := hp
    rcases h.firedBound p hp0 with ⟨h1, h2⟩
    refine ⟨hlen ▸ h1, ?_⟩
    rw [hget p.1]
    split
    · rename_i hj
      exact Nat.le_trans h2 (hj.1 ▸ he)
    · exact h2
  · intro j hj
    exact hlen ▸ h.freeBound j hj
  · exact h.freeNodup
  · intro j hj
    have hj0 : j ∈ m.free_list := hj
    rcases h.freeState j hj0 with ⟨h1, h2⟩
    rw [hget j]
    split
    · rename_i hjq
      refine ⟨hown (hjq.1 ▸ h1), ?_⟩
      rw [hb, ← hjq.1]
      exact h2
    · exact ⟨h1, h2⟩
  · intro j
    rw [hget j]
    split
    · rename_i hjq
      intro hj
      rw [hb]
      rcases Bool.eq_false_or_eq_true (m.getSlot i).owned with h0 | h0
      · exact h.ownedAlloc i h0
      · exact absurd hj (by simp [hown h0])
    · exact h.ownedAlloc j

theorem InvCmds.updateSlotCmds {m : timer_manager2} {cs : List cmd_t} (h : InvCmds m cs)
    (i : Nat) (s' : timer_handle)
    (hb : s'.backend = (m.getSlot i).backend)
    (he : (m.getSlot i).frontend.epoch ≤ s'.frontend.epoch)
    (hown : (m.getSlot i).owned = false → s'.owned = false) :
    InvCmds (m.setSlot i s') cs := by
  have hlen : (m.setSlot i s').timer_list.length = m.timer_list.length := m.length_setSlot i s'
  have hget := m.getSlot_setSlot i s'
  constructor
  · intro c hc
    rcases h.cmdBound c hc with ⟨h1, h2⟩
    refine ⟨hlen ▸ h1, ?_⟩
    rw [hget c.id]
    split
    · rename_i hj
      exact Nat.le_trans h2 (hj.1 ▸ he)
    · exact h2
  · intro c hc
    rw [hget c.id]
    split
    · rename_i hj
      rw [hb, ← hj.1]
      exact h.cmdAlloc c hc
    · exact h.cmdAlloc c hc
  · intro c hc hdc
    rw [hget c.id]
    split
    · rename_i hj
      exact hown (hj.1 ▸ h.destroyUnowned c hc hdc)
    · exact h.destroyUnowned c hc hdc
  · exact h.destroyLast

theorem InvCmds.append_cmd {m : timer_manager2} {cs : List cmd_t} (h : InvCmds m cs)
    (c : cmd_t)
    (hid : c.id < m.timer_list.length)
    (hep : c.epoch ≤ (m.getSlot c.id).frontend.epoch)
    (hal : (m.getSlot c.id).backend.exec_alloc = true)
    (hde : c.action = action_t.destroy → (m.getSlot c.id).owned = false)
    (hnp : ∀ c1 ∈ cs, c1.action = action_t.destroy → c.id ≠ c1.id) :
    InvCmds m (cs ++ [c]) := by
  constructor
  · intro c2 hc2
    rcases List.mem_append.1 hc2 with h2 | h2
    · exact h.cmdBound c2 h2
    · rw [List.mem_singleton.1 h2]
      exact ⟨hid, hep⟩
  · intro c2 hc2
    rcases List.mem_append.1 hc2 with h2 | h2
    · exact h.cmdAlloc c2 h2
    · rw [List.mem_singleton.1 h2]
      exact hal
  · intro c2 hc2 hd2
    rcases List.mem_append.1 hc2 with h2 | h2
    · exact h.destroyUnowned c2 h2 hd2
    · rw [List.mem_singleton.1 h2] at hd2 ⊢
      exact hde hd2
  · rw [List.pairwise_append]
    refine ⟨h.destroyLast, List.pairwise_singleton _ _, ?_⟩
    intro c1 h1 c2 h2 hd1
    rw [List.mem_singleton.1 h2]
    exact hnp c1 h1 hd1

theorem getSlot_congr {m m' : timer_manager2} (hl : m'.timer_list = m.timer_list) :
    ∀ j, m'.getSlot j = m.getSlot j := by
  intro j
  simp [timer_manager2.getSlot, hl]

theorem InvCore.congrCore {m m' : timer_manager2} (h : InvCore m)
    (hw : m'.time_wheel = m.time_wheel) (hl : m'.timer_list = m.timer_list)
    (hf : m'.free_list = m.free_list) (hd : m'.dispatched = m.dispatched)
    (hg : m'.dispatch_log = m.dispatch_log) (hr : m'.fired = m.fired) : InvCore m' := by
  have hgs := getSlot_congr hl
  have hll : m'.timer_list.length = m.timer_list.length := by rw [hl]
  constructor
  · rw [hw]; exact h.wheelPos
  · intro j; rw [hw, hgs j]; exact h.wEq j
  · intro b hb j hj; rw [hw] at hb hj; rw [hw, hgs j]; exact h.bucketMod b hb j hj
  · intro j; rw [hgs j]; exact h.epochLe j
  · intro j hj; rw [hgs j]; exact h.idIdx j (hll ▸ hj)
  · intro p hp; rw [hd] at hp; rw [hgs p.1, hll]; exact h.dispBound p hp
  · intro p hp; rw [hg] at hp; rw [hgs p.1, hll]; exact h.logBound p hp
  · intro p hp; rw [hr] at hp; rw [hgs p.1, hll]; exact h.firedBound p hp
  · intro j hj; rw [hf] at hj; rw [hll]; exact h.freeBound j hj
  · rw [hf]; exact h.freeNodup
  · intro j hj; rw [hf] at hj; rw [hgs j]; exact h.freeState j hj
  · intro j; rw [hgs j]; exact h.ownedAlloc j

theorem InvCmds.congrCmds {m m' : timer_manager2} {cs : List cmd_t} (h : InvCmds m cs)
    (hl : m'.timer_list = m.timer_list) : InvCmds m' cs := by
  have hgs := getSlot_congr hl
  have hll : m'.timer_list.length = m.timer_list.length := by rw [hl]
  constructor
  · intro c hc; rw [hgs c.id, hll]; exact h.cmdBound c hc
  · intro c hc; rw [hgs c.id]; exact h.cmdAlloc c hc
  · intro c hc hd; rw [hgs c.id]; exact h.destroyUnowned c hc hd
  · exact h.destroyLast

theorem TokInv.congrTok {m m' : timer_manager2} {cs : List cmd_t} (h : TokInv m cs)
    (hl : m'.timer_list = m.timer_list) (hd : m'.dispatched = m.dispatched)
    (hr : m'.fired = m.fired) : TokInv m' cs := by
  intro s e
  have hgs := getSlot_congr hl
  have : tok m' cs s e = tok m cs s e := by
    simp [tok, bRunTok, hgs s, hd, hr]
  rw [this]
  exact h s e

theorem bRunTok_setSlot {m : timer_manager2} {i : Nat} {s' : timer_handle}
    (hb : s'.backend = (m.getSlot i).backend) :
    ∀ q e, bRunTok (m.setSlot i s') q e = bRunTok m q e := by
  intro q e
  rw [bRunTok, bRunTok, m.getSlot_setSlot i s']
  split
  · rename_i hq
    rw [hb, ← hq.1]
  · rfl

/-- All four fire tokens of a pair above the frontend epoch are absent. -/
theorem tok_zero_of_gt {m : timer_manager2} {cs : List cmd_t} {s e : Nat}
    (hcore : InvCore m) (hcmds : InvCmds m cs)
    (he : (m.getSlot s).frontend.epoch < e) : tok m cs s e = 0 := by
  have h1 : cntStart cs s e = 0 := by
    apply cntStart_eq_zero
    intro c hc hcs
    have := (hcmds.cmdBound c hc).2
    rw [hcs] at this
    omega
  have h2 : bRunTok m s e = 0 := by
    rw [bRunTok, if_neg]
    rintro ⟨-, hq⟩
    have := hcore.epochLe s
    omega
  have h3 : m.dispatched.count (s, e) = 0 := by
    apply count_pair_eq_zero
    intro p hp h1p
    have := (hcore.dispBound p hp).2
    rw [h1p] at this
    omega
  have h4 : m.fired.count (s, e) = 0 := by
    apply count_pair_eq_zero
    intro p hp h1p
    have := (hcore.firedBound p hp).2
    rw [h1p] at this
    omega
  rw [tok, h1, h2, h3, h4]

theorem cntStart_singleton (c : cmd_t) (s e : Nat) :
    cntStart [c] s e =
      if c.id = s ∧ c.epoch = e ∧ c.action = action_t.start then 1 else 0 := by
  rw [show ([c] : List cmd_t) = c :: [] from rfl, cntStart_cons]
  simp [cntStart]

/-! ### Equation lemmas restating each operation as one explicit update -/

theorem set_eq (m : timer_manager2) (i dur : Nat) :
    timer_handle.set m i dur =
      m.setSlot i { m.getSlot i with
        frontend := { (m.getSlot i).frontend with duration := dur } } := rfl

theorem set_cb_eq (m : timer_manager2) (i dur : Nat) :
    timer_handle.set_cb m i dur =
      m.setSlot i { m.getSlot i with
        frontend := { (m.getSlot i).frontend with duration := dur, has_callback := true } } := rfl

theorem run_eq (m : timer_manager2) (i : Nat) :
    timer_handle.run m i =
      { m.setSlot i { m.getSlot i with
          frontend := { (m.getSlot i).frontend with
            epoch := (m.getSlot i).frontend.epoch + 1, state := .running } } with
        pending_cmds := m.pending_cmds ++
          [⟨(m.getSlot i).id, (m.getSlot i).frontend.epoch + 1, .start,
            (m.getSlot i).frontend.duration⟩] } := rfl

theorem stop_eq_running (m : timer_manager2) (i : Nat)
    (h : (m.getSlot i).frontend.state = state_t.running) :
    timer_handle.stop m i =
      { m.setSlot i { m.getSlot i with
          frontend := { (m.getSlot i).frontend with
            epoch := (m.getSlot i).frontend.epoch + 1, state := .stopped } } with
        pending_cmds := m.pending_cmds ++
          [⟨(m.getSlot i).id, (m.getSlot i).frontend.epoch + 1, .stop, 0⟩] } := by
  rw [timer_handle.stop]
  simp only [h, if_true]
  rfl

theorem stop_eq_not_running (m : timer_manager2) (i : Nat)
    (h : (m.getSlot i).frontend.state ≠ state_t.running) :
    timer_handle.stop m i = m := by
  rw [timer_handle.stop]
  simp only [h, if_false]

theorem destroy_eq (m : timer_manager2) (i : Nat) :
    timer_handle.destroy m i =
      { m.setSlot i { m.getSlot i with
          frontend := { (m.getSlot i).frontend with
            epoch := (m.getSlot i).frontend.epoch + 1 } } with
        pending_cmds := m.pending_cmds ++
          [⟨(m.getSlot i).id, (m.getSlot i).frontend.epoch + 1, .destroy, 0⟩] } := rfl

theorem tok_pending_irrel (m : timer_manager2) (P : List cmd_t) (cs : List cmd_t) (s e : Nat) :
    tok { m with pending_cmds := P } cs s e = tok m cs s e := rfl

/-! ### Invariant preservation, frontend events -/

theorem Inv.fset {m : timer_manager2} (h : Inv m) (i dur : Nat) :
    Inv (timer_handle.set m i dur) := by
  obtain ⟨hcore, hcmds, htok⟩ := h
  rw [set_eq]
  refine ⟨?_, ?_, ?_⟩
  · exact InvCore.updateSlotCore hcore i _ rfl rfl (Nat.le_refl _) (fun h0 => h0)
  · exact InvCmds.updateSlotCmds hcmds i _ rfl (Nat.le_refl _) (fun h0 => h0)
  · intro s e
    have hb := @bRunTok_setSlot m i
      { m.getSlot i with frontend := { (m.getSlot i).frontend with duration := dur } }
      rfl s e
    calc tok _ _ s e
        = cntStart m.pending_cmds s e + bRunTok m s e
            + m.dispatched.count (s, e) + m.fired.count (s, e) := by rw [tok, hb]; rfl
      _ ≤ 1 := htok s e


theorem Inv.fset_cb {m : timer_manager2} (h : Inv m) (i dur : Nat) :
    Inv (timer_handle.set_cb m i dur) := by
  obtain ⟨hcore, hcmds, htok⟩ := h
  rw [set_cb_eq]
  refine ⟨?_, ?_, ?_⟩
  · exact InvCore.updateSlotCore hcore i _ rfl rfl (Nat.le_refl _) (fun h0 => h0)
  · exact InvCmds.updateSlotCmds hcmds i _ rfl (Nat.le_refl _) (fun h0 => h0)
  · intro s e
    have hb := @bRunTok_setSlot m i
      { m.getSlot i with frontend :=
        { (m.getSlot i).frontend with duration := dur, has_callback := true } }
      rfl s e
    calc tok _ _ s e
        = cntStart m.pending_cmds s e + bRunTok m s e
            + m.dispatched.count (s, e) + m.fired.count (s, e) := by rw [tok, hb]; rfl
      _ ≤ 1 := htok s e

/-- Invariant preservation for a frontend event that rewrites slot i
(preserving its backend context and id, not decreasing its frontend
epoch) and posts one command for that slot.  Covers run, stop and
destroy through their equation lemmas. -/
theorem Inv.post_cmd {m : timer_manager2} (i : Nat) (s' : timer_handle) (c : cmd_t)
    (hcore : InvCore m) (hcmds : InvCmds m m.pending_cmds) (htok : TokInv m m.pending_cmds)
    (hb : s'.backend = (m.getSlot i).backend)
    (hsid : s'.id = (m.getSlot i).id)
    (he : (m.getSlot i).frontend.epoch ≤ s'.frontend.epoch)
    (hown : (m.getSlot i).owned = false → s'.owned = false)
    (hown2 : (m.getSlot i).owned = true)
    (hcid : c.id = i)
    (hcep : c.epoch ≤ s'.frontend.epoch)
    (htokc : c.action = action_t.start →
      c.epoch = s'.frontend.epoch ∧ (m.getSlot i).frontend.epoch < c.epoch)
    (hde : c.action = action_t.destroy → s'.owned = false) :
    Inv { m.setSlot i s' with pending_cmds := m.pending_cmds ++ [c] } := by
  have hlt : i < m.timer_list.length := timer_manager2.lt_of_owned hown2
  have halloc : (m.getSlot i).backend.exec_alloc = true := hcore.ownedAlloc i hown2
  have hgets : (m.setSlot i s').getSlot i = s' := m.getSlot_setSlot_self i s' hlt
  refine ⟨?_, ?_, ?_⟩
  · exact InvCore.congrCore (InvCore.updateSlotCore hcore i s' hb hsid he hown) rfl rfl rfl rfl rfl rfl
  · have base : InvCmds (m.setSlot i s') (m.pending_cmds ++ [c]) := by
      apply InvCmds.append_cmd (InvCmds.updateSlotCmds hcmds i s' hb he hown) c
      · rw [hcid, m.length_setSlot i s']
        exact hlt
      · rw [hcid, hgets]
        exact hcep
      · rw [hcid, hgets, hb]
        exact halloc
      · intro hdc
        rw [hcid, hgets]
        exact hde hdc
      · intro c1 h1 hd1
        rw [hcid]
        intro hq
        have := hcmds.destroyUnowned c1 h1 hd1
        rw [← hq] at this
        rw [this] at hown2
        cases hown2
    exact InvCmds.congrCmds base rfl
  · intro s e
    show cntStart (m.pending_cmds ++ [c]) s e + bRunTok (m.setSlot i s') s e
        + m.dispatched.count (s, e) + m.fired.count (s, e) ≤ 1
    rw [cntStart_append, cntStart_singleton, bRunTok_setSlot hb s e]
    by_cases hst : c.id = s ∧ c.epoch = e ∧ c.action = action_t.start
    · rw [if_pos hst]
      obtain ⟨h1, h2, h3⟩ := hst
      obtain ⟨h4, h5⟩ := htokc h3
      subst h1
      subst h2
      have h0 : tok m m.pending_cmds c.id c.epoch = 0 := by
        apply tok_zero_of_gt hcore hcmds
        rw [hcid]
        exact h5
      rw [tok] at h0
      omega
    · rw [if_neg hst]
      have h0 := htok s e
      rw [tok] at h0
      omega

theorem Inv.frun {m : timer_manager2} (h : Inv m) {i : Nat}
    (how : (m.getSlot i).owned = true) : Inv (timer_handle.run m i) := by
  obtain ⟨hcore, hcmds, htok⟩ := h
  have hlt : i < m.timer_list.length := timer_manager2.lt_of_owned how
  rw [run_eq]
  refine Inv.post_cmd i _ _ hcore hcmds htok rfl rfl (Nat.le_succ _) (fun h0 => h0) how
    (hcore.idIdx i hlt) (Nat.le_refl _) (fun _ => ⟨rfl, Nat.lt_succ_self _⟩) ?_
  intro hx
  cases hx

theorem Inv.fstop {m : timer_manager2} (h : Inv m) {i : Nat}
    (how : (m.getSlot i).owned = true) : Inv (timer_handle.stop m i) := by
  by_cases hr : (m.getSlot i).frontend.state = state_t.running
  · obtain ⟨hcore, hcmds, htok⟩ := h
    have hlt : i < m.timer_list.length := timer_manager2.lt_of_owned how
    rw [stop_eq_running m i hr]
    refine Inv.post_cmd i _ _ hcore hcmds htok rfl rfl (Nat.le_succ _) (fun h0 => h0) how
      (hcore.idIdx i hlt) (Nat.le_refl _) ?_ ?_
    · intro hx
      cases hx
    · intro hx
      cases hx
  · rw [stop_eq_not_running m i hr]
    exact h

theorem fdestroy_eq (m : timer_manager2) (i : Nat) (hlt : i < m.timer_list.length) :
    (timer_handle.destroy m i).markUnowned i =
      { m.setSlot i { m.getSlot i with
          frontend := { (m.getSlot i).frontend with epoch := (m.getSlot i).frontend.epoch + 1 }
          owned := false } with
        pending_cmds := m.pending_cmds ++
          [⟨(m.getSlot i).id, (m.getSlot i).frontend.epoch + 1, .destroy, 0⟩] } := by
  rw [destroy_eq, timer_manager2.markUnowned]
  have hg : ({ m.setSlot i { m.getSlot i with
        frontend := { (m.getSlot i).frontend with epoch := (m.getSlot i).frontend.epoch + 1 } } with
      pending_cmds := m.pending_cmds ++
        [⟨(m.getSlot i).id, (m.getSlot i).frontend.epoch + 1, .destroy, 0⟩] } :
      timer_manager2).getSlot i =
      { m.getSlot i with
        frontend := { (m.getSlot i).frontend with epoch := (m.getSlot i).frontend.epoch + 1 } } :=
    m.getSlot_setSlot_self i _ hlt
  rw [hg]
  simp [timer_manager2.setSlot, List.set_set]

theorem Inv.fdestroy {m : timer_manager2} (h : Inv m) {i : Nat}
    (how : (m.getSlot i).owned = true) : Inv ((timer_handle.destroy m i).markUnowned i) := by
  obtain ⟨hcore, hcmds, htok⟩ := h
  have hlt : i < m.timer_list.length := timer_manager2.lt_of_owned how
  rw [fdestroy_eq m i hlt]
  refine Inv.post_cmd i _ _ hcore hcmds htok rfl rfl (Nat.le_succ _) (fun _ => rfl) how
    (hcore.idIdx i hlt) (Nat.le_refl _) ?_ (fun _ => rfl)
  intro hx
  cases hx


theorem getD_append_cases {α : Type} (l : List α) (x d : α) (j : Nat) :
    (l ++ [x]).getD j d = if j < l.length then l.getD j d else if j = l.length then x else d := by
  by_cases h1 : j < l.length
  · rw [if_pos h1, getD_append_left _ _ _ h1]
  · rw [if_neg h1]
    by_cases h2 : j = l.length
    · subst h2
      rw [if_pos rfl, List.getD_append_right l [x] d l.length (Nat.le_refl _), Nat.sub_self]
      rfl
    · rw [if_neg h2]
      have : (l ++ [x]).length ≤ j := by
        simp only [List.length_append, List.length_singleton]
        omega
      exact getD_of_length_le _ _ this

theorem create_timer_cons (m : timer_manager2) (f : Nat) (rest : List Nat)
    (hf : m.free_list = f :: rest) :
    m.create_timer =
      (({ m with free_list := rest }).setSlot f
        { m.getSlot f with
          owned := true
          backend := { (m.getSlot f).backend with exec_alloc := true } }, f) := by
  unfold timer_manager2.create_timer
  rw [hf]

theorem create_timer_nil (m : timer_manager2) (hf : m.free_list = []) :
    m.create_timer =
      ({ m with timer_list := m.timer_list ++
          [{ blank_timer m.timer_list.length with
             owned := true
             backend := { (blank_timer m.timer_list.length).backend with exec_alloc := true } }] },
        m.timer_list.length) := by
  unfold timer_manager2.create_timer
  rw [hf]

theorem Inv.create {m : timer_manager2} (h : Inv m) : Inv (m.create_timer).1 := by
  obtain ⟨hcore, hcmds, htok⟩ := h
  rcases hf : m.free_list with _ | ⟨f, rest⟩
  · -- pool growth: append a fresh slot at position L
    rw [create_timer_nil m hf]
    set L := m.timer_list.length with hL
    set snew : timer_handle :=
      { blank_timer L with
        owned := true
        backend := { (blank_timer L).backend with exec_alloc := true } } with hsnew
    have hget : ∀ j, ({ m with timer_list := m.timer_list ++ [snew] } :
        timer_manager2).getSlot j = if j < L then m.getSlot j else if j = L then snew else blank_timer 0 := by
      intro j
      show (m.timer_list ++ [snew]).getD j (blank_timer 0) = _
      rw [getD_append_cases]
      by_cases h1 : j < L
      · rw [if_pos h1, if_pos h1]
        rfl
      · rw [if_neg h1, if_neg h1]
    have hgetle : ∀ j, ¬ j < L → (m.getSlot j) = blank_timer 0 := by
      intro j hj
      exact m.getSlot_of_length_le (Nat.le_of_not_lt hj)
    have hstate : ∀ j, (({ m with timer_list := m.timer_list ++ [snew] } :
        timer_manager2).getSlot j).backend.state = (m.getSlot j).backend.state := by
      intro j
      rw [hget j]
      by_cases h1 : j < L
      · rw [if_pos h1]
      · rw [if_neg h1, hgetle j h1]
        by_cases h2 : j = L
        · rw [if_pos h2]
          rfl
        · rw [if_neg h2]
    have hepoch : ∀ j, (({ m with timer_list := m.timer_list ++ [snew] } :
        timer_manager2).getSlot j).frontend.epoch = (m.getSlot j).frontend.epoch := by
      intro j
      rw [hget j]
      by_cases h1 : j < L
      · rw [if_pos h1]
      · rw [if_neg h1, hgetle j h1]
        by_cases h2 : j = L
        · rw [if_pos h2]
          rfl
        · rw [if_neg h2]
    have hlen : ({ m with timer_list := m.timer_list ++ [snew] } :
        timer_manager2).timer_list.length = L + 1 := by
      show (m.timer_list ++ [snew]).length = L + 1
      simp
    refine ⟨?_, ?_, ?_⟩
    · constructor
      · exact hcore.wheelPos
      · intro j
        rw [show ({ m with timer_list := m.timer_list ++ [snew] } :
          timer_manager2).time_wheel = m.time_wheel from rfl, hstate j]
        exact hcore.wEq j
      · intro b hb j hj
        rw [show ({ m with timer_list := m.timer_list ++ [snew] } :
          timer_manager2).time_wheel = m.time_wheel from rfl] at hb hj
        have hb0 := hcore.bucketMod b hb j hj
        have ht : (({ m with timer_list := m.timer_list ++ [snew] } :
            timer_manager2).getSlot j).backend.timeout = (m.getSlot j).backend.timeout := by
          rw [hget j]
          by_cases h1 : j < L
          · rw [if_pos h1]
          · rw [if_neg h1, hgetle j h1]
            by_cases h2 : j = L
            · rw [if_pos h2]
              rfl
            · rw [if_neg h2]
        rw [show ({ m with timer_list := m.timer_list ++ [snew] } :
          timer_manager2).time_wheel = m.time_wheel from rfl, ht]
        exact hb0
      · intro j
        have hb := hstate j
        have he := hepoch j
        rw [hget j]
        by_cases h1 : j < L
        · rw [if_pos h1]
          exact hcore.epochLe j
        · rw [if_neg h1]
          by_cases h2 : j = L
          · rw [if_pos h2]
            exact Nat.le_refl _
          · rw [if_neg h2]
            exact Nat.le_refl _
      · intro j hj
        rw [hget j]
        by_cases h1 : j < L
        · rw [if_pos h1]
          exact hcore.idIdx j h1
        · rw [if_neg h1]
          rw [hlen] at hj
          have h2 : j = L := by omega
          rw [if_pos h2, h2]
          rfl
      · intro p hp
        have := hcore.dispBound p hp
        rw [hepoch p.1, hlen]
        refine ⟨by omega, this.2⟩
      · intro p hp
        have := hcore.logBound p hp
        rw [hepoch p.1, hlen]
        refine ⟨by omega, this.2⟩
      · intro p hp
        have := hcore.firedBound p hp
        rw [hepoch p.1, hlen]
        refine ⟨by omega, this.2⟩
      · intro j hj
        have := hcore.freeBound j hj
        rw [hlen]
        omega
      · exact hcore.freeNodup
      · intro j hj
        have h0 := hcore.freeState j hj
        have h1 : j < L := hcore.freeBound j hj
        rw [hget j, if_pos h1]
        exact h0
      · intro j
        rw [hget j]
        by_cases h1 : j < L
        · rw [if_pos h1]
          exact hcore.ownedAlloc j
        · rw [if_neg h1]
          by_cases h2 : j = L
          · rw [if_pos h2]
            exact fun _ => rfl
          · rw [if_neg h2]
            intro hx
            simp [blank_timer] at hx
    · constructor
      · intro c hc
        have := hcmds.cmdBound c hc
        rw [hepoch c.id, hlen]
        exact ⟨by omega, this.2⟩
      · intro c hc
        have h0 := hcmds.cmdAlloc c hc
        have h1 : c.id < L := (hcmds.cmdBound c hc).1
        rw [hget c.id, if_pos h1]
        exact h0
      · intro c hc hd
        have h0 := hcmds.destroyUnowned c hc hd
        have h1 : c.id < L := (hcmds.cmdBound c hc).1
        rw [hget c.id, if_pos h1]
        exact h0
      · exact hcmds.destroyLast
    · intro s e
      have hb : bRunTok ({ m with timer_list := m.timer_list ++ [snew] } :
          timer_manager2) s e = bRunTok m s e := by
        rw [bRunTok, bRunTok, hget s]
        by_cases h1 : s < L
        · rw [if_pos h1]
        · rw [if_neg h1, hgetle s h1]
          by_cases h2 : s = L
          · rw [if_pos h2]
            rfl
          · rw [if_neg h2]
      have h0 := htok s e
      rw [tok] at h0 ⊢
      rw [hb]
      exact h0
  · -- reuse a slot from the free list
    rw [create_timer_cons m f rest hf]
    set s' : timer_handle :=
      { m.getSlot f with
        owned := true
        backend := { (m.getSlot f).backend with exec_alloc := true } } with hs'
    have hbst : s'.backend.state = (m.getSlot f).backend.state := rfl
    have hbep : s'.backend.epoch = (m.getSlot f).backend.epoch := rfl
    have hbto : s'.backend.timeout = (m.getSlot f).backend.timeout := rfl
    have hsf : s'.frontend = (m.getSlot f).frontend := rfl
    have hsid : s'.id = (m.getSlot f).id := rfl
    have hflt : f < m.timer_list.length := hcore.freeBound f (by rw [hf]; exact List.mem_cons_self f rest)
    have hfmem : f ∈ m.free_list := by rw [hf]; exact List.mem_cons_self f rest
    have hnodup : f ∉ rest := by
      have := hcore.freeNodup
      rw [hf] at this
      exact (List.nodup_cons.1 this).1
    have hget : ∀ j, (({ m with free_list := rest } : timer_manager2).setSlot f s').getSlot j =
        if j = f ∧ f < m.timer_list.length then s' else m.getSlot j := by
      intro j
      rw [timer_manager2.getSlot_setSlot]
      rfl
    have hlen : ((({ m with free_list := rest } : timer_manager2)).setSlot f s').timer_list.length
        = m.timer_list.length := by
      show (m.timer_list.set f s').length = m.timer_list.length
      simp
    refine ⟨?_, ?_, ?_⟩
    · constructor
      · exact hcore.wheelPos
      · intro j
        rw [show ((({ m with free_list := rest } : timer_manager2)).setSlot f s').time_wheel
          = m.time_wheel from rfl, hget j]
        split
        · rename_i hj
          rw [hbst, ← hj.1]
          exact hcore.wEq j
        · exact hcore.wEq j
      · intro b hb j hj
        rw [show ((({ m with free_list := rest } : timer_manager2)).setSlot f s').time_wheel
          = m.time_wheel from rfl] at hb hj
        have hb0 := hcore.bucketMod b hb j hj
        rw [show ((({ m with free_list := rest } : timer_manager2)).setSlot f s').time_wheel
          = m.time_wheel from rfl, hget j]
        split
        · rename_i hj2
          rw [hbto, ← hj2.1]
          exact hb0
        · exact hb0
      · intro j
        rw [hget j]
        split
        · rename_i hj
          rw [hbep, hsf, ← hj.1]
          exact hcore.epochLe j
        · exact hcore.epochLe j
      · intro j hj
        rw [hlen] at hj
        rw [hget j]
        split
        · rename_i hj2
          rw [hsid, hj2.1]
          exact hcore.idIdx f hj2.2
        · exact hcore.idIdx j hj
      · intro p hp
        have := hcore.dispBound p hp
        rw [hget p.1, hlen]
        split
        · rename_i hj
          rw [hsf, ← hj.1]
          exact this
        · exact this
      · intro p hp
        have := hcore.logBound p hp
        rw [hget p.1, hlen]
        split
        · rename_i hj
          rw [hsf, ← hj.1]
          exact this
        · exact this
      · intro p hp
        have := hcore.firedBound p hp
        rw [hget p.1, hlen]
        split
        · rename_i hj
          rw [hsf, ← hj.1]
          exact this
        · exact this
      · intro j hj
        rw [hlen]
        exact hcore.freeBound j (by rw [hf]; exact List.mem_cons_of_mem f hj)
      · have := hcore.freeNodup
        rw [hf] at this
        exact (List.nodup_cons.1 this).2
      · intro j hj
        have hjf : j ≠ f := fun hq => hnodup (hq ▸ hj)
        rw [hget j, if_neg (by intro hq; exact hjf hq.1)]
        exact hcore.freeState j (by rw [hf]; exact List.mem_cons_of_mem f hj)
      · intro j
        rw [hget j]
        split
        · exact fun _ => rfl
        · exact hcore.ownedAlloc j
    · constructor
      · intro c hc
        have := hcmds.cmdBound c hc
        rw [hget c.id, hlen]
        split
        · rename_i hj
          rw [hsf, ← hj.1]
          exact this
        · exact this
      · intro c hc
        have h0 := hcmds.cmdAlloc c hc
        rw [hget c.id]
        split
        · rfl
        · exact h0
      · intro c hc hd
        have h0 := hcmds.destroyUnowned c hc hd
        rw [hget c.id]
        split
        · rename_i hj
          -- a pending destroy cannot target the popped free slot
          exfalso
          have h1 := hcmds.cmdAlloc c hc
          have h2 := hcore.freeState f hfmem
          rw [hj.1] at h1
          rw [h1] at h2
          simp at h2
        · exact h0
      · exact hcmds.destroyLast
    · intro s e
      have hb : bRunTok ((({ m with free_list := rest } : timer_manager2)).setSlot f s') s e
          = bRunTok m s e := by
        rw [bRunTok, bRunTok, hget s]
        split
        · rename_i hj
          rw [hbst, hbep, ← hj.1]
        · rfl
      have h0 := htok s e
      rw [tok] at h0 ⊢
      rw [hb]
      exact h0

theorem count_eraseIdx (l : List (Nat × Nat)) (n : Nat) (d p : Nat × Nat)
    (h : n < l.length) :
    (l.eraseIdx n).count p + (if l.getD n d = p then 1 else 0) = l.count p := by
  have hsplit : l = l.take n ++ l[n] :: l.drop (n + 1) := by
    conv_lhs => rw [← List.take_append_drop n l]
    rw [List.drop_eq_getElem_cons h]
  have hgd : l.getD n d = l[n] := List.getD_eq_getElem l d h
  rw [List.eraseIdx_eq_take_drop_succ, List.count_append, hgd]
  conv_rhs => rw [hsplit]
  rw [List.count_append, List.count_cons]
  by_cases hqq : l[n] = p
  · rw [if_pos hqq, if_pos (by simp [hqq])]
    omega
  · rw [if_neg hqq, if_neg (by
      simp only [beq_iff_eq]
      intro hx
      apply hqq
      first
      | exact hx
      | exact hx.symm)]
    omega

theorem getD_mem {α : Type} (l : List α) (n : Nat) (d : α) (h : n < l.length) :
    l.getD n d ∈ l := by
  rw [List.getD_eq_getElem l d h]
  exact List.getElem_mem h

theorem InvCore.dispatched_subset {m : timer_manager2} (h : InvCore m)
    (d' : List (Nat × Nat)) (hsub : ∀ p ∈ d', p ∈ m.dispatched) :
    InvCore { m with dispatched := d' } := by
  constructor
  · exact h.wheelPos
  · exact h.wEq
  · exact h.bucketMod
  · exact h.epochLe
  · exact h.idIdx
  · intro p hp
    exact h.dispBound p (hsub p hp)
  · exact h.logBound
  · exact h.firedBound
  · exact h.freeBound
  · exact h.freeNodup
  · exact h.freeState
  · exact h.ownedAlloc

theorem InvCore.fired_append {m : timer_manager2} (h : InvCore m) (q : Nat × Nat)
    (h1 : q.1 < m.timer_list.length) (h2 : q.2 ≤ (m.getSlot q.1).frontend.epoch) :
    InvCore { m with fired := m.fired ++ [q] } := by
  constructor
  · exact h.wheelPos
  · exact h.wEq
  · exact h.bucketMod
  · exact h.epochLe
  · exact h.idIdx
  · exact h.dispBound
  · exact h.logBound
  · intro p hp
    rcases List.mem_append.1 hp with hp0 | hp0
    · exact h.firedBound p hp0
    · rw [List.mem_singleton.1 hp0]
      exact ⟨h1, h2⟩
  · exact h.freeBound
  · exact h.freeNodup
  · exact h.freeState
  · exact h.ownedAlloc

theorem run_dispatched_eq (m : timer_manager2) (n : Nat) (hn : n < m.dispatched.length) :
    m.run_dispatched n =
      (if (m.dispatched.getD n (0, 0)).1 < m.timer_list.length ∧
          (m.getSlot (m.dispatched.getD n (0, 0)).1).frontend.epoch
            = (m.dispatched.getD n (0, 0)).2 then
        (if (m.getSlot (m.dispatched.getD n (0, 0)).1).frontend.has_callback then
          { ({ m with dispatched := m.dispatched.eraseIdx n } :
              timer_manager2).setSlot (m.dispatched.getD n (0, 0)).1
              { m.getSlot (m.dispatched.getD n (0, 0)).1 with
                frontend := { (m.getSlot (m.dispatched.getD n (0, 0)).1).frontend with
                  state := .expired } } with
            fired := m.fired ++ [m.dispatched.getD n (0, 0)] }
        else
          ({ m with dispatched := m.dispatched.eraseIdx n } :
              timer_manager2).setSlot (m.dispatched.getD n (0, 0)).1
              { m.getSlot (m.dispatched.getD n (0, 0)).1 with
                frontend := { (m.getSlot (m.dispatched.getD n (0, 0)).1).frontend with
                  state := .expired } })
      else { m with dispatched := m.dispatched.eraseIdx n }) := by
  rw [timer_manager2.run_dispatched, if_pos hn]
  rfl

theorem Inv.run_disp {m : timer_manager2} (h : Inv m) (n : Nat) :
    Inv (m.run_dispatched n) := by
  obtain ⟨hcore, hcmds, htok⟩ := h
  by_cases hn : n < m.dispatched.length
  · rw [run_dispatched_eq m n hn]
    have hcnt0 : ∀ p, (m.dispatched.eraseIdx n).count p
        + (if m.dispatched.getD n (0, 0) = p then 1 else 0) = m.dispatched.count p :=
      fun p => count_eraseIdx m.dispatched n (0, 0) p hn
    generalize hgq : m.dispatched.getD n (0, 0) = q at *
    have hsub : ∀ p ∈ m.dispatched.eraseIdx n, p ∈ m.dispatched :=
      fun p hp => List.mem_of_mem_eraseIdx hp
    have hcore1 : InvCore ({ m with dispatched := m.dispatched.eraseIdx n } : timer_manager2) :=
      InvCore.dispatched_subset hcore _ hsub
    split
    · rename_i hcond
      have hc1 : q.1 < m.timer_list.length := hcond.1
      have hc2 : (m.getSlot q.1).frontend.epoch = q.2 := hcond.2
      have hcore2 : InvCore (({ m with dispatched := m.dispatched.eraseIdx n } :
          timer_manager2).setSlot q.1 { m.getSlot q.1 with
            frontend := { (m.getSlot q.1).frontend with state := .expired } }) :=
        InvCore.updateSlotCore hcore1 q.1 _ rfl rfl (Nat.le_refl _) (fun h0 => h0)
      have hcmds2 : InvCmds (({ m with dispatched := m.dispatched.eraseIdx n } :
          timer_manager2).setSlot q.1 { m.getSlot q.1 with
            frontend := { (m.getSlot q.1).frontend with state := .expired } }) m.pending_cmds := by
        have b2 : InvCmds ({ m with dispatched := m.dispatched.eraseIdx n } :
            timer_manager2) m.pending_cmds := InvCmds.congrCmds hcmds rfl
        exact InvCmds.updateSlotCmds b2 q.1 _ rfl (Nat.le_refl _) (fun h0 => h0)
      have hepoch2 : (((({ m with dispatched := m.dispatched.eraseIdx n } :
          timer_manager2)).setSlot q.1 { m.getSlot q.1 with
            frontend := { (m.getSlot q.1).frontend with state := .expired } }).getSlot
            q.1).frontend.epoch = q.2 := by
        have hgs := timer_manager2.getSlot_setSlot
          ({ m with dispatched := m.dispatched.eraseIdx n } : timer_manager2) q.1
          ({ m.getSlot q.1 with
            frontend := { (m.getSlot q.1).frontend with state := .expired } }) q.1
        rw [hgs]
        split
        · exact hc2
        · rename_i hf2
          exact absurd ⟨rfl, hc1⟩ hf2
      have hbtok : ∀ s e, bRunTok (({ m with dispatched := m.dispatched.eraseIdx n } :
          timer_manager2).setSlot q.1 { m.getSlot q.1 with
            frontend := { (m.getSlot q.1).frontend with state := .expired } }) s e
          = bRunTok m s e := by
        intro s e
        exact @bRunTok_setSlot
          { m with dispatched := m.dispatched.eraseIdx n } q.1
          { m.getSlot q.1 with
            frontend := { (m.getSlot q.1).frontend with state := .expired } } rfl s e
      split
      · -- callback installed: record the fire
        refine ⟨?_, ?_, ?_⟩
        · exact InvCore.congrCore (InvCore.fired_append hcore2 q (by
            rw [(({ m with dispatched := m.dispatched.eraseIdx n } :
              timer_manager2).length_setSlot q.1 _)]
            exact hc1) (Nat.le_of_eq hepoch2.symm)) rfl rfl rfl rfl rfl rfl
        · exact InvCmds.congrCmds hcmds2 rfl
        · intro s e
          show cntStart m.pending_cmds s e
              + bRunTok (({ m with dispatched := m.dispatched.eraseIdx n } :
                  timer_manager2).setSlot q.1 { m.getSlot q.1 with
                    frontend := { (m.getSlot q.1).frontend with state := .expired } }) s e
              + (m.dispatched.eraseIdx n).count (s, e)
              + (m.fired ++ [q]).count (s, e) ≤ 1
          rw [hbtok s e, List.count_append, List.count_singleton]
          have h0 := htok s e
          rw [tok] at h0
          have hcnt := hcnt0 (s, e)
          by_cases hqe : q = (s, e)
          · rw [if_pos (by simp [hqe])]
            rw [if_pos hqe] at hcnt
            omega
          · rw [if_neg (by
              simp only [beq_iff_eq]
              intro hx
              apply hqe
              first
              | exact hx
              | exact hx.symm)]
            rw [if_neg hqe] at hcnt
            omega
      · -- no callback: only the frontend state changes
        refine ⟨?_, ?_, ?_⟩
        · exact hcore2
        · exact hcmds2
        · intro s e
          show cntStart m.pending_cmds s e
              + bRunTok (({ m with dispatched := m.dispatched.eraseIdx n } :
                  timer_manager2).setSlot q.1 { m.getSlot q.1 with
                    frontend := { (m.getSlot q.1).frontend with state := .expired } }) s e
              + (m.dispatched.eraseIdx n).count (s, e)
              + m.fired.count (s, e) ≤ 1
          rw [hbtok s e]
          have h0 := htok s e
          rw [tok] at h0
          have hcnt := hcnt0 (s, e)
          by_cases hqe : q = (s, e)
          · rw [if_pos hqe] at hcnt
            omega
          · rw [if_neg hqe] at hcnt
            omega
    · -- stale closure: only the dispatched list shrinks
      refine ⟨?_, ?_, ?_⟩
      · exact hcore1
      · exact InvCmds.congrCmds hcmds rfl
      · intro s e
        show cntStart m.pending_cmds s e + bRunTok m s e
            + (m.dispatched.eraseIdx n).count (s, e) + m.fired.count (s, e) ≤ 1
        have h0 := htok s e
        rw [tok] at h0
        have hcnt := hcnt0 (s, e)
        by_cases hqe : q = (s, e)
        · rw [if_pos hqe] at hcnt
          omega
        · rw [if_neg hqe] at hcnt
          omega
  · rw [timer_manager2.run_dispatched, if_neg hn]
    exact ⟨hcore, hcmds, htok⟩

/-! ### Invariant preservation, backend tick: command application -/

theorem mem_filter_ne {l : List Nat} {j i : Nat} :
    j ∈ l.filter (fun k => decide (k ≠ i)) ↔ j ∈ l ∧ j ≠ i := by
  simp [List.mem_filter]

theorem applyCmd_oor {m : timer_manager2} {c : cmd_t}
    (h : ¬ c.id < m.timer_list.length) : m.applyCmd c = m := by
  rw [timer_manager2.applyCmd, if_neg h]

theorem applyCmd_stale {m : timer_manager2} {c : cmd_t}
    (h1 : c.id < m.timer_list.length)
    (h2 : c.epoch < (m.getSlot c.id).backend.epoch) : m.applyCmd c = m := by
  rw [timer_manager2.applyCmd, if_pos h1, if_pos h2]

theorem applyCmd_start {m : timer_manager2} {c : cmd_t}
    (h1 : c.id < m.timer_list.length)
    (h2 : ¬ c.epoch < (m.getSlot c.id).backend.epoch)
    (h3 : c.action = .start) :
    m.applyCmd c =
      ({ m with time_wheel := wheelInsert (wheelRemove m.time_wheel c.id) ((m.cur_time + c.duration) % m.time_wheel.length) c.id }).setSlot c.id
        { m.getSlot c.id with backend :=
          { epoch := c.epoch, state := .running, timeout := m.cur_time + c.duration,
            exec_alloc := (m.getSlot c.id).backend.exec_alloc } } := by
  rw [timer_manager2.applyCmd, if_pos h1, if_neg h2, h3]

theorem applyCmd_stop {m : timer_manager2} {c : cmd_t}
    (h1 : c.id < m.timer_list.length)
    (h2 : ¬ c.epoch < (m.getSlot c.id).backend.epoch)
    (h3 : c.action = .stop) :
    m.applyCmd c =
      ({ m with time_wheel := wheelRemove m.time_wheel c.id }).setSlot c.id
        { m.getSlot c.id with backend :=
          { epoch := c.epoch, state := .stopped, timeout := (m.getSlot c.id).backend.timeout,
            exec_alloc := (m.getSlot c.id).backend.exec_alloc } } := by
  rw [timer_manager2.applyCmd, if_pos h1, if_neg h2, h3]

theorem applyCmd_destroy {m : timer_manager2} {c : cmd_t}
    (h1 : c.id < m.timer_list.length)
    (h2 : ¬ c.epoch < (m.getSlot c.id).backend.epoch)
    (h3 : c.action = .destroy) :
    m.applyCmd c =
      ({ m with
        time_wheel := wheelRemove m.time_wheel c.id
        free_list := c.id :: m.free_list }).setSlot c.id
        { m.getSlot c.id with backend :=
          { epoch := c.epoch, state := .stopped, timeout := (m.getSlot c.id).backend.timeout,
            exec_alloc := false } } := by
  rw [timer_manager2.applyCmd, if_pos h1, if_neg h2, h3]

/-- Parametric invariant-core preservation for one applied command: the
state swaps in a new wheel, a new free list and a new backend context
for slot c.id, leaving the frontend side of every slot alone. -/
theorem InvCore.applyCaseCore {m : timer_manager2} {c : cmd_t}
    (hcore : InvCore m)
    (w' : List (List Nat)) (fl' : List Nat) (b' : timer_backend_context)
    (hc1 : c.id < m.timer_list.length)
    (hlenw : w'.length = m.time_wheel.length)
    (hep : b'.epoch ≤ (m.getSlot c.id).frontend.epoch)
    (hwcSelf : wcount w' c.id = if b'.state = state_t.running then 1 else 0)
    (hwcNe : ∀ j, j ≠ c.id → wcount w' j = wcount m.time_wheel j)
    (hbm : ∀ b, b < w'.length → ∀ j ∈ w'.getD b [],
      (if j = c.id then b'.timeout else (m.getSlot j).backend.timeout) % m.time_wheel.length = b)
    (hflB : ∀ i ∈ fl', i < m.timer_list.length)
    (hflN : fl'.Nodup)
    (hflS : ∀ i ∈ fl', (m.getSlot i).owned = false ∧
      (i = c.id → b'.exec_alloc = false) ∧
      (i ≠ c.id → (m.getSlot i).backend.exec_alloc = false))
    (howa : (m.getSlot c.id).owned = true → b'.exec_alloc = true) :
    InvCore (({ m with
      time_wheel := w'
      free_list := fl' }).setSlot c.id { m.getSlot c.id with backend := b' }) := by
  have hgetSelf : (({ m with time_wheel := w', free_list := fl' } :
      timer_manager2).setSlot c.id { m.getSlot c.id with backend := b' }).getSlot c.id =
      { m.getSlot c.id with backend := b' } := by
    rw [timer_manager2.getSlot_setSlot, if_pos]
    exact ⟨rfl, hc1⟩
  have hgetNe : ∀ j, j ≠ c.id → (({ m with time_wheel := w', free_list := fl' } :
      timer_manager2).setSlot c.id { m.getSlot c.id with backend := b' }).getSlot j =
      m.getSlot j := by
    intro j hj
    rw [timer_manager2.getSlot_setSlot, if_neg (fun hq => hj hq.1)]
    rfl
  have hlen : (({ m with time_wheel := w', free_list := fl' } :
      timer_manager2).setSlot c.id { m.getSlot c.id with backend := b' }).timer_list.length
      = m.timer_list.length := by
    show (m.timer_list.set c.id _).length = m.timer_list.length
    simp
  have hwheel : (({ m with time_wheel := w', free_list := fl' } :
      timer_manager2).setSlot c.id { m.getSlot c.id with backend := b' }).time_wheel = w' := rfl
  have hfree : (({ m with time_wheel := w', free_list := fl' } :
      timer_manager2).setSlot c.id { m.getSlot c.id with backend := b' }).free_list = fl' := rfl
  constructor
  · rw [hwheel, hlenw]
    exact hcore.wheelPos
  · intro j
    rw [hwheel]
    by_cases hj : j = c.id
    · subst hj
      rw [hgetSelf]
      exact hwcSelf
    · rw [hgetNe j hj, hwcNe j hj]
      exact hcore.wEq j
  · intro b hb j hj
    rw [hwheel] at hb hj
    have h0 := hbm b hb j hj
    rw [hwheel, hlenw]
    by_cases hj2 : j = c.id
    · subst hj2
      rw [hgetSelf]
      rw [if_pos rfl] at h0
      exact h0
    · rw [hgetNe j hj2]
      rw [if_neg hj2] at h0
      exact h0
  · intro j
    by_cases hj : j = c.id
    · subst hj
      rw [hgetSelf]
      exact hep
    · rw [hgetNe j hj]
      exact hcore.epochLe j
  · intro j hj
    rw [hlen] at hj
    by_cases hj2 : j = c.id
    · subst hj2
      rw [hgetSelf]
      exact hcore.idIdx c.id hj
    · rw [hgetNe j hj2]
      exact hcore.idIdx j hj
  · intro p hp
    have h0 := hcore.dispBound p hp
    rw [hlen]
    by_cases hj : p.1 = c.id
    · rw [hj, hgetSelf]
      rw [hj] at h0
      exact h0
    · rw [hgetNe p.1 hj]
      exact h0
  · intro p hp
    have h0 := hcore.logBound p hp
    rw [hlen]
    by_cases hj : p.1 = c.id
    · rw [hj, hgetSelf]
      rw [hj] at h0
      exact h0
    · rw [hgetNe p.1 hj]
      exact h0
  · intro p hp
    have h0 := hcore.firedBound p hp
    rw [hlen]
    by_cases hj : p.1 = c.id
    · rw [hj, hgetSelf]
      rw [hj] at h0
      exact h0
    · rw [hgetNe p.1 hj]
      exact h0
  · intro i hi
    rw [hfree] at hi
    rw [hlen]
    exact hflB i hi
  · rw [hfree]
    exact hflN
  · intro i hi
    rw [hfree] at hi
    obtain ⟨hS1, hS2, hS3⟩ := hflS i hi
    by_cases hj : i = c.id
    · rw [hj, hgetSelf]
      rw [hj] at hS1
      exact ⟨hS1, hS2 hj⟩
    · rw [hgetNe i hj]
      exact ⟨hS1, hS3 hj⟩
  · intro j
    by_cases hj : j = c.id
    · subst hj
      rw [hgetSelf]
      exact howa
    · rw [hgetNe j hj]
      exact hcore.ownedAlloc j

/-- Parametric command-list conditions after one applied command. -/
theorem InvCmds.applyCaseCmds {m : timer_manager2} {c : cmd_t} {cs : List cmd_t}
    (h : InvCmds m cs)
    (w' : List (List Nat)) (fl' : List Nat) (b' : timer_backend_context)
    (hc1 : c.id < m.timer_list.length)
    (hcsAlloc : ∀ c2 ∈ cs, c2.id = c.id → b'.exec_alloc = true) :
    InvCmds (({ m with
      time_wheel := w'
      free_list := fl' }).setSlot c.id { m.getSlot c.id with backend := b' }) cs := by
  have hgetSelf : (({ m with time_wheel := w', free_list := fl' } :
      timer_manager2).setSlot c.id { m.getSlot c.id with backend := b' }).getSlot c.id =
      { m.getSlot c.id with backend := b' } := by
    rw [timer_manager2.getSlot_setSlot, if_pos]
    exact ⟨rfl, hc1⟩
  have hgetNe : ∀ j, j ≠ c.id → (({ m with time_wheel := w', free_list := fl' } :
      timer_manager2).setSlot c.id { m.getSlot c.id with backend := b' }).getSlot j =
      m.getSlot j := by
    intro j hj
    rw [timer_manager2.getSlot_setSlot, if_neg (fun hq => hj hq.1)]
    rfl
  have hlen : (({ m with time_wheel := w', free_list := fl' } :
      timer_manager2).setSlot c.id { m.getSlot c.id with backend := b' }).timer_list.length
      = m.timer_list.length := by
    show (m.timer_list.set c.id _).length = m.timer_list.length
    simp
  constructor
  · intro c2 hc2
    have h0 := h.cmdBound c2 hc2
    rw [hlen]
    by_cases hj : c2.id = c.id
    · rw [hj, hgetSelf]
      rw [hj] at h0
      exact h0
    · rw [hgetNe c2.id hj]
      exact h0
  · intro c2 hc2
    have h0 := h.cmdAlloc c2 hc2
    by_cases hj : c2.id = c.id
    · rw [hj, hgetSelf]
      exact hcsAlloc c2 hc2 hj
    · rw [hgetNe c2.id hj]
      exact h0
  · intro c2 hc2 hd2
    have h0 := h.destroyUnowned c2 hc2 hd2
    by_cases hj : c2.id = c.id
    · rw [hj, hgetSelf]
      rw [hj] at h0
      exact h0
    · rw [hgetNe c2.id hj]
      exact h0
  · exact h.destroyLast

/-- Helper: value of one fire-token summand after one applied command. -/
theorem bRunTok_applyCaseTok {m : timer_manager2} {c : cmd_t}
    (w' : List (List Nat)) (fl' : List Nat) (b' : timer_backend_context)
    (hc1 : c.id < m.timer_list.length) :
    ∀ s e, bRunTok (({ m with
        time_wheel := w'
        free_list := fl' }).setSlot c.id { m.getSlot c.id with backend := b' }) s e =
      if s = c.id then (if b'.state = state_t.running ∧ b'.epoch = e then 1 else 0)
      else bRunTok m s e := by
  intro s e
  by_cases hs : s = c.id
  · subst hs
    rw [if_pos rfl, bRunTok]
    have hg := timer_manager2.getSlot_setSlot_self
      ({ m with time_wheel := w', free_list := fl' } : timer_manager2) c.id
      { m.getSlot c.id with backend := b' } hc1
    rw [hg]
  · rw [if_neg hs, bRunTok, bRunTok]
    have hg := timer_manager2.getSlot_setSlot_ne
      ({ m with time_wheel := w', free_list := fl' } : timer_manager2)
      (i := c.id) (j := s) { m.getSlot c.id with backend := b' } (fun hq => hs hq.symm)
    rw [hg]
    rfl

theorem tok_setSlot_records (m : timer_manager2) (w' : List (List Nat)) (fl' : List Nat)
    (i : Nat) (s' : timer_handle) (cs : List cmd_t) (s e : Nat) :
    tok (({ m with
      time_wheel := w'
      free_list := fl' }).setSlot i s') cs s e
    = cntStart cs s e
      + bRunTok (({ m with
          time_wheel := w'
          free_list := fl' }).setSlot i s') s e
      + m.dispatched.count (s, e) + m.fired.count (s, e) := rfl

/-- One command application inside the tick keeps the invariant bundle. -/
theorem tickInv_applyCmd {m : timer_manager2} {c : cmd_t} {cs : List cmd_t}
    (hcore : InvCore m) (hcmds : InvCmds m (c :: cs)) (htok : TokInv m (c :: cs)) :
    InvCore (m.applyCmd c) ∧ InvCmds (m.applyCmd c) cs ∧ TokInv (m.applyCmd c) cs
      ∧ (m.applyCmd c).pending_cmds = m.pending_cmds
      ∧ (m.applyCmd c).cur_time = m.cur_time
      ∧ (m.applyCmd c).dispatched = m.dispatched
      ∧ (m.applyCmd c).dispatch_log = m.dispatch_log
      ∧ (m.applyCmd c).fired = m.fired
      ∧ (m.applyCmd c).timer_list.length = m.timer_list.length := by
  have hmemc : c ∈ c :: cs := List.mem_cons_self c cs
  have hc1 : c.id < m.timer_list.length := (hcmds.cmdBound c hmemc).1
  have hcep : c.epoch ≤ (m.getSlot c.id).frontend.epoch := (hcmds.cmdBound c hmemc).2
  have hal : (m.getSlot c.id).backend.exec_alloc = true := hcmds.cmdAlloc c hmemc
  have hpw := List.pairwise_cons.1 hcmds.destroyLast
  have htail : InvCmds m cs :=
    { cmdBound := fun c2 h2 => hcmds.cmdBound c2 (List.mem_cons_of_mem c h2)
      cmdAlloc := fun c2 h2 => hcmds.cmdAlloc c2 (List.mem_cons_of_mem c h2)
      destroyUnowned := fun c2 h2 => hcmds.destroyUnowned c2 (List.mem_cons_of_mem c h2)
      destroyLast := hpw.2 }
  have htokTail : TokInv m cs := by
    intro s e
    have h0 := htok s e
    rw [tok, cntStart_cons] at h0
    rw [tok]
    omega
  have hW : 0 < m.time_wheel.length := hcore.wheelPos
  have hNotFree : c.id ∉ m.free_list := by
    intro hmem
    have := (hcore.freeState c.id hmem).2
    rw [hal] at this
    cases this
  by_cases h2 : c.epoch < (m.getSlot c.id).backend.epoch
  · rw [applyCmd_stale hc1 h2]
    exact ⟨hcore, htail, htokTail, rfl, rfl, rfl, rfl, rfl, rfl⟩
  · cases hact : c.action with
    | start =>
      rw [applyCmd_start hc1 h2 hact]
      have hb0lt : (m.cur_time + c.duration) % m.time_wheel.length < m.time_wheel.length :=
        Nat.mod_lt _ hW
      have hb0lt2 : (m.cur_time + c.duration) % m.time_wheel.length
          < (wheelRemove m.time_wheel c.id).length := by
        rw [length_wheelRemove]
        exact hb0lt
      refine ⟨?_, ?_, ?_, rfl, rfl, rfl, rfl, rfl, by
        show (m.timer_list.set c.id _).length = m.timer_list.length
        simp⟩
      · apply InvCore.applyCaseCore hcore _ _ _ hc1
        · rw [length_wheelInsert, length_wheelRemove]
        · exact hcep
        · rw [wcount_wheelInsert_self _ _ _ hb0lt2, wcount_wheelRemove_self]
          rfl
        · intro j hj
          rw [wcount_wheelInsert_ne _ _ hj, wcount_wheelRemove_ne _ hj]
        · intro b hb j hj
          rw [length_wheelInsert, length_wheelRemove] at hb
          by_cases hbb : b = (m.cur_time + c.duration) % m.time_wheel.length
          · subst hbb
            rw [getD_wheelInsert_self _ _ _ hb0lt2] at hj
            rcases List.mem_append.1 hj with hj0 | hj0
            · rw [getD_wheelRemove] at hj0
              rcases mem_filter_ne.1 hj0 with ⟨hj1, hj2⟩
              rw [if_neg hj2]
              exact hcore.bucketMod _ hb j hj1
            · rw [List.mem_singleton.1 hj0, if_pos rfl]
          · rw [getD_wheelInsert_ne _ _ (fun hq => hbb hq.symm), getD_wheelRemove] at hj
            rcases mem_filter_ne.1 hj with ⟨hj1, hj2⟩
            rw [if_neg hj2]
            exact hcore.bucketMod _ hb j hj1
        · exact hcore.freeBound
        · exact hcore.freeNodup
        · intro i hi
          refine ⟨(hcore.freeState i hi).1, ?_, fun _ => (hcore.freeState i hi).2⟩
          intro hq
          exact absurd (hq ▸ hi) hNotFree
        · intro
          exact hal
      · apply InvCmds.applyCaseCmds htail _ _ _ hc1
        intro c2 h2c hq
        exact hal
      · intro s e
        rw [tok_setSlot_records, bRunTok_applyCaseTok _ _ _ hc1 s e]
        have h0 := htok s e
        rw [tok, cntStart_cons] at h0
        by_cases hs : s = c.id
        · rw [if_pos hs]
          split
          · rename_i hcond
            have hse : c.epoch = e := hcond.2
            rw [if_pos ⟨hs.symm, hse, hact⟩] at h0
            omega
          · omega
        · rw [if_neg hs]
          omega
    | stop =>
      rw [applyCmd_stop hc1 h2 hact]
      refine ⟨?_, ?_, ?_, rfl, rfl, rfl, rfl, rfl, by
        show (m.timer_list.set c.id _).length = m.timer_list.length
        simp⟩
      · apply InvCore.applyCaseCore hcore _ _ _ hc1
        · rw [length_wheelRemove]
        · exact hcep
        · rw [wcount_wheelRemove_self]
          rw [if_neg]
          intro hq
          cases hq
        · intro j hj
          rw [wcount_wheelRemove_ne _ hj]
        · intro b hb j hj
          rw [length_wheelRemove] at hb
          rw [getD_wheelRemove] at hj
          rcases mem_filter_ne.1 hj with ⟨hj1, hj2⟩
          rw [if_neg hj2]
          exact hcore.bucketMod _ hb j hj1
        · exact hcore.freeBound
        · exact hcore.freeNodup
        · intro i hi
          refine ⟨(hcore.freeState i hi).1, ?_, fun _ => (hcore.freeState i hi).2⟩
          intro hq
          exact absurd (hq ▸ hi) hNotFree
        · intro
          exact hal
      · apply InvCmds.applyCaseCmds htail _ _ _ hc1
        intro c2 hc2 hq
        exact hal
      · intro s e
        rw [tok_setSlot_records, bRunTok_applyCaseTok _ _ _ hc1 s e]
        have h0 := htok s e
        rw [tok, cntStart_cons] at h0
        by_cases hs : s = c.id
        · rw [if_pos hs]
          split
          · rename_i hcond
            cases hcond.1
          · omega
        · rw [if_neg hs]
          omega
    | destroy =>
      rw [applyCmd_destroy hc1 h2 hact]
      have hunow : (m.getSlot c.id).owned = false := hcmds.destroyUnowned c hmemc hact
      have hnone : ∀ c2 ∈ cs, c2.id ≠ c.id := fun c2 h2c => hpw.1 c2 h2c hact
      refine ⟨?_, ?_, ?_, rfl, rfl, rfl, rfl, rfl, by
        show (m.timer_list.set c.id _).length = m.timer_list.length
        simp⟩
      · apply InvCore.applyCaseCore hcore _ _ _ hc1
        · rw [length_wheelRemove]
        · exact hcep
        · rw [wcount_wheelRemove_self]
          rw [if_neg]
          intro hq
          cases hq
        · intro j hj
          rw [wcount_wheelRemove_ne _ hj]
        · intro b hb j hj
          rw [length_wheelRemove] at hb
          rw [getD_wheelRemove] at hj
          rcases mem_filter_ne.1 hj with ⟨hj1, hj2⟩
          rw [if_neg hj2]
          exact hcore.bucketMod _ hb j hj1
        · intro i hi
          rcases List.mem_cons.1 hi with hi0 | hi0
          · rw [hi0]
            exact hc1
          · exact hcore.freeBound i hi0
        · rw [List.nodup_cons]
          exact ⟨hNotFree, hcore.freeNodup⟩
        · intro i hi
          rcases List.mem_cons.1 hi with hi0 | hi0
          · subst hi0
            exact ⟨hunow, fun _ => rfl, fun hq => absurd rfl hq⟩
          · refine ⟨(hcore.freeState i hi0).1, fun _ => rfl, fun _ => (hcore.freeState i hi0).2⟩
        · intro hq
          rw [hq] at hunow
          cases hunow
      · apply InvCmds.applyCaseCmds htail _ _ _ hc1
        intro c2 hc2 hq
        exact absurd hq (hnone c2 hc2)
      · intro s e
        rw [tok_setSlot_records, bRunTok_applyCaseTok _ _ _ hc1 s e]
        have h0 := htok s e
        rw [tok, cntStart_cons] at h0
        by_cases hs : s = c.id
        · rw [if_pos hs]
          split
          · rename_i hcond
            cases hcond.1
          · omega
        · rw [if_neg hs]
          omega

/-! ### Invariant preservation, backend tick: expiry drain -/

/-- Invariant during the drain of one bucket: bs is the not yet
processed part of the drained bucket snapshot, already unlinked from
the wheel. -/
structure DrainInv (m : timer_manager2) (b : Nat) (bs : List Nat) : Prop where
  wheelPos : 0 < m.time_wheel.length
  hb : b < m.time_wheel.length
  wEqD : ∀ i, wcount m.time_wheel i + bs.count i =
    if (m.getSlot i).backend.state = state_t.running then 1 else 0
  bsMod : ∀ i ∈ bs, (m.getSlot i).backend.timeout % m.time_wheel.length = b
  bucketMod : ∀ b', b' < m.time_wheel.length → ∀ i ∈ m.time_wheel.getD b' [],
    (m.getSlot i).backend.timeout % m.time_wheel.length = b'
  epochLe : ∀ i, (m.getSlot i).backend.epoch ≤ (m.getSlot i).frontend.epoch
  idIdx : ∀ i, i < m.timer_list.length → (m.getSlot i).id = i
  dispBound : ∀ p ∈ m.dispatched,
    p.1 < m.timer_list.length ∧ p.2 ≤ (m.getSlot p.1).frontend.epoch
  logBound : ∀ p ∈ m.dispatch_log,
    p.1 < m.timer_list.length ∧ p.2 ≤ (m.getSlot p.1).frontend.epoch
  firedBound : ∀ p ∈ m.fired,
    p.1 < m.timer_list.length ∧ p.2 ≤ (m.getSlot p.1).frontend.epoch
  freeBound : ∀ i ∈ m.free_list, i < m.timer_list.length
  freeNodup : m.free_list.Nodup
  freeState : ∀ i ∈ m.free_list,
    (m.getSlot i).owned = false ∧ (m.getSlot i).backend.exec_alloc = false
  ownedAlloc : ∀ i, (m.getSlot i).owned = true → (m.getSlot i).backend.exec_alloc = true
  tokD : ∀ s e, bRunTok m s e + m.dispatched.count (s, e) + m.fired.count (s, e) ≤ 1
  pend : m.pending_cmds = []

theorem DrainInv.bsLen {m : timer_manager2} {b : Nat} {bs : List Nat}
    (h : DrainInv m b bs) : ∀ i ∈ bs, i < m.timer_list.length := by
  intro i hi
  by_contra hn
  have hblank := m.getSlot_of_length_le (Nat.le_of_not_lt hn)
  have h0 := h.wEqD i
  rw [hblank] at h0
  have h1 : 0 < bs.count i := List.count_pos_iff.2 hi
  simp [blank_timer] at h0
  omega

theorem drainSlot_reinsert {m : timer_manager2} {b i : Nat}
    (h1 : i < m.timer_list.length)
    (h2 : m.cur_time < (m.getSlot i).backend.timeout) :
    timer_manager2.drainSlot b m i = { m with time_wheel := wheelInsert m.time_wheel b i } := by
  rw [timer_manager2.drainSlot, if_pos h1, if_pos h2]

theorem drainSlot_expire_alloc {m : timer_manager2} {b i : Nat}
    (h1 : i < m.timer_list.length)
    (h2 : ¬ m.cur_time < (m.getSlot i).backend.timeout)
    (h3 : (m.getSlot i).backend.exec_alloc = true) :
    timer_manager2.drainSlot b m i =
      { m.setSlot i { m.getSlot i with
          backend := { (m.getSlot i).backend with state := .expired } } with
        dispatched := m.dispatched ++ [(i, (m.getSlot i).backend.epoch)]
        dispatch_log := m.dispatch_log ++ [(i, (m.getSlot i).backend.epoch)] } := by
  rw [timer_manager2.drainSlot, if_pos h1, if_neg h2, if_pos h3]

theorem drainSlot_expire_noalloc {m : timer_manager2} {b i : Nat}
    (h1 : i < m.timer_list.length)
    (h2 : ¬ m.cur_time < (m.getSlot i).backend.timeout)
    (h3 : ¬ (m.getSlot i).backend.exec_alloc = true) :
    timer_manager2.drainSlot b m i =
      m.setSlot i { m.getSlot i with
        backend := { (m.getSlot i).backend with state := .expired } } := by
  rw [timer_manager2.drainSlot, if_pos h1, if_neg h2, if_neg h3]

theorem getSlot_dispatch_fields (X : timer_manager2) (d l : List (Nat × Nat)) (j : Nat) :
    ({ X with
      dispatched := d
      dispatch_log := l } : timer_manager2).getSlot j = X.getSlot j := rfl

theorem drainInv_step {m : timer_manager2} {b i : Nat} {bs : List Nat}
    (h : DrainInv m b (i :: bs)) : DrainInv (timer_manager2.drainSlot b m i) b bs := by
  have hilen : i < m.timer_list.length := h.bsLen i (List.mem_cons_self i bs)
  have hcnt : ∀ j, List.count j (i :: bs) = bs.count j + if j = i then 1 else 0 := by
    intro j
    rw [List.count_cons]
    by_cases hj : j = i
    · rw [if_pos hj, if_pos (by simp [hj])]
    · rw [if_neg hj, if_neg (by
        simp only [beq_iff_eq]
        intro hx
        first
        | exact hj hx
        | exact hj hx.symm)]
  by_cases hrun : m.cur_time < (m.getSlot i).backend.timeout
  · -- re-insert the slot into the same bucket
    rw [drainSlot_reinsert hilen hrun]
    have hbw : b < m.time_wheel.length := h.hb
    have hwh : ({ m with time_wheel := wheelInsert m.time_wheel b i } :
        timer_manager2).time_wheel = wheelInsert m.time_wheel b i := rfl
    have hgs : ∀ j, ({ m with time_wheel := wheelInsert m.time_wheel b i } :
        timer_manager2).getSlot j = m.getSlot j := fun j => rfl
    constructor
    · rw [hwh, length_wheelInsert]
      exact h.wheelPos
    · rw [hwh, length_wheelInsert]
      exact h.hb
    · intro j
      have h0 := h.wEqD j
      rw [hcnt j] at h0
      rw [hwh, hgs j]
      by_cases hj : j = i
      · subst hj
        rw [wcount_wheelInsert_self _ _ _ hbw]
        rw [if_pos rfl] at h0
        omega
      · rw [wcount_wheelInsert_ne _ _ hj]
        rw [if_neg hj] at h0
        omega
    · intro j hj
      rw [hwh, hgs j, length_wheelInsert]
      exact h.bsMod j (List.mem_cons_of_mem i hj)
    · intro b' hb' j hj
      rw [hwh] at hb' hj
      rw [length_wheelInsert] at hb'
      rw [hwh, hgs j, length_wheelInsert]
      by_cases hbb : b = b'
      · subst hbb
        rw [getD_wheelInsert_self _ _ _ hbw] at hj
        rcases List.mem_append.1 hj with hj0 | hj0
        · exact h.bucketMod b hb' j hj0
        · rw [List.mem_singleton.1 hj0]
          exact h.bsMod i (List.mem_cons_self i bs)
      · rw [getD_wheelInsert_ne _ _ hbb] at hj
        exact h.bucketMod b' hb' j hj
    · exact h.epochLe
    · exact h.idIdx
    · exact h.dispBound
    · exact h.logBound
    · exact h.firedBound
    · exact h.freeBound
    · exact h.freeNodup
    · exact h.freeState
    · exact h.ownedAlloc
    · exact h.tokD
    · exact h.pend
  · -- the slot expires
    have h0 := h.wEqD i
    rw [hcnt i, if_pos rfl] at h0
    have hrunning : (m.getSlot i).backend.state = state_t.running := by
      by_contra hq
      rw [if_neg hq] at h0
      omega
    rw [if_pos hrunning] at h0
    have hwz : wcount m.time_wheel i = 0 := by omega
    have hbz : bs.count i = 0 := by omega
    have hnotbs : i ∉ bs := by
      intro hq
      have := List.count_pos_iff.2 hq
      omega
    have hnotwheel : ∀ b', b' < m.time_wheel.length → i ∉ m.time_wheel.getD b' [] := by
      intro b' hb' hq
      have hc := List.count_pos_iff.2 hq
      have hle := count_getD_le_wcount m.time_wheel b' i
      omega
    have hgSelf : (m.setSlot i { m.getSlot i with
        backend := { (m.getSlot i).backend with state := .expired } }).getSlot i
        = { m.getSlot i with
          backend := { (m.getSlot i).backend with state := .expired } } :=
      m.getSlot_setSlot_self i _ hilen
    have hgNe : ∀ j, j ≠ i → (m.setSlot i { m.getSlot i with
        backend := { (m.getSlot i).backend with state := .expired } }).getSlot j
        = m.getSlot j := by
      intro j hj
      exact m.getSlot_setSlot_ne _ (fun hq => hj hq.symm)
    have hlen2 : (m.setSlot i { m.getSlot i with
        backend := { (m.getSlot i).backend with state := .expired } }).timer_list.length
        = m.timer_list.length := m.length_setSlot i _
    have hwh2 : (m.setSlot i { m.getSlot i with
        backend := { (m.getSlot i).backend with state := .expired } }).time_wheel
        = m.time_wheel := rfl
    have hcommon : ∀ (d' l' : List (Nat × Nat)),
        (∀ s e, bRunTok { m.setSlot i { m.getSlot i with
            backend := { (m.getSlot i).backend with state := .expired } } with
          dispatched := d'
          dispatch_log := l' } s e
          + (d'.count (s, e)) + m.fired.count (s, e) ≤ 1) →
        (∀ p ∈ d', p.1 < m.timer_list.length ∧ p.2 ≤ (m.getSlot p.1).frontend.epoch) →
        (∀ p ∈ l', p.1 < m.timer_list.length ∧ p.2 ≤ (m.getSlot p.1).frontend.epoch) →
        DrainInv ({ m.setSlot i { m.getSlot i with
            backend := { (m.getSlot i).backend with state := .expired } } with
          dispatched := d'
          dispatch_log := l' }) b bs := by
      intro d' l' htokH hdB hlB
      constructor
      · exact h.wheelPos
      · exact h.hb
      · intro j
        have hq := h.wEqD j
        rw [hcnt j] at hq
        rw [show ({ m.setSlot i { m.getSlot i with
            backend := { (m.getSlot i).backend with state := .expired } } with
          dispatched := d'
          dispatch_log := l' } : timer_manager2).time_wheel = m.time_wheel from rfl]
        rw [getSlot_dispatch_fields]
        by_cases hj : j = i
        · subst hj
          rw [hgSelf]
          rw [if_neg (by intro hx; cases hx)]
          rw [if_pos rfl] at hq
          omega
        · rw [hgNe j hj]
          rw [if_neg hj] at hq
          omega
      · intro j hj
        have hjne : j ≠ i := fun hq => hnotbs (hq ▸ hj)
        rw [getSlot_dispatch_fields, hgNe j hjne]
        exact h.bsMod j (List.mem_cons_of_mem i hj)
      · intro b' hb' j hj
        rw [show ({ m.setSlot i { m.getSlot i with
            backend := { (m.getSlot i).backend with state := .expired } } with
          dispatched := d'
          dispatch_log := l' } : timer_manager2).time_wheel = m.time_wheel from rfl] at hb' hj ⊢
        have hjne : j ≠ i := fun hq => hnotwheel b' hb' (hq ▸ hj)
        rw [getSlot_dispatch_fields, hgNe j hjne]
        exact h.bucketMod b' hb' j hj
      · intro j
        rw [getSlot_dispatch_fields]
        by_cases hj : j = i
        · subst hj
          rw [hgSelf]
          exact h.epochLe j
        · rw [hgNe j hj]
          exact h.epochLe j
      · intro j hjl
        rw [show ({ m.setSlot i { m.getSlot i with
            backend := { (m.getSlot i).backend with state := .expired } } with
          dispatched := d'
          dispatch_log := l' } : timer_manager2).timer_list.length = m.timer_list.length
          from hlen2] at hjl
        rw [getSlot_dispatch_fields]
        by_cases hj : j = i
        · subst hj
          rw [hgSelf]
          exact h.idIdx j hjl
        · rw [hgNe j hj]
          exact h.idIdx j hjl
      · intro p hp
        have hq := hdB p hp
        rw [show ({ m.setSlot i { m.getSlot i with
            backend := { (m.getSlot i).backend with state := .expired } } with
          dispatched := d'
          dispatch_log := l' } : timer_manager2).timer_list.length = m.timer_list.length
          from hlen2]
        rw [getSlot_dispatch_fields]
        refine ⟨hq.1, ?_⟩
        by_cases hj : p.1 = i
        · rw [hj, hgSelf]
          rw [hj] at hq
          exact hq.2
        · rw [hgNe p.1 hj]
          exact hq.2
      · intro p hp
        have hq := hlB p hp
        rw [show ({ m.setSlot i { m.getSlot i with
            backend := { (m.getSlot i).backend with state := .expired } } with
          dispatched := d'
          dispatch_log := l' } : timer_manager2).timer_list.length = m.timer_list.length
          from hlen2]
        rw [getSlot_dispatch_fields]
        refine ⟨hq.1, ?_⟩
        by_cases hj : p.1 = i
        · rw [hj, hgSelf]
          rw [hj] at hq
          exact hq.2
        · rw [hgNe p.1 hj]
          exact hq.2
      · intro p hp
        have hq := h.firedBound p hp
        rw [show ({ m.setSlot i { m.getSlot i with
            backend := { (m.getSlot i).backend with state := .expired } } with
          dispatched := d'
          dispatch_log := l' } : timer_manager2).timer_list.length = m.timer_list.length
          from hlen2]
        rw [getSlot_dispatch_fields]
        refine ⟨hq.1, ?_⟩
        by_cases hj : p.1 = i
        · rw [hj, hgSelf]
          rw [hj] at hq
          exact hq.2
        · rw [hgNe p.1 hj]
          exact hq.2
      · intro j hj
        rw [show ({ m.setSlot i { m.getSlot i with
            backend := { (m.getSlot i).backend with state := .expired } } with
          dispatched := d'
          dispatch_log := l' } : timer_manager2).timer_list.length = m.timer_list.length
          from hlen2]
        exact h.freeBound j hj
      · exact h.freeNodup
      · intro j hj
        have hq := h.freeState j hj
        rw [getSlot_dispatch_fields]
        by_cases hji : j = i
        · rw [hji, hgSelf]
          rw [hji] at hq
          exact hq
        · rw [hgNe j hji]
          exact hq
      · intro j
        rw [getSlot_dispatch_fields]
        by_cases hji : j = i
        · subst hji
          rw [hgSelf]
          exact h.ownedAlloc j
        · rw [hgNe j hji]
          exact h.ownedAlloc j
      · intro s e
        exact htokH s e
      · exact h.pend
    have hbr : ∀ (d' l' : List (Nat × Nat)) (s e : Nat),
        bRunTok { m.setSlot i { m.getSlot i with
            backend := { (m.getSlot i).backend with state := .expired } } with
          dispatched := d'
          dispatch_log := l' } s e = if s = i then 0 else bRunTok m s e := by
      intro d' l' s e
      rw [bRunTok, getSlot_dispatch_fields]
      by_cases hsi : s = i
      · subst hsi
        rw [hgSelf, if_pos rfl, if_neg]
        rintro ⟨hx, -⟩
        exact absurd hx (by intro hy; cases hy)
      · rw [hgNe s hsi, if_neg hsi, bRunTok]
    by_cases halloc : (m.getSlot i).backend.exec_alloc = true
    · rw [drainSlot_expire_alloc hilen hrun halloc]
      apply hcommon
      · intro s e
        rw [hbr]
        have hq := h.tokD s e
        rw [List.count_append, List.count_singleton]
        by_cases hsi : s = i
        · rw [if_pos hsi]
          by_cases hse : e = (m.getSlot i).backend.epoch
          · have hq2 : bRunTok m s e = 1 := by
              rw [bRunTok, hsi, hse, if_pos ⟨hrunning, rfl⟩]
            have hq3 : ((i, (m.getSlot i).backend.epoch) == (s, e)) = true := by
              simp [hsi, hse]
            rw [if_pos hq3]
            rw [hq2] at hq
            omega
          · have hq3 : ((i, (m.getSlot i).backend.epoch) == (s, e)) = false := by
              simp
              intro h1x h2x
              exact hse h2x.symm
            rw [if_neg (by simp [hq3])]
            omega
        · rw [if_neg hsi]
          have hq3 : ((i, (m.getSlot i).backend.epoch) == (s, e)) = false := by
            simp
            intro h1x
            exact absurd h1x.symm hsi
          rw [if_neg (by simp [hq3])]
          omega
      · intro p hp
        rcases List.mem_append.1 hp with hp0 | hp0
        · exact h.dispBound p hp0
        · rw [List.mem_singleton.1 hp0]
          exact ⟨hilen, h.epochLe i⟩
      · intro p hp
        rcases List.mem_append.1 hp with hp0 | hp0
        · exact h.logBound p hp0
        · rw [List.mem_singleton.1 hp0]
          exact ⟨hilen, h.epochLe i⟩
    · rw [drainSlot_expire_noalloc hilen hrun halloc]
      have heq : m.setSlot i { m.getSlot i with
          backend := { (m.getSlot i).backend with state := .expired } } =
        { m.setSlot i { m.getSlot i with
            backend := { (m.getSlot i).backend with state := .expired } } with
          dispatched := m.dispatched
          dispatch_log := m.dispatch_log } := rfl
      rw [heq]
      apply hcommon
      · intro s e
        rw [hbr]
        have hq := h.tokD s e
        by_cases hsi : s = i
        · rw [if_pos hsi]
          omega
        · rw [if_neg hsi]
          omega
      · exact h.dispBound
      · exact h.logBound

theorem drainInv_fold {b : Nat} : ∀ (bs : List Nat) (m : timer_manager2),
    DrainInv m b bs → DrainInv (bs.foldl (timer_manager2.drainSlot b) m) b [] := by
  intro bs
  induction bs with
  | nil => intro m h; exact h
  | cons i bs ih =>
    intro m h
    exact ih (timer_manager2.drainSlot b m i) (drainInv_step h)

theorem applyFold {cs : List cmd_t} : ∀ (m : timer_manager2),
    InvCore m → InvCmds m cs → TokInv m cs →
    InvCore (cs.foldl timer_manager2.applyCmd m)
      ∧ TokInv (cs.foldl timer_manager2.applyCmd m) []
      ∧ (cs.foldl timer_manager2.applyCmd m).pending_cmds = m.pending_cmds
      ∧ (cs.foldl timer_manager2.applyCmd m).cur_time = m.cur_time
      ∧ (cs.foldl timer_manager2.applyCmd m).dispatched = m.dispatched
      ∧ (cs.foldl timer_manager2.applyCmd m).dispatch_log = m.dispatch_log
      ∧ (cs.foldl timer_manager2.applyCmd m).fired = m.fired
      ∧ (cs.foldl timer_manager2.applyCmd m).timer_list.length = m.timer_list.length := by
  induction cs with
  | nil =>
    intro m hcore hcmds htok
    exact ⟨hcore, htok, rfl, rfl, rfl, rfl, rfl, rfl⟩
  | cons c cs ih =>
    intro m hcore hcmds htok
    obtain ⟨C1, M1, T1, P1, CT1, D1, L1, F1, LL1⟩ := tickInv_applyCmd hcore hcmds htok
    obtain ⟨C2, T2, P2, CT2, D2, L2, F2, LL2⟩ := ih (m.applyCmd c) C1 M1 T1
    refine ⟨C2, T2, ?_, ?_, ?_, ?_, ?_, ?_⟩
    · rw [List.foldl_cons, P2, P1]
    · rw [List.foldl_cons, CT2, CT1]
    · rw [List.foldl_cons, D2, D1]
    · rw [List.foldl_cons, L2, L1]
    · rw [List.foldl_cons, F2, F1]
    · rw [List.foldl_cons, LL2, LL1]

/-- The full backend tick keeps the invariant. -/
theorem Inv.tick {m : timer_manager2} (h : Inv m) : Inv m.tick_all := by
  obtain ⟨hcore, hcmds, htok⟩ := h
  have hcore0 : InvCore ({ m with pending_cmds := [] } : timer_manager2) :=
    InvCore.congrCore hcore rfl rfl rfl rfl rfl rfl
  have hcmds0 : InvCmds ({ m with pending_cmds := [] } : timer_manager2) m.pending_cmds :=
    InvCmds.congrCmds hcmds rfl
  have htok0 : TokInv ({ m with pending_cmds := [] } : timer_manager2) m.pending_cmds := by
    intro s e
    rw [tok_pending_irrel]
    exact htok s e
  obtain ⟨C1, T1, P1, CT1, D1, L1, F1, LL1⟩ :=
    applyFold ({ m with pending_cmds := [] } : timer_manager2) hcore0 hcmds0 htok0
  -- names for the intermediate states of the tick
  have hdrain : DrainInv
      { (m.pending_cmds.foldl timer_manager2.applyCmd { m with pending_cmds := [] }) with
        cur_time := (m.pending_cmds.foldl timer_manager2.applyCmd
          { m with pending_cmds := [] }).cur_time + 1
        time_wheel := (m.pending_cmds.foldl timer_manager2.applyCmd
          { m with pending_cmds := [] }).time_wheel.set
            (((m.pending_cmds.foldl timer_manager2.applyCmd
              { m with pending_cmds := [] }).cur_time + 1)
              % (m.pending_cmds.foldl timer_manager2.applyCmd
                { m with pending_cmds := [] }).time_wheel.length) [] }
      (((m.pending_cmds.foldl timer_manager2.applyCmd { m with pending_cmds := [] }).cur_time + 1)
        % (m.pending_cmds.foldl timer_manager2.applyCmd
          { m with pending_cmds := [] }).time_wheel.length)
      ((m.pending_cmds.foldl timer_manager2.applyCmd
        { m with pending_cmds := [] }).time_wheel.getD
        (((m.pending_cmds.foldl timer_manager2.applyCmd
          { m with pending_cmds := [] }).cur_time + 1)
          % (m.pending_cmds.foldl timer_manager2.applyCmd
            { m with pending_cmds := [] }).time_wheel.length) []) := by
    set m1 := m.pending_cmds.foldl timer_manager2.applyCmd { m with pending_cmds := [] } with hm1
    have hW : 0 < m1.time_wheel.length := C1.wheelPos
    have hblt : (m1.cur_time + 1) % m1.time_wheel.length < m1.time_wheel.length :=
      Nat.mod_lt _ hW
    constructor
    · show 0 < (m1.time_wheel.set ((m1.cur_time + 1) % m1.time_wheel.length) []).length
      simp only [List.length_set]
      exact hW
    · show (m1.cur_time + 1) % m1.time_wheel.length
        < (m1.time_wheel.set ((m1.cur_time + 1) % m1.time_wheel.length) []).length
      simp only [List.length_set]
      exact hblt
    · intro j
      have hq := C1.wEq j
      have hset := wcount_set m1.time_wheel ((m1.cur_time + 1) % m1.time_wheel.length) [] j hblt
      show wcount (m1.time_wheel.set ((m1.cur_time + 1) % m1.time_wheel.length) []) j
        + (m1.time_wheel.getD ((m1.cur_time + 1) % m1.time_wheel.length) []).count j
        = if (m1.getSlot j).backend.state = state_t.running then 1 else 0
      rw [← hq]
      have hz : List.count j ([] : List Nat) = 0 := rfl
      omega
    · intro j hj
      have hq := C1.bucketMod ((m1.cur_time + 1) % m1.time_wheel.length) hblt j hj
      show (m1.getSlot j).backend.timeout
        % (m1.time_wheel.set ((m1.cur_time + 1) % m1.time_wheel.length) []).length
        = (m1.cur_time + 1) % m1.time_wheel.length
      simp only [List.length_set]
      exact hq
    · intro b' hb' j hj
      show (m1.getSlot j).backend.timeout
        % (m1.time_wheel.set ((m1.cur_time + 1) % m1.time_wheel.length) []).length = b'
      simp only [List.length_set]
      have hb'2 : b' < m1.time_wheel.length := by
        have : (m1.time_wheel.set ((m1.cur_time + 1) % m1.time_wheel.length) []).length
          = m1.time_wheel.length := by simp
        rw [show ({ m1 with
          cur_time := m1.cur_time + 1
          time_wheel := m1.time_wheel.set ((m1.cur_time + 1) % m1.time_wheel.length) [] } :
          timer_manager2).time_wheel = m1.time_wheel.set
            ((m1.cur_time + 1) % m1.time_wheel.length) [] from rfl, this] at hb'
        exact hb'
      rw [show ({ m1 with
        cur_time := m1.cur_time + 1
        time_wheel := m1.time_wheel.set ((m1.cur_time + 1) % m1.time_wheel.length) [] } :
        timer_manager2).time_wheel = m1.time_wheel.set
          ((m1.cur_time + 1) % m1.time_wheel.length) [] from rfl] at hj
      by_cases hbb : b' = (m1.cur_time + 1) % m1.time_wheel.length
      · subst hbb
        rw [getD_set_self _ _ _ _ hblt] at hj
        cases hj
      · rw [getD_set_ne _ _ _ (fun hq2 => hbb hq2.symm)] at hj
        exact C1.bucketMod b' hb'2 j hj
    · exact C1.epochLe
    · exact C1.idIdx
    · exact C1.dispBound
    · exact C1.logBound
    · exact C1.firedBound
    · exact C1.freeBound
    · exact C1.freeNodup
    · exact C1.freeState
    · exact C1.ownedAlloc
    · intro s e
      have hq := T1 s e
      rw [tok] at hq
      have hz : cntStart [] s e = 0 := rfl
      show bRunTok m1 s e + m1.dispatched.count (s, e) + m1.fired.count (s, e) ≤ 1
      omega
    · show m1.pending_cmds = []
      rw [P1]
  obtain hfold := drainInv_fold _ _ hdrain
  -- the final state of the drain is exactly tick_all m
  refine ⟨?_, ?_, ?_⟩
  · constructor
    · have hq := hfold.wheelPos
      exact hq
    · intro j
      have hq := hfold.wEqD j
      have hz : List.count j ([] : List Nat) = 0 := rfl
      rw [hz, Nat.add_zero] at hq
      exact hq
    · exact hfold.bucketMod
    · exact hfold.epochLe
    · exact hfold.idIdx
    · exact hfold.dispBound
    · exact hfold.logBound
    · exact hfold.firedBound
    · exact hfold.freeBound
    · exact hfold.freeNodup
    · exact hfold.freeState
    · exact hfold.ownedAlloc
  · have hp2 : m.tick_all.pending_cmds = [] := hfold.pend
    constructor
    · intro c hc
      rw [hp2] at hc
      cases hc
    · intro c hc
      rw [hp2] at hc
      cases hc
    · intro c hc hd
      rw [hp2] at hc
      cases hc
    · rw [hp2]
      exact List.Pairwise.nil
  · intro s e
    have hq := hfold.tokD s e
    have hp2 : m.tick_all.pending_cmds = [] := hfold.pend
    show tok m.tick_all m.tick_all.pending_cmds s e ≤ 1
    rw [tok, hp2]
    have hz : cntStart [] s e = 0 := rfl
    rw [hz, Nat.zero_add]
    exact hq

theorem wcount_replicate (W j : Nat) : wcount (List.replicate W ([] : List Nat)) j = 0 := by
  induction W with
  | zero => rfl
  | succ n ih =>
    rw [List.replicate_succ, wcount_cons, ih]
    rfl

theorem getD_replicate_nil (W b : Nat) :
    (List.replicate W ([] : List Nat)).getD b [] = [] := by
  rcases Nat.lt_or_ge b W with hb | hb
  · rw [List.getD_eq_getElem _ _ (by simpa using hb)]
    simp
  · exact getD_of_length_le _ _ (by simpa using hb)

/-- The freshly constructed manager satisfies the invariant. -/
theorem Inv.initial {W : Nat} (hW : 0 < W) : Inv (timer_manager2.init W) := by
  have hg : ∀ i, (timer_manager2.init W).getSlot i = blank_timer 0 :=
    fun i => timer_manager2.getSlot_of_length_le _ (Nat.zero_le i)
  refine ⟨?_, ?_, ?_⟩
  · constructor
    · show 0 < (List.replicate W ([] : List Nat)).length
      simpa using hW
    · intro i
      have hq : wcount (timer_manager2.init W).time_wheel i = 0 := wcount_replicate W i
      rw [hg i, hq]
      rfl
    · intro b hb i hi
      rw [show (timer_manager2.init W).time_wheel = List.replicate W ([] : List Nat) from rfl,
        getD_replicate_nil] at hi
      cases hi
    · intro i
      rw [hg i]
      exact Nat.le_refl _
    · intro i hi
      cases hi
    · intro p hp
      cases hp
    · intro p hp
      cases hp
    · intro p hp
      cases hp
    · intro i hi
      cases hi
    · exact List.nodup_nil
    · intro i hi
      cases hi
    · intro i hi
      rw [hg i] at hi
      cases hi
  · constructor
    · intro c hc
      cases hc
    · intro c hc
      cases hc
    · intro c hc hd
      cases hc
    · exact List.Pairwise.nil
  · intro s e
    show tok (timer_manager2.init W) [] s e ≤ 1
    rw [tok]
    have h1 : cntStart [] s e = 0 := rfl
    have h2 : bRunTok (timer_manager2.init W) s e = 0 := by
      rw [bRunTok, hg s, if_neg]
      intro hx
      cases hx.1
    rw [h1, h2]
    show (0 : Nat) + 0 + 0 + 0 ≤ 1
    decide

/-- Every atomic event of the semantics keeps the invariant. -/
theorem inv_step {m : timer_manager2} (h : Inv m) (o : op) : Inv (step m o) := by
  cases o with
  | create => exact Inv.create h
  | fset i dur =>
    show Inv (if (m.getSlot i).owned = true then timer_handle.set m i dur else m)
    by_cases how : (m.getSlot i).owned = true
    · rw [if_pos how]
      exact Inv.fset h i dur
    · rw [if_neg how]
      exact h
  | fset_cb i dur =>
    show Inv (if (m.getSlot i).owned = true then timer_handle.set_cb m i dur else m)
    by_cases how : (m.getSlot i).owned = true
    · rw [if_pos how]
      exact Inv.fset_cb h i dur
    · rw [if_neg how]
      exact h
  | frun i =>
    show Inv (if (m.getSlot i).owned = true then timer_handle.run m i else m)
    by_cases how : (m.getSlot i).owned = true
    · rw [if_pos how]
      exact Inv.frun h how
    · rw [if_neg how]
      exact h
  | fstop i =>
    show Inv (if (m.getSlot i).owned = true then timer_handle.stop m i else m)
    by_cases how : (m.getSlot i).owned = true
    · rw [if_pos how]
      exact Inv.fstop h how
    · rw [if_neg how]
      exact h
  | fdestroy i =>
    show Inv (if (m.getSlot i).owned = true
      then (timer_handle.destroy m i).markUnowned i else m)
    by_cases how : (m.getSlot i).owned = true
    · rw [if_pos how]
      exact Inv.fdestroy h how
    · rw [if_neg how]
      exact h
  | tick => exact Inv.tick h
  | run_disp n => exact Inv.run_disp h n

theorem inv_applyOps {m : timer_manager2} (h : Inv m) : ∀ (tr : List op),
    Inv (applyOps m tr) := by
  intro tr
  induction tr generalizing m with
  | nil => exact h
  | cons o tr ih => exact ih (inv_step h o)

/-- Every state reached from a fresh manager by a legal trace satisfies
the invariant. -/
theorem inv_reach {W : Nat} (hW : 0 < W) (tr : List op) :
    Inv (applyOps (timer_manager2.init W) tr) :=
  inv_applyOps (Inv.initial hW) tr

/-! ### Unconditional frame lemmas for the backend phases -/

theorem frontend_setSlot (m : timer_manager2) (i j : Nat) (s' : timer_handle)
    (hf : s'.frontend = (m.getSlot i).frontend) :
    ((m.setSlot i s').getSlot j).frontend = (m.getSlot j).frontend := by
  rw [timer_manager2.getSlot_setSlot]
  split
  · next h =>
    rw [hf, h.1]
  · rfl

theorem applyCmd_frames (m : timer_manager2) (c : cmd_t) :
    (m.applyCmd c).pending_cmds = m.pending_cmds
    ∧ (m.applyCmd c).cur_time = m.cur_time
    ∧ (m.applyCmd c).dispatched = m.dispatched
    ∧ (m.applyCmd c).dispatch_log = m.dispatch_log
    ∧ (m.applyCmd c).fired = m.fired
    ∧ (m.applyCmd c).timer_list.length = m.timer_list.length := by
  rw [timer_manager2.applyCmd]
  split
  · split
    · exact ⟨rfl, rfl, rfl, rfl, rfl, rfl⟩
    · split <;> exact ⟨rfl, rfl, rfl, rfl, rfl, by simp [timer_manager2.setSlot]⟩
  · exact ⟨rfl, rfl, rfl, rfl, rfl, rfl⟩

theorem frontend_applyCmd (m : timer_manager2) (c : cmd_t) (i : Nat) :
    ((m.applyCmd c).getSlot i).frontend = (m.getSlot i).frontend := by
  rw [timer_manager2.applyCmd]
  split
  · split
    · rfl
    · split <;> exact frontend_setSlot _ _ _ _ rfl
  · rfl

theorem getSlot_applyCmd_ne (m : timer_manager2) (c : cmd_t) {i : Nat} (h : c.id ≠ i) :
    (m.applyCmd c).getSlot i = m.getSlot i := by
  rw [timer_manager2.applyCmd]
  split
  · split
    · rfl
    · split <;> exact timer_manager2.getSlot_setSlot_ne _ _ h
  · rfl

theorem drainSlot_frames (b : Nat) (m : timer_manager2) (i : Nat) :
    (timer_manager2.drainSlot b m i).pending_cmds = m.pending_cmds
    ∧ (timer_manager2.drainSlot b m i).cur_time = m.cur_time
    ∧ (timer_manager2.drainSlot b m i).fired = m.fired
    ∧ (timer_manager2.drainSlot b m i).free_list = m.free_list
    ∧ (timer_manager2.drainSlot b m i).timer_list.length = m.timer_list.length := by
  rw [timer_manager2.drainSlot]
  split
  · split
    · exact ⟨rfl, rfl, rfl, rfl, rfl⟩
    · split <;> exact ⟨rfl, rfl, rfl, rfl, by simp [timer_manager2.setSlot]⟩
  · exact ⟨rfl, rfl, rfl, rfl, rfl⟩

theorem frontend_drainSlot (b : Nat) (m : timer_manager2) (i j : Nat) :
    ((timer_manager2.drainSlot b m i).getSlot j).frontend = (m.getSlot j).frontend := by
  rw [timer_manager2.drainSlot]
  split
  · split
    · rfl
    · split <;> exact frontend_setSlot _ _ _ _ rfl
  · rfl

theorem getSlot_drainSlot_ne (b : Nat) (m : timer_manager2) {i j : Nat} (h : i ≠ j) :
    (timer_manager2.drainSlot b m i).getSlot j = m.getSlot j := by
  rw [timer_manager2.drainSlot]
  split
  · split
    · rfl
    · split <;> exact timer_manager2.getSlot_setSlot_ne _ _ h
  · rfl

theorem frames_foldApply (cs : List cmd_t) : ∀ (m : timer_manager2),
    (cs.foldl timer_manager2.applyCmd m).pending_cmds = m.pending_cmds
    ∧ (cs.foldl timer_manager2.applyCmd m).cur_time = m.cur_time
    ∧ (cs.foldl timer_manager2.applyCmd m).dispatched = m.dispatched
    ∧ (cs.foldl timer_manager2.applyCmd m).dispatch_log = m.dispatch_log
    ∧ (cs.foldl timer_manager2.applyCmd m).fired = m.fired
    ∧ (cs.foldl timer_manager2.applyCmd m).timer_list.length = m.timer_list.length := by
  induction cs with
  | nil => exact fun m => ⟨rfl, rfl, rfl, rfl, rfl, rfl⟩
  | cons c cs ih =>
    intro m
    obtain ⟨p1, p2, p3, p4, p5, p6⟩ := ih (m.applyCmd c)
    obtain ⟨q1, q2, q3, q4, q5, q6⟩ := applyCmd_frames m c
    rw [List.foldl_cons]
    exact ⟨p1.trans q1, p2.trans q2, p3.trans q3, p4.trans q4, p5.trans q5, p6.trans q6⟩

theorem frontend_foldApply (cs : List cmd_t) : ∀ (m : timer_manager2) (i : Nat),
    ((cs.foldl timer_manager2.applyCmd m).getSlot i).frontend = (m.getSlot i).frontend := by
  induction cs with
  | nil => exact fun m i => rfl
  | cons c cs ih =>
    intro m i
    rw [List.foldl_cons, ih (m.applyCmd c) i, frontend_applyCmd]

theorem frames_foldDrain (b : Nat) (bs : List Nat) : ∀ (m : timer_manager2),
    (bs.foldl (timer_manager2.drainSlot b) m).pending_cmds = m.pending_cmds
    ∧ (bs.foldl (timer_manager2.drainSlot b) m).cur_time = m.cur_time
    ∧ (bs.foldl (timer_manager2.drainSlot b) m).fired = m.fired
    ∧ (bs.foldl (timer_manager2.drainSlot b) m).free_list = m.free_list
    ∧ (bs.foldl (timer_manager2.drainSlot b) m).timer_list.length = m.timer_list.length := by
  induction bs with
  | nil => exact fun m => ⟨rfl, rfl, rfl, rfl, rfl⟩
  | cons i bs ih =>
    intro m
    obtain ⟨p1, p2, p3, p4, p5⟩ := ih (timer_manager2.drainSlot b m i)
    obtain ⟨q1, q2, q3, q4, q5⟩ := drainSlot_frames b m i
    rw [List.foldl_cons]
    exact ⟨p1.trans q1, p2.trans q2, p3.trans q3, p4.trans q4, p5.trans q5⟩

theorem frontend_foldDrain (b : Nat) (bs : List Nat) : ∀ (m : timer_manager2) (i : Nat),
    ((bs.foldl (timer_manager2.drainSlot b) m).getSlot i).frontend = (m.getSlot i).frontend := by
  induction bs with
  | nil => exact fun m i => rfl
  | cons j bs ih =>
    intro m i
    rw [List.foldl_cons, ih (timer_manager2.drainSlot b m j) i, frontend_drainSlot]

theorem tick_all_eq (m : timer_manager2) :
    m.tick_all =
      (((m.pending_cmds.foldl timer_manager2.applyCmd { m with pending_cmds := [] }).time_wheel.getD
          (((m.pending_cmds.foldl timer_manager2.applyCmd { m with pending_cmds := [] }).cur_time + 1)
            % (m.pending_cmds.foldl timer_manager2.applyCmd { m with pending_cmds := [] }).time_wheel.length) []).foldl
        (timer_manager2.drainSlot
          (((m.pending_cmds.foldl timer_manager2.applyCmd { m with pending_cmds := [] }).cur_time + 1)
            % (m.pending_cmds.foldl timer_manager2.applyCmd { m with pending_cmds := [] }).time_wheel.length))
        { (m.pending_cmds.foldl timer_manager2.applyCmd { m with pending_cmds := [] }) with
          cur_time := (m.pending_cmds.foldl timer_manager2.applyCmd { m with pending_cmds := [] }).cur_time + 1
          time_wheel := (m.pending_cmds.foldl timer_manager2.applyCmd { m with pending_cmds := [] }).time_wheel.set
            (((m.pending_cmds.foldl timer_manager2.applyCmd { m with pending_cmds := [] }).cur_time + 1)
              % (m.pending_cmds.foldl timer_manager2.applyCmd { m with pending_cmds := [] }).time_wheel.length) [] }) := rfl

theorem tick_frames (m : timer_manager2) :
    (m.tick_all).fired = m.fired
    ∧ (m.tick_all).cur_time = m.cur_time + 1
    ∧ (m.tick_all).pending_cmds = []
    ∧ (m.tick_all).timer_list.length = m.timer_list.length := by
  rw [tick_all_eq]
  obtain ⟨a1, a2, a3, a4, a5, a6⟩ :=
    frames_foldApply m.pending_cmds { m with pending_cmds := [] }
  obtain ⟨d1, d2, d3, d4, d5⟩ := frames_foldDrain _ _
    { (m.pending_cmds.foldl timer_manager2.applyCmd { m with pending_cmds := [] }) with
      cur_time := (m.pending_cmds.foldl timer_manager2.applyCmd { m with pending_cmds := [] }).cur_time + 1
      time_wheel := (m.pending_cmds.foldl timer_manager2.applyCmd { m with pending_cmds := [] }).time_wheel.set
        (((m.pending_cmds.foldl timer_manager2.applyCmd { m with pending_cmds := [] }).cur_time + 1)
          % (m.pending_cmds.foldl timer_manager2.applyCmd { m with pending_cmds := [] }).time_wheel.length) [] }
  refine ⟨?_, ?_, ?_, ?_⟩
  · rw [d3]
    exact a5
  · rw [d2]
    show (m.pending_cmds.foldl timer_manager2.applyCmd { m with pending_cmds := [] }).cur_time + 1
      = m.cur_time + 1
    rw [a2]
  · rw [d1]
    exact a1
  · rw [d5]
    exact a6

theorem tick_frontend (m : timer_manager2) (i : Nat) :
    ((m.tick_all).getSlot i).frontend = (m.getSlot i).frontend := by
  rw [tick_all_eq]
  rw [frontend_foldDrain]
  show (((m.pending_cmds.foldl timer_manager2.applyCmd { m with pending_cmds := [] }).getSlot i)).frontend
    = (m.getSlot i).frontend
  rw [frontend_foldApply]
  rfl

/-! ### Frontend epoch monotonicity and the fired log -/

theorem frontend_create (m : timer_manager2) (i : Nat) :
    ((m.create_timer).1.getSlot i).frontend = (m.getSlot i).frontend := by
  rcases hf : m.free_list with _ | ⟨f, rest⟩
  · rw [create_timer_nil m hf]
    show ((m.timer_list ++
        [{ blank_timer m.timer_list.length with
           owned := true
           backend := { (blank_timer m.timer_list.length).backend with exec_alloc := true } }]).getD
      i (blank_timer 0)).frontend = (m.getSlot i).frontend
    rw [getD_append_cases]
    by_cases h1 : i < m.timer_list.length
    · rw [if_pos h1]
      rfl
    · rw [if_neg h1]
      have hbl : m.getSlot i = blank_timer 0 := m.getSlot_of_length_le (Nat.le_of_not_lt h1)
      rw [hbl]
      by_cases h2 : i = m.timer_list.length
      · rw [if_pos h2]
        rfl
      · rw [if_neg h2]
  · rw [create_timer_cons m f rest hf]
    exact frontend_setSlot _ _ _ _ rfl

theorem feEpoch_setSlot_le (m : timer_manager2) (i j : Nat) (s' : timer_handle)
    (hf : (m.getSlot i).frontend.epoch ≤ s'.frontend.epoch) :
    (m.getSlot j).frontend.epoch ≤ ((m.setSlot i s').getSlot j).frontend.epoch := by
  rw [timer_manager2.getSlot_setSlot]
  split
  · next h =>
    obtain ⟨h1, h2⟩ := h
    subst h1
    exact hf
  · exact Nat.le_refl _

theorem feEpoch_setSlot_eq (m : timer_manager2) (i j : Nat) (s' : timer_handle)
    (hf : s'.frontend.epoch = (m.getSlot i).frontend.epoch) :
    ((m.setSlot i s').getSlot j).frontend.epoch = (m.getSlot j).frontend.epoch := by
  rw [timer_manager2.getSlot_setSlot]
  split
  · next h =>
    obtain ⟨h1, h2⟩ := h
    subst h1
    exact hf
  · rfl

theorem feEpoch_run_dispatched (m : timer_manager2) (n : Nat) (i : Nat) :
    ((m.run_dispatched n).getSlot i).frontend.epoch = (m.getSlot i).frontend.epoch := by
  by_cases hn : n < m.dispatched.length
  · rw [run_dispatched_eq m n hn]
    split
    · split
      · exact feEpoch_setSlot_eq _ _ _ _ rfl
      · exact feEpoch_setSlot_eq _ _ _ _ rfl
    · rfl
  · rw [timer_manager2.run_dispatched, if_neg hn]

/-- Each atomic event leaves every frontend epoch the same or larger. -/
theorem feEpoch_step (m : timer_manager2) (o : op) (i : Nat) :
    (m.getSlot i).frontend.epoch ≤ ((step m o).getSlot i).frontend.epoch := by
  cases o with
  | create =>
    show _ ≤ ((m.create_timer).1.getSlot i).frontend.epoch
    rw [frontend_create]
  | fset j dur =>
    show _ ≤ ((if (m.getSlot j).owned = true then timer_handle.set m j dur else m).getSlot i).frontend.epoch
    by_cases how : (m.getSlot j).owned = true
    · rw [if_pos how, set_eq]
      exact feEpoch_setSlot_le m j i _ (Nat.le_of_eq rfl)
    · rw [if_neg how]
  | fset_cb j dur =>
    show _ ≤ ((if (m.getSlot j).owned = true then timer_handle.set_cb m j dur else m).getSlot i).frontend.epoch
    by_cases how : (m.getSlot j).owned = true
    · rw [if_pos how, set_cb_eq]
      exact feEpoch_setSlot_le m j i _ (Nat.le_of_eq rfl)
    · rw [if_neg how]
  | frun j =>
    show _ ≤ ((if (m.getSlot j).owned = true then timer_handle.run m j else m).getSlot i).frontend.epoch
    by_cases how : (m.getSlot j).owned = true
    · rw [if_pos how, run_eq, getSlot_congr rfl i]
      exact feEpoch_setSlot_le m j i _ (Nat.le_succ _)
    · rw [if_neg how]
  | fstop j =>
    show _ ≤ ((if (m.getSlot j).owned = true then timer_handle.stop m j else m).getSlot i).frontend.epoch
    by_cases how : (m.getSlot j).owned = true
    · rw [if_pos how]
      by_cases hr : (m.getSlot j).frontend.state = state_t.running
      · rw [stop_eq_running m j hr, getSlot_congr rfl i]
        exact feEpoch_setSlot_le m j i _ (Nat.le_succ _)
      · rw [stop_eq_not_running m j hr]
    · rw [if_neg how]
  | fdestroy j =>
    show _ ≤ ((if (m.getSlot j).owned = true
        then (timer_handle.destroy m j).markUnowned j else m).getSlot i).frontend.epoch
    by_cases how : (m.getSlot j).owned = true
    · rw [if_pos how, fdestroy_eq m j (timer_manager2.lt_of_owned how), getSlot_congr rfl i]
      exact feEpoch_setSlot_le m j i _ (Nat.le_succ _)
    · rw [if_neg how]
  | tick =>
    show _ ≤ ((m.tick_all).getSlot i).frontend.epoch
    rw [tick_frontend]
  | run_disp n =>
    show _ ≤ ((m.run_dispatched n).getSlot i).frontend.epoch
    rw [feEpoch_run_dispatched]

theorem feEpoch_applyOps (tr : List op) : ∀ (m : timer_manager2) (i : Nat),
    (m.getSlot i).frontend.epoch ≤ ((applyOps m tr).getSlot i).frontend.epoch := by
  induction tr with
  | nil => exact fun m i => Nat.le_refl _
  | cons o tr ih =>
    intro m i
    exact Nat.le_trans (feEpoch_step m o i) (ih (step m o) i)

theorem fired_create (m : timer_manager2) : (m.create_timer).1.fired = m.fired := by
  rcases hf : m.free_list with _ | ⟨f, rest⟩
  · rw [create_timer_nil m hf]
  · rw [create_timer_cons m f rest hf]
    rfl

/-- Each atomic event either leaves the fired log unchanged or appends a
single pair whose dispatched epoch equals the current frontend epoch of
its slot. -/
theorem fired_step_cases (m : timer_manager2) (o : op) :
    (step m o).fired = m.fired
    ∨ ∃ p : Nat × Nat, (step m o).fired = m.fired ++ [p]
        ∧ (m.getSlot p.1).frontend.epoch = p.2 := by
  cases o with
  | create =>
    exact Or.inl (fired_create m)
  | fset j dur =>
    left
    show (if (m.getSlot j).owned = true then timer_handle.set m j dur else m).fired = m.fired
    by_cases how : (m.getSlot j).owned = true
    · rw [if_pos how, set_eq]
      rfl
    · rw [if_neg how]
  | fset_cb j dur =>
    left
    show (if (m.getSlot j).owned = true then timer_handle.set_cb m j dur else m).fired = m.fired
    by_cases how : (m.getSlot j).owned = true
    · rw [if_pos how, set_cb_eq]
      rfl
    · rw [if_neg how]
  | frun j =>
    left
    show (if (m.getSlot j).owned = true then timer_handle.run m j else m).fired = m.fired
    by_cases how : (m.getSlot j).owned = true
    · rw [if_pos how, run_eq]
      rfl
    · rw [if_neg how]
  | fstop j =>
    left
    show (if (m.getSlot j).owned = true then timer_handle.stop m j else m).fired = m.fired
    by_cases how : (m.getSlot j).owned = true
    · rw [if_pos how]
      by_cases hr : (m.getSlot j).frontend.state = state_t.running
      · rw [stop_eq_running m j hr]
        rfl
      · rw [stop_eq_not_running m j hr]
    · rw [if_neg how]
  | fdestroy j =>
    left
    show (if (m.getSlot j).owned = true
      then (timer_handle.destroy m j).markUnowned j else m).fired = m.fired
    by_cases how : (m.getSlot j).owned = true
    · rw [if_pos how, fdestroy_eq m j (timer_manager2.lt_of_owned how)]
      rfl
    · rw [if_neg how]
  | tick =>
    exact Or.inl (tick_frames m).1
  | run_disp n =>
    show (m.run_dispatched n).fired = m.fired
      ∨ ∃ p : Nat × Nat, (m.run_dispatched n).fired = m.fired ++ [p]
          ∧ (m.getSlot p.1).frontend.epoch = p.2
    by_cases hn : n < m.dispatched.length
    · rw [run_dispatched_eq m n hn]
      split
      · next hmatch =>
        split
        · right
          exact ⟨m.dispatched.getD n (0, 0), rfl, hmatch.2⟩
        · left
          rfl
      · left
        rfl
    · rw [timer_manager2.run_dispatched, if_neg hn]
      exact Or.inl rfl

/-- Once the frontend epoch of a slot has moved past e and no callback
for (slot, e) has fired, no later event can fire one. -/
theorem noFire_step (m : timer_manager2) (o : op) (s e : Nat)
    (h1 : e < (m.getSlot s).frontend.epoch) (h2 : m.fired.count (s, e) = 0) :
    e < ((step m o).getSlot s).frontend.epoch ∧ (step m o).fired.count (s, e) = 0 := by
  refine ⟨Nat.lt_of_lt_of_le h1 (feEpoch_step m o s), ?_⟩
  rcases fired_step_cases m o with hc | ⟨p, hp, hpe⟩
  · rw [hc, h2]
  · rw [hp, List.count_append, h2]
    have hne : p ≠ (s, e) := by
      intro hq
      rw [hq] at hpe
      exact absurd hpe (Nat.ne_of_gt h1)
    have : List.count (s, e) [p] = 0 := List.count_eq_zero.mpr (by simp [Ne.symm hne])
    rw [this]

theorem noFire_applyOps (tr : List op) : ∀ (m : timer_manager2) (s e : Nat),
    e < (m.getSlot s).frontend.epoch → m.fired.count (s, e) = 0 →
    (applyOps m tr).fired.count (s, e) = 0 := by
  induction tr with
  | nil => exact fun m s e _ h2 => h2
  | cons o tr ih =>
    intro m s e h1 h2
    obtain ⟨h1', h2'⟩ := noFire_step m o s e h1 h2
    exact ih (step m o) s e h1' h2'

/-! ### Observable effects of a forwarded stop -/

theorem stop_effects (m : timer_manager2) (i : Nat)
    (hlt : i < m.timer_list.length)
    (hr : (m.getSlot i).frontend.state = state_t.running) :
    ((timer_handle.stop m i).getSlot i).frontend.epoch = (m.getSlot i).frontend.epoch + 1
    ∧ ((timer_handle.stop m i).getSlot i).frontend.state = state_t.stopped
    ∧ (timer_handle.stop m i).pending_cmds
        = m.pending_cmds ++ [⟨(m.getSlot i).id, (m.getSlot i).frontend.epoch + 1,
            action_t.stop, 0⟩]
    ∧ (timer_handle.stop m i).fired = m.fired := by
  rw [stop_eq_running m i hr]
  have hget := timer_manager2.getSlot_setSlot_self m i
    { m.getSlot i with frontend := { (m.getSlot i).frontend with
        epoch := (m.getSlot i).frontend.epoch + 1, state := .stopped } } hlt
  exact ⟨congrArg (fun x => x.frontend.epoch) hget,
    congrArg (fun x => x.frontend.state) hget, rfl, rfl⟩

/-- C5: unique_timer::stop forwards to the slot (bumping the frontend
epoch, writing frontend state stopped and posting one stop command)
exactly when the handle is valid and the frontend state is running; on a
released handle or a non-running timer it returns the state unchanged. -/
theorem C5_stop_forwards_iff (m : timer_manager2) (t : unique_timer) :
    (t.handle = none → unique_timer.stop m t = m)
    ∧ (∀ i, t.handle = some i → (m.getSlot i).frontend.state ≠ state_t.running →
        unique_timer.stop m t = m)
    ∧ (∀ i, t.handle = some i → (m.getSlot i).frontend.state = state_t.running →
        i < m.timer_list.length →
        ((unique_timer.stop m t).getSlot i).frontend.epoch
            = (m.getSlot i).frontend.epoch + 1
        ∧ ((unique_timer.stop m t).getSlot i).frontend.state = state_t.stopped
        ∧ (unique_timer.stop m t).pending_cmds
            = m.pending_cmds ++ [⟨(m.getSlot i).id, (m.getSlot i).frontend.epoch + 1,
                action_t.stop, 0⟩]) := by
  obtain ⟨h0⟩ := t
  refine ⟨?_, ?_, ?_⟩
  · intro hn
    have hn' : h0 = none := hn
    subst hn'
    rfl
  · intro i hi hnr
    have hi' : h0 = some i := hi
    subst hi'
    show (if (m.getSlot i).frontend.state = state_t.running
      then timer_handle.stop m i else m) = m
    rw [if_neg hnr]
  · intro i hi hr hlt
    have hi' : h0 = some i := hi
    subst hi'
    have hfwd : unique_timer.stop m ⟨some i⟩ = timer_handle.stop m i := by
      show (if (m.getSlot i).frontend.state = state_t.running
        then timer_handle.stop m i else m) = timer_handle.stop m i
      rw [if_pos hr]
    rw [hfwd]
    obtain ⟨e1, e2, e3, _⟩ := stop_effects m i hlt hr
    exact ⟨e1, e2, e3⟩

/-- C9: on a valid handle, set stores the duration (and, in the callback
overload, the callback flag) locally on the slot, posts no backend
command and leaves the frontend state and every other slot untouched; on
a released handle both overloads fail with the InvalidHandle assertion. -/
theorem C9_set_stores_locally (m : timer_manager2) (t : unique_timer) (dur : Nat) :
    (t.handle = none →
        unique_timer.set m t dur = Except.error assert_error.InvalidHandle
        ∧ unique_timer.set_with_callback m t dur = Except.error assert_error.InvalidHandle)
    ∧ (∀ i, t.handle = some i →
        unique_timer.set m t dur = Except.ok (timer_handle.set m i dur)
        ∧ (timer_handle.set m i dur).pending_cmds = m.pending_cmds
        ∧ ((timer_handle.set m i dur).getSlot i).frontend.state
            = (m.getSlot i).frontend.state
        ∧ (i < m.timer_list.length →
            ((timer_handle.set m i dur).getSlot i).frontend.duration = dur)
        ∧ (∀ j, j ≠ i → (timer_handle.set m i dur).getSlot j = m.getSlot j))
    ∧ (∀ i, t.handle = some i →
        unique_timer.set_with_callback m t dur = Except.ok (timer_handle.set_cb m i dur)
        ∧ (timer_handle.set_cb m i dur).pending_cmds = m.pending_cmds
        ∧ ((timer_handle.set_cb m i dur).getSlot i).frontend.state
            = (m.getSlot i).frontend.state
        ∧ (i < m.timer_list.length →
            ((timer_handle.set_cb m i dur).getSlot i).frontend.duration = dur)) := by
  obtain ⟨h0⟩ := t
  refine ⟨?_, ?_, ?_⟩
  · intro hn
    have hn' : h0 = none := hn
    subst hn'
    exact ⟨rfl, rfl⟩
  · intro i hi
    have hi' : h0 = some i := hi
    subst hi'
    refine ⟨rfl, rfl, ?_, ?_, ?_⟩
    · rw [set_eq, timer_manager2.getSlot_setSlot]
      split
      · next h =>
        obtain ⟨h1, h2⟩ := h
        rfl
      · rfl
    · intro hlt
      rw [set_eq, timer_manager2.getSlot_setSlot_self m i _ hlt]
    · intro j hj
      rw [set_eq]
      exact timer_manager2.getSlot_setSlot_ne m _ (fun hq => hj hq.symm)
  · intro i hi
    have hi' : h0 = some i := hi
    subst hi'
    refine ⟨rfl, rfl, ?_, ?_⟩
    · rw [set_cb_eq, timer_manager2.getSlot_setSlot]
      split
      · next h =>
        obtain ⟨h1, h2⟩ := h
        rfl
      · rfl
    · intro hlt
      rw [set_cb_eq, timer_manager2.getSlot_setSlot_self m i _ hlt]

/-- C10: every read accessor of a released, moved-from or
default-constructed handle returns its safe default (INVALID_TIMER_ID,
the INVALID_DURATION sentinel, or false) and stop is a silent no-op. -/
theorem C10_released_handle_defaults (m : timer_manager2) (t : unique_timer)
    (h : t.is_valid = false) :
    unique_timer.id m t = INVALID_TIMER_ID
    ∧ unique_timer.duration m t = INVALID_DURATION
    ∧ unique_timer.is_set m t = false
    ∧ unique_timer.is_running m t = false
    ∧ unique_timer.has_expired m t = false
    ∧ unique_timer.stop m t = m := by
  obtain ⟨h0⟩ := t
  cases h0 with
  | none => exact ⟨rfl, rfl, rfl, rfl, rfl, rfl⟩
  | some i => simp [unique_timer.is_valid] at h

theorem C10_released_handle_defaults_witness :
    (⟨none⟩ : unique_timer).is_valid = false
    ∧ (unique_timer.id (timer_manager2.init 1) ⟨none⟩ = INVALID_TIMER_ID
      ∧ unique_timer.duration (timer_manager2.init 1) ⟨none⟩ = INVALID_DURATION
      ∧ unique_timer.is_set (timer_manager2.init 1) ⟨none⟩ = false
      ∧ unique_timer.is_running (timer_manager2.init 1) ⟨none⟩ = false
      ∧ unique_timer.has_expired (timer_manager2.init 1) ⟨none⟩ = false
      ∧ unique_timer.stop (timer_manager2.init 1) ⟨none⟩ = timer_manager2.init 1) :=
  ⟨rfl, C10_released_handle_defaults (timer_manager2.init 1) ⟨none⟩ rfl⟩

/-! ### Handle moves never duplicate a slot reference -/

theorem movePool_noalias (hs : List unique_timer) (ij : Nat × Nat)
    (h : NoAlias hs) : NoAlias (movePool hs ij) := by
  rw [movePool]
  split
  · exact h
  · next hne =>
    intro i j a hi hj hij h1 h2
    have hlen : ((hs.set ij.1 ⟨(hs.getD ij.2 ⟨none⟩).handle⟩).set ij.2 ⟨none⟩).length
        = hs.length := by simp
    rw [hlen] at hi hj
    have hread : ∀ k, k < hs.length →
        ((hs.set ij.1 ⟨(hs.getD ij.2 ⟨none⟩).handle⟩).set ij.2 ⟨none⟩).getD k ⟨none⟩
          = if k = ij.2 then ⟨none⟩
            else if k = ij.1 then ⟨(hs.getD ij.2 ⟨none⟩).handle⟩
            else hs.getD k ⟨none⟩ := by
      intro k hk
      by_cases hk2 : k = ij.2
      · subst hk2
        rw [if_pos rfl]
        exact getD_set_self _ _ _ _ (by simpa using hk)
      · rw [if_neg hk2, getD_set_ne _ _ _ (fun hq => hk2 hq.symm)]
        by_cases hk1 : k = ij.1
        · subst hk1
          rw [if_pos rfl]
          exact getD_set_self _ _ _ _ hk
        · rw [if_neg hk1]
          exact getD_set_ne _ _ _ (fun hq => hk1 hq.symm)
    have hout : ∀ b, ¬ b < hs.length → (hs.getD b ⟨none⟩).handle ≠ some a := by
      intro b hb hq
      rw [getD_of_length_le _ _ (Nat.le_of_not_lt hb)] at hq
      cases hq
    rw [hread i hi] at h1
    rw [hread j hj] at h2
    by_cases hi2 : i = ij.2
    · rw [if_pos hi2] at h1
      cases h1
    rw [if_neg hi2] at h1
    by_cases hj2 : j = ij.2
    · rw [if_pos hj2] at h2
      cases h2
    rw [if_neg hj2] at h2
    by_cases hi1 : i = ij.1
    · rw [if_pos hi1] at h1
      have h1' : (hs.getD ij.2 ⟨none⟩).handle = some a := h1
      by_cases hb2 : ij.2 < hs.length
      · by_cases hj1 : j = ij.1
        · exact absurd (hi1.trans hj1.symm) hij
        · rw [if_neg hj1] at h2
          exact h ij.2 j a hb2 hj (fun hq => hj2 hq.symm) h1' h2
      · exact hout ij.2 hb2 h1'
    · rw [if_neg hi1] at h1
      by_cases hj1 : j = ij.1
      · rw [if_pos hj1] at h2
        have h2' : (hs.getD ij.2 ⟨none⟩).handle = some a := h2
        by_cases hb2 : ij.2 < hs.length
        · exact h i ij.2 a hi hb2 (fun hq => hi2 hq) h1 h2'
        · exact hout ij.2 hb2 h2'
      · rw [if_neg hj1] at h2
        exact h i j a hi hj hij h1 h2

/-- C4: unique_timer owns its slot uniquely: move construction and move
assignment hand the slot pointer to the destination and null the source,
and a pool of mutually non-aliased handles stays non-aliased under any
sequence of moves. -/
theorem C4_unique_owner (t d s : unique_timer) (hs : List unique_timer)
    (ms : List (Nat × Nat)) :
    unique_timer.move_construct t = (⟨t.handle⟩, (⟨none⟩ : unique_timer))
    ∧ (unique_timer.move_construct t).2.is_valid = false
    ∧ unique_timer.move_assign d s = (⟨s.handle⟩, (⟨none⟩ : unique_timer))
    ∧ (unique_timer.move_assign d s).2.is_valid = false
    ∧ (NoAlias hs → NoAlias (ms.foldl movePool hs)) := by
  refine ⟨rfl, rfl, rfl, rfl, ?_⟩
  intro h0
  induction ms generalizing hs with
  | nil => exact h0
  | cons ij ms ih =>
    rw [List.foldl_cons]
    exact ih (movePool hs ij) (movePool_noalias hs ij h0)

/-- C6: frontend epochs are non-decreasing along every continuation of a
legal trace, the backend epoch of a slot never exceeds its frontend
epoch at a quiescent point, and the backend drops any command whose
epoch is below the slot's recorded backend epoch. -/
theorem C6_epoch_monotonicity (W : Nat) (tr : List op) (i : Nat) (hW : 0 < W) :
    (∀ ext : List op,
        ((applyOps (timer_manager2.init W) tr).getSlot i).frontend.epoch
          ≤ ((applyOps (applyOps (timer_manager2.init W) tr) ext).getSlot i).frontend.epoch)
    ∧ ((applyOps (timer_manager2.init W) tr).getSlot i).backend.epoch
        ≤ ((applyOps (timer_manager2.init W) tr).getSlot i).frontend.epoch
    ∧ (∀ c : cmd_t,
        c.epoch < ((applyOps (timer_manager2.init W) tr).getSlot c.id).backend.epoch →
        (applyOps (timer_manager2.init W) tr).applyCmd c
          = applyOps (timer_manager2.init W) tr) := by
  refine ⟨?_, ?_, ?_⟩
  · exact fun ext => feEpoch_applyOps ext _ i
  · exact ((inv_reach hW tr).1).epochLe i
  · intro c hc
    by_cases hid : c.id < (applyOps (timer_manager2.init W) tr).timer_list.length
    · exact applyCmd_stale hid hc
    · exact applyCmd_oor hid

theorem C6_epoch_monotonicity_witness :
    0 < 2
    ∧ ((∀ ext : List op,
        ((applyOps (timer_manager2.init 2) [op.create, op.frun 0]).getSlot 0).frontend.epoch
          ≤ ((applyOps (applyOps (timer_manager2.init 2) [op.create, op.frun 0]) ext).getSlot 0).frontend.epoch)
      ∧ ((applyOps (timer_manager2.init 2) [op.create, op.frun 0]).getSlot 0).backend.epoch
          ≤ ((applyOps (timer_manager2.init 2) [op.create, op.frun 0]).getSlot 0).frontend.epoch
      ∧ (∀ c : cmd_t,
          c.epoch < ((applyOps (timer_manager2.init 2) [op.create, op.frun 0]).getSlot c.id).backend.epoch →
          (applyOps (timer_manager2.init 2) [op.create, op.frun 0]).applyCmd c
            = applyOps (timer_manager2.init 2) [op.create, op.frun 0])) :=
  ⟨by decide, C6_epoch_monotonicity 2 [op.create, op.frun 0] 0 (by decide)⟩

/-- C7: at every reachable quiescent state a slot is linked into the
wheel at most once, it is linked exactly when its backend state is
running, and the bucket holding it is its deadline reduced modulo the
wheel size. -/
theorem C7_wheel_residency (W : Nat) (tr : List op) (i : Nat) (hW : 0 < W) :
    wcount (applyOps (timer_manager2.init W) tr).time_wheel i ≤ 1
    ∧ (0 < wcount (applyOps (timer_manager2.init W) tr).time_wheel i
        ↔ ((applyOps (timer_manager2.init W) tr).getSlot i).backend.state = state_t.running)
    ∧ (∀ b, b < (applyOps (timer_manager2.init W) tr).time_wheel.length →
        i ∈ (applyOps (timer_manager2.init W) tr).time_wheel.getD b [] →
        ((applyOps (timer_manager2.init W) tr).getSlot i).backend.timeout
          % (applyOps (timer_manager2.init W) tr).time_wheel.length = b) := by
  have hcore := (inv_reach hW tr).1
  have hq := hcore.wEq i
  refine ⟨?_, ⟨?_, ?_⟩, fun b hb hmem => hcore.bucketMod b hb i hmem⟩
  · rw [hq]
    split
    · exact Nat.le_refl _
    · exact Nat.zero_le _
  · intro hpos
    by_contra hns
    rw [if_neg hns] at hq
    omega
  · intro hs
    rw [if_pos hs] at hq
    omega

theorem C7_wheel_residency_witness :
    0 < 2
    ∧ (wcount (applyOps (timer_manager2.init 2) [op.create, op.fset 0 1, op.frun 0, op.tick]).time_wheel 0 ≤ 1
      ∧ (0 < wcount (applyOps (timer_manager2.init 2) [op.create, op.fset 0 1, op.frun 0, op.tick]).time_wheel 0
          ↔ ((applyOps (timer_manager2.init 2) [op.create, op.fset 0 1, op.frun 0, op.tick]).getSlot 0).backend.state = state_t.running)
      ∧ (∀ b, b < (applyOps (timer_manager2.init 2) [op.create, op.fset 0 1, op.frun 0, op.tick]).time_wheel.length →
          0 ∈ (applyOps (timer_manager2.init 2) [op.create, op.fset 0 1, op.frun 0, op.tick]).time_wheel.getD b [] →
          ((applyOps (timer_manager2.init 2) [op.create, op.fset 0 1, op.frun 0, op.tick]).getSlot 0).backend.timeout
            % (applyOps (timer_manager2.init 2) [op.create, op.fset 0 1, op.frun 0, op.tick]).time_wheel.length = b)) :=
  ⟨by decide, C7_wheel_residency 2 [op.create, op.fset 0 1, op.frun 0, op.tick] 0 (by decide)⟩

/-- C8: across any legal trace the expiry callback of a slot runs at
most once per frontend epoch, so the callback configured by one run can
never be delivered twice. -/
theorem C8_fire_once (W : Nat) (tr : List op) (hW : 0 < W) :
    ∀ s e : Nat, (applyOps (timer_manager2.init W) tr).fired.count (s, e) ≤ 1 := by
  intro s e
  have htok := (inv_reach hW tr).2.2 s e
  rw [tok] at htok
  omega

theorem C8_fire_once_witness :
    0 < 2
    ∧ (∀ s e : Nat,
        (applyOps (timer_manager2.init 2)
          [op.create, op.fset_cb 0 1, op.frun 0, op.tick, op.run_disp 0]).fired.count (s, e) ≤ 1) :=
  ⟨by decide, C8_fire_once 2 [op.create, op.fset_cb 0 1, op.frun 0, op.tick, op.run_disp 0] (by decide)⟩

/-- C2: once stop has been issued on a running handle (bumping the
frontend epoch past the epoch of the pending run) and the run's callback
has not yet executed, no continuation of the trace can ever deliver that
run's callback: either the stop command removes the slot from the wheel
before its deadline, or the already-dispatched closure observes the
epoch mismatch and drops the callback. -/
theorem C2_no_spurious_fire_after_stop (W : Nat) (tr0 tr1 tr2 : List op) (s : Nat)
    (hown : ((applyOps (applyOps (timer_manager2.init W) (tr0 ++ [op.frun s])) tr1).getSlot s).owned
        = true)
    (hrun : ((applyOps (applyOps (timer_manager2.init W) (tr0 ++ [op.frun s])) tr1).getSlot s).frontend.state
        = state_t.running)
    (hnot : (applyOps (applyOps (timer_manager2.init W) (tr0 ++ [op.frun s])) tr1).fired.count
        (s, ((applyOps (timer_manager2.init W) (tr0 ++ [op.frun s])).getSlot s).frontend.epoch)
        = 0) :
    (applyOps (step (applyOps (applyOps (timer_manager2.init W) (tr0 ++ [op.frun s])) tr1)
        (op.fstop s)) tr2).fired.count
      (s, ((applyOps (timer_manager2.init W) (tr0 ++ [op.frun s])).getSlot s).frontend.epoch)
      = 0 := by
  set mA := applyOps (timer_manager2.init W) (tr0 ++ [op.frun s]) with hmA
  set e := (mA.getSlot s).frontend.epoch with he
  set mB := applyOps mA tr1 with hmB
  have hmono : e ≤ (mB.getSlot s).frontend.epoch := feEpoch_applyOps tr1 mA s
  have hstep : step mB (op.fstop s) = timer_handle.stop mB s := by
    show (if (mB.getSlot s).owned = true then timer_handle.stop mB s else mB)
      = timer_handle.stop mB s
    rw [if_pos hown]
  obtain ⟨e1, e2, e3, e4⟩ := stop_effects mB s (timer_manager2.lt_of_owned hown) hrun
  have h1 : e < ((step mB (op.fstop s)).getSlot s).frontend.epoch := by
    rw [hstep, e1]
    omega
  have h2 : (step mB (op.fstop s)).fired.count (s, e) = 0 := by
    rw [hstep, e4]
    exact hnot
  exact noFire_applyOps tr2 _ s e h1 h2

theorem C2_no_spurious_fire_witness :
    ((applyOps (applyOps (timer_manager2.init 4) ([op.create, op.fset_cb 0 2] ++ [op.frun 0])) []).getSlot 0).owned = true
    ∧ ((applyOps (applyOps (timer_manager2.init 4) ([op.create, op.fset_cb 0 2] ++ [op.frun 0])) []).getSlot 0).frontend.state = state_t.running
    ∧ (applyOps (applyOps (timer_manager2.init 4) ([op.create, op.fset_cb 0 2] ++ [op.frun 0])) []).fired.count
        (0, ((applyOps (timer_manager2.init 4) ([op.create, op.fset_cb 0 2] ++ [op.frun 0])).getSlot 0).frontend.epoch) = 0
    ∧ (applyOps (step (applyOps (applyOps (timer_manager2.init 4) ([op.create, op.fset_cb 0 2] ++ [op.frun 0])) [])
          (op.fstop 0)) [op.tick, op.tick, op.tick, op.run_disp 0]).fired.count
        (0, ((applyOps (timer_manager2.init 4) ([op.create, op.fset_cb 0 2] ++ [op.frun 0])).getSlot 0).frontend.epoch) = 0 :=
  ⟨by decide, by decide, by decide,
    C2_no_spurious_fire_after_stop 4 [op.create, op.fset_cb 0 2] [] [op.tick, op.tick, op.tick, op.run_disp 0] 0
      (by decide) (by decide) (by decide)⟩

/-! ### The move-assignment destroy leak -/

/-- Number of destroy commands for slot i in a command list. -/
def destroyCount (cs : List cmd_t) (i : Nat) : Nat :=
  cs.countP (fun c => decide (c.id = i ∧ c.action = action_t.destroy))

/-- First handle handed out: slot 0 of a fresh manager. -/
def c3_m1 : timer_manager2 := ((timer_manager2.init 4).create_unique_timer).1

def c3_t0 : unique_timer := ((timer_manager2.init 4).create_unique_timer).2

/-- Second handle handed out: slot 1. -/
def c3_m2 : timer_manager2 := (c3_m1.create_unique_timer).1

def c3_t1 : unique_timer := (c3_m1.create_unique_timer).2

/-- The move assignment t0 = std::move(t1) of timers2.h lines 167-171. -/
def c3_t0' : unique_timer := (unique_timer.move_assign c3_t0 c3_t1).1

def c3_t1' : unique_timer := (unique_timer.move_assign c3_t0 c3_t1).2

/-- Both handles then leave scope: each valid handle posts destroy once. -/
def c3_m3 : timer_manager2 := (unique_timer.release c3_m2 c3_t0').1

def c3_m4 : timer_manager2 := (unique_timer.release c3_m3 c3_t1').1

/-- C3: the claim fails in the code: move assignment overwrites the
destination handle without releasing the slot it owned, so after
t0 = std::move(t1) followed by both destructors, slot 0 (handed out by
create_unique_timer and still allocated) never receives a destroy
command, while slot 1 receives exactly one. -/
theorem C3_move_assign_destroy_leak :
    c3_t0.handle = some 0
    ∧ c3_t1.handle = some 1
    ∧ c3_t0'.handle = some 1
    ∧ c3_t1'.handle = none
    ∧ (c3_m2.getSlot 0).backend.exec_alloc = true
    ∧ destroyCount c3_m4.pending_cmds 0 = 0
    ∧ destroyCount c3_m4.pending_cmds 1 = 1
    ∧ (c3_m4.getSlot 0).backend.exec_alloc = true
    ∧ c3_m4.free_list = [] := by
  decide

/-! ### Deadline tracking: helper frame lemmas -/

/-- An op that re-arms, stops or destroys slot s (the interveners the
deadline claim excludes). -/
def rearms (s : Nat) : op → Bool
  | .frun i => i == s
  | .fstop i => i == s
  | .fdestroy i => i == s
  | _ => false

theorem owned_setSlot (m : timer_manager2) (i j : Nat) (s' : timer_handle)
    (hf : s'.owned = (m.getSlot i).owned) :
    ((m.setSlot i s').getSlot j).owned = (m.getSlot j).owned := by
  rw [timer_manager2.getSlot_setSlot]
  split
  · next h =>
    rw [hf, h.1]
  · rfl

theorem backend_setSlot (m : timer_manager2) (i j : Nat) (s' : timer_handle)
    (hf : s'.backend = (m.getSlot i).backend) :
    ((m.setSlot i s').getSlot j).backend = (m.getSlot j).backend := by
  rw [timer_manager2.getSlot_setSlot]
  split
  · next h =>
    rw [hf, h.1]
  · rfl

theorem owned_applyCmd (m : timer_manager2) (c : cmd_t) (i : Nat) :
    ((m.applyCmd c).getSlot i).owned = (m.getSlot i).owned := by
  rw [timer_manager2.applyCmd]
  split
  · split
    · rfl
    · split <;> exact owned_setSlot _ _ _ _ rfl
  · rfl

theorem owned_foldApply (cs : List cmd_t) : ∀ (m : timer_manager2) (i : Nat),
    ((cs.foldl timer_manager2.applyCmd m).getSlot i).owned = (m.getSlot i).owned := by
  induction cs with
  | nil => exact fun m i => rfl
  | cons c cs ih =>
    intro m i
    rw [List.foldl_cons, ih (m.applyCmd c) i, owned_applyCmd]

theorem getSlot_foldApply_ne (cs : List cmd_t) (s : Nat) :
    ∀ (m : timer_manager2), (∀ c' ∈ cs, c'.id ≠ s) →
    (cs.foldl timer_manager2.applyCmd m).getSlot s = m.getSlot s := by
  induction cs with
  | nil => exact fun m _ => rfl
  | cons c cs ih =>
    intro m hne
    rw [List.foldl_cons, ih (m.applyCmd c)
      (fun c' hc' => hne c' (List.mem_cons_of_mem c hc'))]
    exact getSlot_applyCmd_ne m c (hne c (List.mem_cons_self c cs))

theorem wheelLen_applyCmd (m : timer_manager2) (c : cmd_t) :
    (m.applyCmd c).time_wheel.length = m.time_wheel.length := by
  rw [timer_manager2.applyCmd]
  split
  · split
    · rfl
    · split <;> simp [timer_manager2.setSlot, length_wheelInsert, length_wheelRemove]
  · rfl

theorem wheelLen_foldApply (cs : List cmd_t) : ∀ (m : timer_manager2),
    (cs.foldl timer_manager2.applyCmd m).time_wheel.length = m.time_wheel.length := by
  induction cs with
  | nil => exact fun m => rfl
  | cons c cs ih =>
    intro m
    rw [List.foldl_cons, ih (m.applyCmd c), wheelLen_applyCmd]

theorem drainSlot_ne_effects (b : Nat) (m : timer_manager2) {i s : Nat} (h : i ≠ s) :
    (timer_manager2.drainSlot b m i).getSlot s = m.getSlot s
    ∧ (∀ e, (timer_manager2.drainSlot b m i).dispatched.count (s, e)
        = m.dispatched.count (s, e))
    ∧ (∀ e, (timer_manager2.drainSlot b m i).dispatch_log.count (s, e)
        = m.dispatch_log.count (s, e)) := by
  have hcnt : ∀ (l : List (Nat × Nat)) (e : Nat),
      (l ++ [(i, (m.getSlot i).backend.epoch)]).count (s, e) = l.count (s, e) := by
    intro l e
    rw [List.count_append]
    have : List.count (s, e) [(i, (m.getSlot i).backend.epoch)] = 0 :=
      List.count_eq_zero.mpr (by simp [Ne.symm h])
    rw [this]
    exact Nat.add_zero _
  rw [timer_manager2.drainSlot]
  split
  · split
    · exact ⟨rfl, fun e => rfl, fun e => rfl⟩
    · split
      · exact ⟨timer_manager2.getSlot_setSlot_ne _ _ h, fun e => hcnt _ e, fun e => hcnt _ e⟩
      · exact ⟨timer_manager2.getSlot_setSlot_ne _ _ h, fun e => rfl, fun e => rfl⟩
  · exact ⟨rfl, fun e => rfl, fun e => rfl⟩

theorem foldDrain_ne (b : Nat) (bs : List Nat) (s : Nat) :
    ∀ (m : timer_manager2), (∀ j ∈ bs, j ≠ s) →
    ((bs.foldl (timer_manager2.drainSlot b) m).getSlot s = m.getSlot s)
    ∧ (∀ e, (bs.foldl (timer_manager2.drainSlot b) m).dispatched.count (s, e)
        = m.dispatched.count (s, e))
    ∧ (∀ e, (bs.foldl (timer_manager2.drainSlot b) m).dispatch_log.count (s, e)
        = m.dispatch_log.count (s, e)) := by
  induction bs with
  | nil => exact fun m _ => ⟨rfl, fun e => rfl, fun e => rfl⟩
  | cons j bs ih =>
    intro m hne
    obtain ⟨g1, g2, g3⟩ := drainSlot_ne_effects b m (hne j (List.mem_cons_self j bs))
    obtain ⟨f1, f2, f3⟩ := ih (timer_manager2.drainSlot b m j)
      (fun j' hj' => hne j' (List.mem_cons_of_mem j hj'))
    rw [List.foldl_cons]
    exact ⟨f1.trans g1, fun e => (f2 e).trans (g2 e), fun e => (f3 e).trans (g3 e)⟩

theorem owned_run_dispatched (m : timer_manager2) (n : Nat) (i : Nat) :
    ((m.run_dispatched n).getSlot i).owned = (m.getSlot i).owned := by
  by_cases hn : n < m.dispatched.length
  · rw [run_dispatched_eq m n hn]
    split
    · split
      · exact owned_setSlot _ _ _ _ rfl
      · exact owned_setSlot _ _ _ _ rfl
    · rfl
  · rw [timer_manager2.run_dispatched, if_neg hn]

theorem backend_run_dispatched (m : timer_manager2) (n : Nat) (i : Nat) :
    ((m.run_dispatched n).getSlot i).backend = (m.getSlot i).backend := by
  by_cases hn : n < m.dispatched.length
  · rw [run_dispatched_eq m n hn]
    split
    · split
      · exact backend_setSlot _ _ _ _ rfl
      · exact backend_setSlot _ _ _ _ rfl
    · rfl
  · rw [timer_manager2.run_dispatched, if_neg hn]

theorem frames_run_dispatched (m : timer_manager2) (n : Nat) :
    (m.run_dispatched n).pending_cmds = m.pending_cmds
    ∧ (m.run_dispatched n).cur_time = m.cur_time
    ∧ (m.run_dispatched n).dispatch_log = m.dispatch_log
    ∧ (∀ p : Nat × Nat, (m.run_dispatched n).dispatched.count p ≤ m.dispatched.count p) := by
  by_cases hn : n < m.dispatched.length
  · have hcnt : ∀ p : Nat × Nat, (m.dispatched.eraseIdx n).count p ≤ m.dispatched.count p := by
      intro p
      have := count_eraseIdx m.dispatched n (0, 0) p hn
      omega
    rw [run_dispatched_eq m n hn]
    split
    · split
      · exact ⟨rfl, rfl, rfl, hcnt⟩
      · exact ⟨rfl, rfl, rfl, hcnt⟩
    · exact ⟨rfl, rfl, rfl, hcnt⟩
  · rw [timer_manager2.run_dispatched, if_neg hn]
    exact ⟨rfl, rfl, rfl, fun p => Nat.le_refl _⟩

theorem create_frames (m : timer_manager2) :
    (m.create_timer).1.pending_cmds = m.pending_cmds
    ∧ (m.create_timer).1.cur_time = m.cur_time
    ∧ (m.create_timer).1.dispatched = m.dispatched
    ∧ (m.create_timer).1.dispatch_log = m.dispatch_log
    ∧ (m.create_timer).1.time_wheel = m.time_wheel := by
  rcases hf : m.free_list with _ | ⟨f, rest⟩
  · rw [create_timer_nil m hf]
    exact ⟨rfl, rfl, rfl, rfl, rfl⟩
  · rw [create_timer_cons m f rest hf]
    exact ⟨rfl, rfl, rfl, rfl, rfl⟩

theorem getSlot_create_of_owned {m : timer_manager2} {s : Nat} (hInv : Inv m)
    (hown : (m.getSlot s).owned = true) :
    (m.create_timer).1.getSlot s = m.getSlot s := by
  have hlt : s < m.timer_list.length := timer_manager2.lt_of_owned hown
  rcases hf : m.free_list with _ | ⟨f, rest⟩
  · rw [create_timer_nil m hf]
    show (m.timer_list ++ [_]).getD s (blank_timer 0) = m.getSlot s
    exact getD_append_left _ _ _ hlt
  · rw [create_timer_cons m f rest hf]
    have hfs : f ≠ s := by
      intro hq
      have hfree := hInv.1.freeState f (by rw [hf]; exact List.mem_cons_self f rest)
      rw [hq] at hfree
      rw [hfree.1] at hown
      cases hown
    exact timer_manager2.getSlot_setSlot_ne _ _ hfs

theorem cntStart_sublist_le {cs' cs : List cmd_t} (h : cs'.Sublist cs) (s e : Nat) :
    cntStart cs' s e ≤ cntStart cs s e :=
  List.Sublist.countP_le _ h

theorem InvCmds_sublist {m : timer_manager2} {cs' cs : List cmd_t}
    (h : cs'.Sublist cs) (hc : InvCmds m cs) : InvCmds m cs' := by
  constructor
  · exact fun c hcm => hc.cmdBound c (h.mem hcm)
  · exact fun c hcm => hc.cmdAlloc c (h.mem hcm)
  · exact fun c hcm => hc.destroyUnowned c (h.mem hcm)
  · exact hc.destroyLast.sublist h

theorem TokInv_sublist {m : timer_manager2} {cs' cs : List cmd_t}
    (h : cs'.Sublist cs) (ht : TokInv m cs) : TokInv m cs' := by
  intro s e
  have h1 := ht s e
  have h2 := cntStart_sublist_le h s e
  rw [tok] at h1 ⊢
  omega

/-! ### Deadline tracking: the three phases of one undisturbed run -/

/-- Phase A: the start command of the tracked run (slot s, epoch e,
duration d) is still in the mailbox, posted while the cursor was c, and
it is the last command for s there. -/
structure TrackA (m : timer_manager2) (s e c d : Nat) : Prop where
  hcur : m.cur_time = c
  hfe : (m.getSlot s).frontend.epoch = e
  hown : (m.getSlot s).owned = true
  hsplit : ∃ cs1 cs2, m.pending_cmds = cs1 ++ (⟨s, e, action_t.start, d⟩ : cmd_t) :: cs2
      ∧ ∀ c' ∈ cs2, c'.id ≠ s
  hdisp : m.dispatched.count (s, e) = 0
  hlog : m.dispatch_log.count (s, e) = 0

/-- Phase B: the backend armed the run with absolute deadline T and the
cursor has not reached it. -/
structure TrackB (m : timer_manager2) (s e T : Nat) : Prop where
  hfe : (m.getSlot s).frontend.epoch = e
  hown : (m.getSlot s).owned = true
  hbe : (m.getSlot s).backend = ⟨e, state_t.running, T, true⟩
  hcur : m.cur_time < T
  hpend : ∀ c' ∈ m.pending_cmds, c'.id ≠ s
  hdisp : m.dispatched.count (s, e) = 0
  hlog : m.dispatch_log.count (s, e) = 0

/-- Phase C: the run's expiry was dispatched, exactly once, on the tick
that moved the cursor to T. -/
structure TrackC (m : timer_manager2) (s e T : Nat) : Prop where
  hfe : (m.getSlot s).frontend.epoch = e
  hown : (m.getSlot s).owned = true
  hbst : (m.getSlot s).backend.state = state_t.expired
  hcur : T ≤ m.cur_time
  hpend : ∀ c' ∈ m.pending_cmds, c'.id ≠ s
  hlog1 : m.dispatch_log.count (s, e) = 1

def Track (m : timer_manager2) (s e c d : Nat) : Prop :=
  TrackA m s e c d ∨ TrackB m s e (c + d) ∨ TrackC m s e (c + d)

/-- The dispatch log holds the tracked run exactly from the tick that
reaches its deadline on. -/
theorem track_log_count {m : timer_manager2} {s e c d : Nat} (hd : 0 < d)
    (ht : Track m s e c d) :
    m.dispatch_log.count (s, e) = if c + d ≤ m.cur_time then 1 else 0 := by
  rcases ht with hA | hB | hC
  · rw [hA.hlog, if_neg]
    rw [hA.hcur]
    omega
  · rw [hB.hlog, if_neg]
    have := hB.hcur
    omega
  · rw [hC.hlog1, if_pos hC.hcur]

/-- Generic preservation of the tracking phases by an event that keeps
the tracked slot's epoch, ownership and backend, the cursor, the
in-flight counts and the log, and at most appends one foreign command. -/
theorem track_pres {m m' : timer_manager2} {s e c d : Nat}
    (hfe : (m'.getSlot s).frontend.epoch = (m.getSlot s).frontend.epoch)
    (hown : (m'.getSlot s).owned = (m.getSlot s).owned)
    (hbe : (m'.getSlot s).backend = (m.getSlot s).backend)
    (hcur : m'.cur_time = m.cur_time)
    (hdisp : ∀ e', m'.dispatched.count (s, e') = m.dispatched.count (s, e'))
    (hlog : ∀ e', m'.dispatch_log.count (s, e') = m.dispatch_log.count (s, e'))
    (hpend : m'.pending_cmds = m.pending_cmds
      ∨ ∃ cnew : cmd_t, m'.pending_cmds = m.pending_cmds ++ [cnew] ∧ cnew.id ≠ s)
    (ht : Track m s e c d) : Track m' s e c d := by
  rcases ht with hA | hB | hC
  · left
    refine ⟨hcur.trans hA.hcur, hfe.trans hA.hfe, hown.trans hA.hown, ?_,
      (hdisp e).trans hA.hdisp, (hlog e).trans hA.hlog⟩
    obtain ⟨cs1, cs2, hps, hcs2⟩ := hA.hsplit
    rcases hpend with hp | ⟨cnew, hp, hnew⟩
    · exact ⟨cs1, cs2, hp.trans hps, hcs2⟩
    · refine ⟨cs1, cs2 ++ [cnew], ?_, ?_⟩
      · rw [hp, hps, List.append_assoc, List.cons_append]
      · intro c' hc'
        rcases List.mem_append.1 hc' with h1 | h2
        · exact hcs2 c' h1
        · rw [List.mem_singleton.1 h2]
          exact hnew
  · right
    left
    refine ⟨hfe.trans hB.hfe, hown.trans hB.hown, hbe.trans hB.hbe, ?_, ?_,
      (hdisp e).trans hB.hdisp, (hlog e).trans hB.hlog⟩
    · rw [hcur]
      exact hB.hcur
    · intro c' hc'
      rcases hpend with hp | ⟨cnew, hp, hnew⟩
      · exact hB.hpend c' (hp ▸ hc')
      · rw [hp] at hc'
        rcases List.mem_append.1 hc' with h1 | h2
        · exact hB.hpend c' h1
        · rw [List.mem_singleton.1 h2]
          exact hnew
  · right
    right
    refine ⟨hfe.trans hC.hfe, hown.trans hC.hown, ?_, ?_, ?_, (hlog e).trans hC.hlog1⟩
    · rw [show (m'.getSlot s).backend.state = (m.getSlot s).backend.state from
        congrArg timer_backend_context.state hbe]
      exact hC.hbst
    · rw [hcur]
      exact hC.hcur
    · intro c' hc'
      rcases hpend with hp | ⟨cnew, hp, hnew⟩
      · exact hC.hpend c' (hp ▸ hc')
      · rw [hp] at hc'
        rcases List.mem_append.1 hc' with h1 | h2
        · exact hC.hpend c' h1
        · rw [List.mem_singleton.1 h2]
          exact hnew

theorem Track.owned {m : timer_manager2} {s e c d : Nat} (ht : Track m s e c d) :
    (m.getSlot s).owned = true := by
  rcases ht with hA | hB | hC
  · exact hA.hown
  · exact hB.hown
  · exact hC.hown

theorem track_create {m : timer_manager2} {s e c d : Nat} (hInv : Inv m)
    (ht : Track m s e c d) : Track (m.create_timer).1 s e c d := by
  obtain ⟨f1, f2, f3, f4, f5⟩ := create_frames m
  have hslot := getSlot_create_of_owned hInv ht.owned
  exact track_pres (congrArg (fun x => x.frontend.epoch) hslot)
    (congrArg (fun x => x.owned) hslot) (congrArg (fun x => x.backend) hslot)
    f2 (fun e' => by rw [f3]) (fun e' => by rw [f4]) (Or.inl f1) ht

theorem track_fset {m : timer_manager2} {s e c d : Nat} (j dur : Nat)
    (ht : Track m s e c d) : Track (step m (op.fset j dur)) s e c d := by
  show Track (if (m.getSlot j).owned = true then timer_handle.set m j dur else m) s e c d
  by_cases how : (m.getSlot j).owned = true
  · rw [if_pos how, set_eq]
    exact track_pres (feEpoch_setSlot_eq _ _ _ _ rfl) (owned_setSlot _ _ _ _ rfl)
      (backend_setSlot _ _ _ _ rfl) rfl (fun e' => rfl) (fun e' => rfl) (Or.inl rfl) ht
  · rw [if_neg how]
    exact ht

theorem track_fset_cb {m : timer_manager2} {s e c d : Nat} (j dur : Nat)
    (ht : Track m s e c d) : Track (step m (op.fset_cb j dur)) s e c d := by
  show Track (if (m.getSlot j).owned = true then timer_handle.set_cb m j dur else m) s e c d
  by_cases how : (m.getSlot j).owned = true
  · rw [if_pos how, set_cb_eq]
    exact track_pres (feEpoch_setSlot_eq _ _ _ _ rfl) (owned_setSlot _ _ _ _ rfl)
      (backend_setSlot _ _ _ _ rfl) rfl (fun e' => rfl) (fun e' => rfl) (Or.inl rfl) ht
  · rw [if_neg how]
    exact ht

theorem track_frun {m : timer_manager2} {s e c d : Nat} {j : Nat} (hInv : Inv m)
    (hne : j ≠ s) (ht : Track m s e c d) : Track (step m (op.frun j)) s e c d := by
  show Track (if (m.getSlot j).owned = true then timer_handle.run m j else m) s e c d
  by_cases how : (m.getSlot j).owned = true
  · rw [if_pos how, run_eq]
    have hid : (m.getSlot j).id = j := hInv.1.idIdx j (timer_manager2.lt_of_owned how)
    have hs : ((m.setSlot j { m.getSlot j with
        frontend := { (m.getSlot j).frontend with
          epoch := (m.getSlot j).frontend.epoch + 1, state := .running } }).getSlot s)
        = m.getSlot s := timer_manager2.getSlot_setSlot_ne m _ hne
    refine track_pres ?_ ?_ ?_ ?_ ?_ ?_ ?_ ht
    · exact congrArg (fun x => x.frontend.epoch) hs
    · exact congrArg (fun x => x.owned) hs
    · exact congrArg (fun x => x.backend) hs
    · rfl
    · exact fun e' => rfl
    · exact fun e' => rfl
    · right
      refine ⟨⟨(m.getSlot j).id, (m.getSlot j).frontend.epoch + 1, .start,
        (m.getSlot j).frontend.duration⟩, rfl, ?_⟩
      show (m.getSlot j).id ≠ s
      rw [hid]
      exact hne
  · rw [if_neg how]
    exact ht

theorem track_fstop {m : timer_manager2} {s e c d : Nat} {j : Nat} (hInv : Inv m)
    (hne : j ≠ s) (ht : Track m s e c d) : Track (step m (op.fstop j)) s e c d := by
  show Track (if (m.getSlot j).owned = true then timer_handle.stop m j else m) s e c d
  by_cases how : (m.getSlot j).owned = true
  · rw [if_pos how]
    by_cases hr : (m.getSlot j).frontend.state = state_t.running
    · rw [stop_eq_running m j hr]
      have hid : (m.getSlot j).id = j := hInv.1.idIdx j (timer_manager2.lt_of_owned how)
      have hs : ((m.setSlot j { m.getSlot j with
          frontend := { (m.getSlot j).frontend with
            epoch := (m.getSlot j).frontend.epoch + 1, state := .stopped } }).getSlot s)
          = m.getSlot s := timer_manager2.getSlot_setSlot_ne m _ hne
      refine track_pres ?_ ?_ ?_ ?_ ?_ ?_ ?_ ht
      · exact congrArg (fun x => x.frontend.epoch) hs
      · exact congrArg (fun x => x.owned) hs
      · exact congrArg (fun x => x.backend) hs
      · rfl
      · exact fun e' => rfl
      · exact fun e' => rfl
      · right
        refine ⟨⟨(m.getSlot j).id, (m.getSlot j).frontend.epoch + 1, .stop, 0⟩, rfl, ?_⟩
        show (m.getSlot j).id ≠ s
        rw [hid]
        exact hne
    · rw [stop_eq_not_running m j hr]
      exact ht
  · rw [if_neg how]
    exact ht

theorem track_fdestroy {m : timer_manager2} {s e c d : Nat} {j : Nat} (hInv : Inv m)
    (hne : j ≠ s) (ht : Track m s e c d) : Track (step m (op.fdestroy j)) s e c d := by
  show Track (if (m.getSlot j).owned = true
    then (timer_handle.destroy m j).markUnowned j else m) s e c d
  by_cases how : (m.getSlot j).owned = true
  · have hlt : j < m.timer_list.length := timer_manager2.lt_of_owned how
    rw [if_pos how, fdestroy_eq m j hlt]
    have hid : (m.getSlot j).id = j := hInv.1.idIdx j hlt
    have hs : ((m.setSlot j { m.getSlot j with
        frontend := { (m.getSlot j).frontend with
          epoch := (m.getSlot j).frontend.epoch + 1 }
        owned := false }).getSlot s)
        = m.getSlot s := timer_manager2.getSlot_setSlot_ne m _ hne
    refine track_pres ?_ ?_ ?_ ?_ ?_ ?_ ?_ ht
    · exact congrArg (fun x => x.frontend.epoch) hs
    · exact congrArg (fun x => x.owned) hs
    · exact congrArg (fun x => x.backend) hs
    · rfl
    · exact fun e' => rfl
    · exact fun e' => rfl
    · right
      refine ⟨⟨(m.getSlot j).id, (m.getSlot j).frontend.epoch + 1, .destroy, 0⟩, rfl, ?_⟩
      show (m.getSlot j).id ≠ s
      rw [hid]
      exact hne
  · rw [if_neg how]
    exact ht

theorem track_run_disp {m : timer_manager2} {s e c d : Nat} (n : Nat)
    (ht : Track m s e c d) : Track (m.run_dispatched n) s e c d := by
  obtain ⟨f1, f2, f3, f4⟩ := frames_run_dispatched m n
  rcases ht with hA | hB | hC
  · left
    refine ⟨f2.trans hA.hcur, (feEpoch_run_dispatched m n s).trans hA.hfe,
      (owned_run_dispatched m n s).trans hA.hown, ?_, ?_, ?_⟩
    · obtain ⟨cs1, cs2, hps, hcs2⟩ := hA.hsplit
      exact ⟨cs1, cs2, f1.trans hps, hcs2⟩
    · have h := f4 (s, e)
      rw [hA.hdisp] at h
      exact Nat.le_zero.mp h
    · rw [f3]
      exact hA.hlog
  · right
    left
    refine ⟨(feEpoch_run_dispatched m n s).trans hB.hfe,
      (owned_run_dispatched m n s).trans hB.hown,
      (backend_run_dispatched m n s).trans hB.hbe, ?_, ?_, ?_, ?_⟩
    · rw [f2]
      exact hB.hcur
    · intro c' hc'
      exact hB.hpend c' (f1 ▸ hc')
    · have h := f4 (s, e)
      rw [hB.hdisp] at h
      exact Nat.le_zero.mp h
    · rw [f3]
      exact hB.hlog
  · right
    right
    refine ⟨(feEpoch_run_dispatched m n s).trans hC.hfe,
      (owned_run_dispatched m n s).trans hC.hown, ?_, ?_, ?_, ?_⟩
    · rw [show ((m.run_dispatched n).getSlot s).backend.state = (m.getSlot s).backend.state
        from congrArg timer_backend_context.state (backend_run_dispatched m n s)]
      exact hC.hbst
    · rw [f2]
      exact hC.hcur
    · intro c' hc'
      exact hC.hpend c' (f1 ▸ hc')
    · rw [f3]
      exact hC.hlog1

theorem wcount_pos_mem (w : List (List Nat)) (i : Nat) (h : 0 < wcount w i) :
    ∃ b, b < w.length ∧ i ∈ w.getD b [] := by
  induction w with
  | nil =>
    rw [wcount_nil] at h
    exact absurd h (Nat.lt_irrefl 0)
  | cons x w ih =>
    rw [wcount_cons] at h
    by_cases hx : 0 < x.count i
    · exact ⟨0, Nat.succ_pos _, List.count_pos_iff.mp hx⟩
    · have hw : 0 < wcount w i := by omega
      obtain ⟨b, hb, hm⟩ := ih hw
      exact ⟨b + 1, Nat.succ_lt_succ hb, hm⟩

/-- Draining a bucket that holds the tracked slot once: the slot is
re-inserted while the cursor is short of its deadline, and dispatched
exactly once on the tick that reaches it. -/
theorem drain_fold_hit {b : Nat} {l1 l2 : List Nat} {s e T : Nat} (m4 : timer_manager2)
    (hn1 : ∀ j ∈ l1, j ≠ s) (hn2 : ∀ j ∈ l2, j ≠ s)
    (hfe : (m4.getSlot s).frontend.epoch = e)
    (hown : (m4.getSlot s).owned = true)
    (hbe : (m4.getSlot s).backend = ⟨e, state_t.running, T, true⟩)
    (hlt : s < m4.timer_list.length)
    (hdisp : m4.dispatched.count (s, e) = 0)
    (hlog : m4.dispatch_log.count (s, e) = 0)
    (hpend : m4.pending_cmds = []) :
    (m4.cur_time < T →
      TrackB ((l1 ++ s :: l2).foldl (timer_manager2.drainSlot b) m4) s e T)
    ∧ (m4.cur_time = T →
      TrackC ((l1 ++ s :: l2).foldl (timer_manager2.drainSlot b) m4) s e T) := by
  rw [List.foldl_append, List.foldl_cons]
  obtain ⟨g1, g2, g3⟩ := foldDrain_ne b l1 s m4 hn1
  obtain ⟨p1, p2, p3, p4, p5⟩ := frames_foldDrain b l1 m4
  have hto5 : (m4.getSlot s).backend.timeout = T := by rw [hbe]
  have hep5 : (m4.getSlot s).backend.epoch = e := by rw [hbe]
  have halc5 : (m4.getSlot s).backend.exec_alloc = true := by rw [hbe]
  constructor
  · intro hc
    have hre : timer_manager2.drainSlot b (l1.foldl (timer_manager2.drainSlot b) m4) s
        = { (l1.foldl (timer_manager2.drainSlot b) m4) with
            time_wheel := wheelInsert (l1.foldl (timer_manager2.drainSlot b) m4).time_wheel b s } := by
      apply drainSlot_reinsert
      · rw [p5]
        exact hlt
      · rw [p2, g1, hto5]
        exact hc
    rw [hre]
    obtain ⟨q1, q2, q3⟩ := foldDrain_ne b l2 s _ hn2
    obtain ⟨r1, r2, r3, r4, r5⟩ := frames_foldDrain b l2
      ({ (l1.foldl (timer_manager2.drainSlot b) m4) with
        time_wheel := wheelInsert (l1.foldl (timer_manager2.drainSlot b) m4).time_wheel b s })
    have hs6 : ∀ X : timer_handle → Prop, X (m4.getSlot s) →
        X ((l2.foldl (timer_manager2.drainSlot b)
          { (l1.foldl (timer_manager2.drainSlot b) m4) with
            time_wheel := wheelInsert (l1.foldl (timer_manager2.drainSlot b) m4).time_wheel b s }).getSlot s) := by
      intro X hX
      rw [q1]
      show X ((l1.foldl (timer_manager2.drainSlot b) m4).getSlot s)
      rw [g1]
      exact hX
    refine ⟨?_, ?_, ?_, ?_, ?_, ?_, ?_⟩
    · exact hs6 (fun x => x.frontend.epoch = e) hfe
    · exact hs6 (fun x => x.owned = true) hown
    · exact hs6 (fun x => x.backend = ⟨e, state_t.running, T, true⟩) hbe
    · rw [r2]
      show (l1.foldl (timer_manager2.drainSlot b) m4).cur_time < T
      rw [p2]
      exact hc
    · intro c' hc'
      rw [r1] at hc'
      have : (l1.foldl (timer_manager2.drainSlot b) m4).pending_cmds = [] := by
        rw [p1]
        exact hpend
      rw [show ({ (l1.foldl (timer_manager2.drainSlot b) m4) with
        time_wheel := wheelInsert (l1.foldl (timer_manager2.drainSlot b) m4).time_wheel b s } :
        timer_manager2).pending_cmds = (l1.foldl (timer_manager2.drainSlot b) m4).pending_cmds
        from rfl, this] at hc'
      cases hc'
    · rw [q2]
      show (l1.foldl (timer_manager2.drainSlot b) m4).dispatched.count (s, e) = 0
      rw [g2]
      exact hdisp
    · rw [q3]
      show (l1.foldl (timer_manager2.drainSlot b) m4).dispatch_log.count (s, e) = 0
      rw [g3]
      exact hlog
  · intro hc
    have hml : s < (l1.foldl (timer_manager2.drainSlot b) m4).timer_list.length := by
      rw [p5]
      exact hlt
    have hnc : ¬ (l1.foldl (timer_manager2.drainSlot b) m4).cur_time
        < ((l1.foldl (timer_manager2.drainSlot b) m4).getSlot s).backend.timeout := by
      rw [p2, g1, hto5, hc]
      exact Nat.lt_irrefl T
    have hal : ((l1.foldl (timer_manager2.drainSlot b) m4).getSlot s).backend.exec_alloc
        = true := by
      rw [g1]
      exact halc5
    have hex := drainSlot_expire_alloc (b := b) hml hnc hal
    rw [hex]
    have hepq : ((l1.foldl (timer_manager2.drainSlot b) m4).getSlot s).backend.epoch = e := by
      rw [g1]
      exact hep5
    obtain ⟨q1, q2, q3⟩ := foldDrain_ne b l2 s _ hn2
    obtain ⟨r1, r2, r3, r4, r5⟩ := frames_foldDrain b l2 _
    have hslot6 : ((l2.foldl (timer_manager2.drainSlot b)
        { (l1.foldl (timer_manager2.drainSlot b) m4).setSlot s
            { (l1.foldl (timer_manager2.drainSlot b) m4).getSlot s with
              backend := { ((l1.foldl (timer_manager2.drainSlot b) m4).getSlot s).backend with
                state := .expired } } with
          dispatched := (l1.foldl (timer_manager2.drainSlot b) m4).dispatched
            ++ [(s, ((l1.foldl (timer_manager2.drainSlot b) m4).getSlot s).backend.epoch)]
          dispatch_log := (l1.foldl (timer_manager2.drainSlot b) m4).dispatch_log
            ++ [(s, ((l1.foldl (timer_manager2.drainSlot b) m4).getSlot s).backend.epoch)] }).getSlot s)
        = { (l1.foldl (timer_manager2.drainSlot b) m4).getSlot s with
              backend := { ((l1.foldl (timer_manager2.drainSlot b) m4).getSlot s).backend with
                state := .expired } } := by
      rw [q1]
      exact timer_manager2.getSlot_setSlot_self _ _ _ hml
    refine ⟨?_, ?_, ?_, ?_, ?_, ?_⟩
    · rw [hslot6]
      show ((l1.foldl (timer_manager2.drainSlot b) m4).getSlot s).frontend.epoch = e
      rw [g1]
      exact hfe
    · rw [hslot6]
      show ((l1.foldl (timer_manager2.drainSlot b) m4).getSlot s).owned = true
      rw [g1]
      exact hown
    · rw [hslot6]
    · rw [r2]
      show T ≤ (l1.foldl (timer_manager2.drainSlot b) m4).cur_time
      rw [p2, hc]
    · intro c' hc'
      rw [r1] at hc'
      have hpe : (l1.foldl (timer_manager2.drainSlot b) m4).pending_cmds = [] := by
        rw [p1]
        exact hpend
      rw [show ({ (l1.foldl (timer_manager2.drainSlot b) m4).setSlot s
          { (l1.foldl (timer_manager2.drainSlot b) m4).getSlot s with
            backend := { ((l1.foldl (timer_manager2.drainSlot b) m4).getSlot s).backend with
              state := .expired } } with
          dispatched := (l1.foldl (timer_manager2.drainSlot b) m4).dispatched
            ++ [(s, ((l1.foldl (timer_manager2.drainSlot b) m4).getSlot s).backend.epoch)]
          dispatch_log := (l1.foldl (timer_manager2.drainSlot b) m4).dispatch_log
            ++ [(s, ((l1.foldl (timer_manager2.drainSlot b) m4).getSlot s).backend.epoch)] } :
          timer_manager2).pending_cmds
          = (l1.foldl (timer_manager2.drainSlot b) m4).pending_cmds from rfl, hpe] at hc'
      cases hc'
    · rw [q3]
      show ((l1.foldl (timer_manager2.drainSlot b) m4).dispatch_log
          ++ [(s, ((l1.foldl (timer_manager2.drainSlot b) m4).getSlot s).backend.epoch)]).count
        (s, e) = 1
      rw [List.count_append, hepq]
      have h1 : (l1.foldl (timer_manager2.drainSlot b) m4).dispatch_log.count (s, e) = 0 := by
        rw [g3]
        exact hlog
      have h2 : List.count (s, e) [(s, e)] = 1 := by simp
      rw [h1, h2]

/-- Advancing the cursor and draining the bucket at it: an armed slot
with deadline T not yet reached either stays armed (cursor still short
of T) or is dispatched exactly now (cursor reaches T). -/
theorem drain_phase {m3 m4 : timer_manager2} {s e T b : Nat} {bs : List Nat}
    (hcore : InvCore m3)
    (hfe : (m3.getSlot s).frontend.epoch = e)
    (hown : (m3.getSlot s).owned = true)
    (hbe : (m3.getSlot s).backend = ⟨e, state_t.running, T, true⟩)
    (hpend : m3.pending_cmds = [])
    (hdisp : m3.dispatched.count (s, e) = 0)
    (hlog : m3.dispatch_log.count (s, e) = 0)
    (hcur : m3.cur_time + 1 ≤ T)
    (hb : b = (m3.cur_time + 1) % m3.time_wheel.length)
    (hbs : bs = m3.time_wheel.getD b [])
    (hm4 : m4 = { m3 with
      cur_time := m3.cur_time + 1
      time_wheel := m3.time_wheel.set b [] }) :
    TrackB (bs.foldl (timer_manager2.drainSlot b) m4) s e T
    ∨ TrackC (bs.foldl (timer_manager2.drainSlot b) m4) s e T := by
  have hW : 0 < m3.time_wheel.length := hcore.wheelPos
  have hlt : s < m3.timer_list.length := timer_manager2.lt_of_owned hown
  have hbst : (m3.getSlot s).backend.state = state_t.running := by rw [hbe]
  have hto : (m3.getSlot s).backend.timeout = T := by rw [hbe]
  have hw1 : wcount m3.time_wheel s = 1 := by
    have h0 := hcore.wEq s
    rw [if_pos hbst] at h0
    exact h0
  have hmemT : s ∈ m3.time_wheel.getD (T % m3.time_wheel.length) [] := by
    obtain ⟨b0, hb0, hm0⟩ := wcount_pos_mem m3.time_wheel s (by omega)
    have hq := hcore.bucketMod b0 hb0 s hm0
    rw [hto] at hq
    rw [hq]
    exact hm0
  have hm4fe : (m4.getSlot s).frontend.epoch = e := by
    rw [hm4]
    exact hfe
  have hm4own : (m4.getSlot s).owned = true := by
    rw [hm4]
    exact hown
  have hm4be : (m4.getSlot s).backend = ⟨e, state_t.running, T, true⟩ := by
    rw [hm4]
    exact hbe
  have hm4lt : s < m4.timer_list.length := by
    rw [hm4]
    exact hlt
  have hm4disp : m4.dispatched.count (s, e) = 0 := by
    rw [hm4]
    exact hdisp
  have hm4log : m4.dispatch_log.count (s, e) = 0 := by
    rw [hm4]
    exact hlog
  have hm4pend : m4.pending_cmds = [] := by
    rw [hm4]
    exact hpend
  have hm4cur : m4.cur_time = m3.cur_time + 1 := by
    rw [hm4]
  by_cases hbT : b = T % m3.time_wheel.length
  · have hmem_bs : s ∈ bs := by
      rw [hbs, hbT]
      exact hmemT
    have hcnt1 : bs.count s = 1 := by
      have hle : bs.count s ≤ wcount m3.time_wheel s := by
        rw [hbs]
        exact count_getD_le_wcount m3.time_wheel b s
      have hge : 0 < bs.count s := List.count_pos_iff.mpr hmem_bs
      omega
    obtain ⟨l1, l2, hdec⟩ := List.append_of_mem hmem_bs
    have hc1 : l1.count s = 0 ∧ l2.count s = 0 := by
      have := hcnt1
      rw [hdec, List.count_append, List.count_cons_self] at this
      omega
    have hn1 : ∀ j ∈ l1, j ≠ s := by
      intro j hj hq
      subst hq
      exact absurd (List.count_pos_iff.mpr hj) (by omega)
    have hn2 : ∀ j ∈ l2, j ≠ s := by
      intro j hj hq
      subst hq
      exact absurd (List.count_pos_iff.mpr hj) (by omega)
    obtain ⟨hB, hC⟩ := drain_fold_hit (b := b) m4 hn1 hn2 hm4fe hm4own hm4be hm4lt
      hm4disp hm4log hm4pend
    rw [hdec]
    rcases Nat.lt_or_ge (m3.cur_time + 1) T with hlt2 | hge2
    · left
      apply hB
      rw [hm4cur]
      exact hlt2
    · right
      apply hC
      rw [hm4cur]
      omega
  · have hns : ∀ j ∈ bs, j ≠ s := by
      intro j hj hq
      subst hq
      apply hbT
      have hblt : b < m3.time_wheel.length := by
        rw [hb]
        exact Nat.mod_lt _ hW
      rw [hbs] at hj
      have hq2 := hcore.bucketMod b hblt j hj
      rw [hto] at hq2
      exact hq2.symm
    obtain ⟨g1, g2, g3⟩ := foldDrain_ne b bs s m4 hns
    obtain ⟨p1, p2, p3, p4, p5⟩ := frames_foldDrain b bs m4
    left
    refine ⟨?_, ?_, ?_, ?_, ?_, ?_, ?_⟩
    · rw [g1]
      exact hm4fe
    · rw [g1]
      exact hm4own
    · rw [g1]
      exact hm4be
    · rw [p2, hm4cur]
      rcases Nat.lt_or_ge (m3.cur_time + 1) T with hlt2 | hge2
      · exact hlt2
      · exfalso
        have hTeq : m3.cur_time + 1 = T := by omega
        apply hbT
        rw [hb, hTeq]
    · intro c' hc'
      rw [p1, hm4pend] at hc'
      cases hc'
    · rw [g2]
      exact hm4disp
    · rw [g3]
      exact hm4log

/-- Applying a mailbox whose last command for slot s is the tracked
start: afterwards the slot is armed at epoch e with absolute deadline
cursor + d and a live executor. -/
theorem apply_phase_start {m : timer_manager2} {s e d : Nat} {cs1 cs2 : List cmd_t}
    (hcore : InvCore m)
    (hcmds : InvCmds m (cs1 ++ (⟨s, e, action_t.start, d⟩ : cmd_t) :: cs2))
    (htok : TokInv m (cs1 ++ (⟨s, e, action_t.start, d⟩ : cmd_t) :: cs2))
    (hfe : (m.getSlot s).frontend.epoch = e)
    (hown : (m.getSlot s).owned = true)
    (hcs2 : ∀ c' ∈ cs2, c'.id ≠ s) :
    ((((cs1 ++ (⟨s, e, action_t.start, d⟩ : cmd_t) :: cs2).foldl
        timer_manager2.applyCmd m).getSlot s).frontend.epoch = e)
    ∧ ((((cs1 ++ (⟨s, e, action_t.start, d⟩ : cmd_t) :: cs2).foldl
        timer_manager2.applyCmd m).getSlot s).owned = true)
    ∧ ((((cs1 ++ (⟨s, e, action_t.start, d⟩ : cmd_t) :: cs2).foldl
        timer_manager2.applyCmd m).getSlot s).backend
        = ⟨e, state_t.running, m.cur_time + d, true⟩) := by
  have hlt : s < m.timer_list.length := timer_manager2.lt_of_owned hown
  have hsub1 : cs1.Sublist (cs1 ++ (⟨s, e, action_t.start, d⟩ : cmd_t) :: cs2) :=
    List.sublist_append_left _ _
  obtain ⟨C1', T1', P1', CT1', D1', L1', F1', LL1'⟩ :=
    applyFold m hcore (InvCmds_sublist hsub1 hcmds) (TokInv_sublist hsub1 htok)
  have hfeA : ((cs1.foldl timer_manager2.applyCmd m).getSlot s).frontend.epoch = e :=
    (congrArg (fun f => f.epoch) (frontend_foldApply cs1 m s)).trans hfe
  have hownA : ((cs1.foldl timer_manager2.applyCmd m).getSlot s).owned = true :=
    (owned_foldApply cs1 m s).trans hown
  have hltA : s < (cs1.foldl timer_manager2.applyCmd m).timer_list.length := by
    rw [LL1']
    exact hlt
  have hepA : ((cs1.foldl timer_manager2.applyCmd m).getSlot s).backend.epoch ≤ e := by
    have h0 := C1'.epochLe s
    rw [hfeA] at h0
    exact h0
  have halA : ((cs1.foldl timer_manager2.applyCmd m).getSlot s).backend.exec_alloc = true :=
    C1'.ownedAlloc s hownA
  have hlt2 : (⟨s, e, action_t.start, d⟩ : cmd_t).id
      < (cs1.foldl timer_manager2.applyCmd m).timer_list.length := hltA
  have hnl : ¬ (⟨s, e, action_t.start, d⟩ : cmd_t).epoch
      < ((cs1.foldl timer_manager2.applyCmd m).getSlot
        (⟨s, e, action_t.start, d⟩ : cmd_t).id).backend.epoch := by
    show ¬ e < ((cs1.foldl timer_manager2.applyCmd m).getSlot s).backend.epoch
    omega
  have happ := applyCmd_start (m := cs1.foldl timer_manager2.applyCmd m)
    (c := ⟨s, e, action_t.start, d⟩) hlt2 hnl rfl
  have hgs : ((cs2.foldl timer_manager2.applyCmd
      (timer_manager2.applyCmd (cs1.foldl timer_manager2.applyCmd m)
        ⟨s, e, action_t.start, d⟩)).getSlot s)
      = { (cs1.foldl timer_manager2.applyCmd m).getSlot s with
          backend := ⟨e, state_t.running, (cs1.foldl timer_manager2.applyCmd m).cur_time + d,
            ((cs1.foldl timer_manager2.applyCmd m).getSlot s).backend.exec_alloc⟩ } := by
    rw [getSlot_foldApply_ne cs2 s _ hcs2, happ]
    exact timer_manager2.getSlot_setSlot_self _ s _ hltA
  rw [List.foldl_append, List.foldl_cons, hgs]
  refine ⟨?_, ?_, ?_⟩
  · exact hfeA
  · exact hownA
  · show (⟨e, state_t.running, (cs1.foldl timer_manager2.applyCmd m).cur_time + d,
      ((cs1.foldl timer_manager2.applyCmd m).getSlot s).backend.exec_alloc⟩ :
        timer_backend_context)
      = ⟨e, state_t.running, m.cur_time + d, true⟩
    rw [CT1', halA]

theorem track_tick_A {m : timer_manager2} {s e c d : Nat} (hInv : Inv m)
    (hd : 0 < d) (hA : TrackA m s e c d) :
    TrackB m.tick_all s e (c + d) ∨ TrackC m.tick_all s e (c + d) := by
  obtain ⟨hcore, hcmds, htok⟩ := hInv
  have hcore0 : InvCore ({ m with pending_cmds := [] } : timer_manager2) :=
    InvCore.congrCore hcore rfl rfl rfl rfl rfl rfl
  have hcmds0 : InvCmds ({ m with pending_cmds := [] } : timer_manager2) m.pending_cmds :=
    InvCmds.congrCmds hcmds rfl
  have htok0 : TokInv ({ m with pending_cmds := [] } : timer_manager2) m.pending_cmds := by
    intro s' e'
    rw [tok_pending_irrel]
    exact htok s' e'
  obtain ⟨cs1, cs2, hps, hcs2⟩ := hA.hsplit
  obtain ⟨C3, T3, P3, CT3, D3, L3, F3, LL3⟩ := applyFold _ hcore0 hcmds0 htok0
  rw [hps] at hcmds0 htok0 C3 P3 CT3 D3 L3
  have hfe0 : (({ m with pending_cmds := [] } : timer_manager2).getSlot s).frontend.epoch
      = e := hA.hfe
  have hown0 : (({ m with pending_cmds := [] } : timer_manager2).getSlot s).owned
      = true := hA.hown
  obtain ⟨f1, f2, f3⟩ := apply_phase_start hcore0 hcmds0 htok0 hfe0 hown0 hcs2
  have hbe3 : (((cs1 ++ (⟨s, e, action_t.start, d⟩ : cmd_t) :: cs2).foldl
      timer_manager2.applyCmd { m with pending_cmds := [] }).getSlot s).backend
      = ⟨e, state_t.running, c + d, true⟩ := by
    rw [f3]
    show (⟨e, state_t.running, m.cur_time + d, true⟩ : timer_backend_context)
      = ⟨e, state_t.running, c + d, true⟩
    rw [hA.hcur]
  have hpend3 : ((cs1 ++ (⟨s, e, action_t.start, d⟩ : cmd_t) :: cs2).foldl
      timer_manager2.applyCmd { m with pending_cmds := [] }).pending_cmds = [] :=
    P3.trans (show ({ m with pending_cmds := [] } : timer_manager2).pending_cmds = []
      from rfl)
  have hdisp3 : ((cs1 ++ (⟨s, e, action_t.start, d⟩ : cmd_t) :: cs2).foldl
      timer_manager2.applyCmd { m with pending_cmds := [] }).dispatched.count (s, e) = 0 := by
    rw [D3]
    exact hA.hdisp
  have hlog3 : ((cs1 ++ (⟨s, e, action_t.start, d⟩ : cmd_t) :: cs2).foldl
      timer_manager2.applyCmd { m with pending_cmds := [] }).dispatch_log.count (s, e) = 0 := by
    rw [L3]
    exact hA.hlog
  have hcur3 : ((cs1 ++ (⟨s, e, action_t.start, d⟩ : cmd_t) :: cs2).foldl
      timer_manager2.applyCmd { m with pending_cmds := [] }).cur_time + 1 ≤ c + d := by
    rw [CT3]
    show m.cur_time + 1 ≤ c + d
    have := hA.hcur
    omega
  rw [tick_all_eq, hps]
  exact drain_phase C3 f1 f2 hbe3 hpend3 hdisp3 hlog3 hcur3 rfl rfl rfl

theorem track_tick_B {m : timer_manager2} {s e T : Nat} (hInv : Inv m)
    (hB : TrackB m s e T) :
    TrackB m.tick_all s e T ∨ TrackC m.tick_all s e T := by
  obtain ⟨hcore, hcmds, htok⟩ := hInv
  have hcore0 : InvCore ({ m with pending_cmds := [] } : timer_manager2) :=
    InvCore.congrCore hcore rfl rfl rfl rfl rfl rfl
  have hcmds0 : InvCmds ({ m with pending_cmds := [] } : timer_manager2) m.pending_cmds :=
    InvCmds.congrCmds hcmds rfl
  have htok0 : TokInv ({ m with pending_cmds := [] } : timer_manager2) m.pending_cmds := by
    intro s' e'
    rw [tok_pending_irrel]
    exact htok s' e'
  obtain ⟨C3, T3, P3, CT3, D3, L3, F3, LL3⟩ := applyFold _ hcore0 hcmds0 htok0
  have hslot3 : (m.pending_cmds.foldl timer_manager2.applyCmd
      { m with pending_cmds := [] }).getSlot s = m.getSlot s :=
    getSlot_foldApply_ne m.pending_cmds s _ hB.hpend
  rw [tick_all_eq]
  refine drain_phase C3 ?_ ?_ ?_ ?_ ?_ ?_ ?_ rfl rfl rfl
  · rw [hslot3]
    exact hB.hfe
  · rw [hslot3]
    exact hB.hown
  · rw [hslot3]
    exact hB.hbe
  · exact P3.trans (show ({ m with pending_cmds := [] } : timer_manager2).pending_cmds = []
      from rfl)
  · rw [D3]
    exact hB.hdisp
  · rw [L3]
    exact hB.hlog
  · rw [CT3]
    show m.cur_time + 1 ≤ T
    have := hB.hcur
    omega

theorem track_tick_C {m : timer_manager2} {s e T : Nat} (hInv : Inv m)
    (hC : TrackC m s e T) : TrackC m.tick_all s e T := by
  obtain ⟨hcore, hcmds, htok⟩ := hInv
  have hcore0 : InvCore ({ m with pending_cmds := [] } : timer_manager2) :=
    InvCore.congrCore hcore rfl rfl rfl rfl rfl rfl
  have hcmds0 : InvCmds ({ m with pending_cmds := [] } : timer_manager2) m.pending_cmds :=
    InvCmds.congrCmds hcmds rfl
  have htok0 : TokInv ({ m with pending_cmds := [] } : timer_manager2) m.pending_cmds := by
    intro s' e'
    rw [tok_pending_irrel]
    exact htok s' e'
  obtain ⟨C3, T3, P3, CT3, D3, L3, F3, LL3⟩ := applyFold _ hcore0 hcmds0 htok0
  have hslot3 : (m.pending_cmds.foldl timer_manager2.applyCmd
      { m with pending_cmds := [] }).getSlot s = m.getSlot s :=
    getSlot_foldApply_ne m.pending_cmds s _ hC.hpend
  have hst3 : ((m.pending_cmds.foldl timer_manager2.applyCmd
      { m with pending_cmds := [] }).getSlot s).backend.state = state_t.expired := by
    rw [hslot3]
    exact hC.hbst
  have hw0 : wcount (m.pending_cmds.foldl timer_manager2.applyCmd
      { m with pending_cmds := [] }).time_wheel s = 0 := by
    have h0 := C3.wEq s
    rw [if_neg] at h0
    · exact h0
    · rw [hst3]
      decide
  have hns : ∀ j ∈ (m.pending_cmds.foldl timer_manager2.applyCmd
      { m with pending_cmds := [] }).time_wheel.getD
        (((m.pending_cmds.foldl timer_manager2.applyCmd
          { m with pending_cmds := [] }).cur_time + 1)
          % (m.pending_cmds.foldl timer_manager2.applyCmd
            { m with pending_cmds := [] }).time_wheel.length) [], j ≠ s := by
    intro j hj hq
    subst hq
    have hle := count_getD_le_wcount (m.pending_cmds.foldl timer_manager2.applyCmd
      { m with pending_cmds := [] }).time_wheel
      (((m.pending_cmds.foldl timer_manager2.applyCmd
        { m with pending_cmds := [] }).cur_time + 1)
        % (m.pending_cmds.foldl timer_manager2.applyCmd
          { m with pending_cmds := [] }).time_wheel.length) j
    have hpos := List.count_pos_iff.mpr hj
    rw [hw0] at hle
    omega
  rw [tick_all_eq]
  obtain ⟨g1, g2, g3⟩ := foldDrain_ne _ _ s _ hns
  obtain ⟨p1, p2, p3, p4, p5⟩ := frames_foldDrain _ _
    { (m.pending_cmds.foldl timer_manager2.applyCmd { m with pending_cmds := [] }) with
      cur_time := (m.pending_cmds.foldl timer_manager2.applyCmd
        { m with pending_cmds := [] }).cur_time + 1
      time_wheel := (m.pending_cmds.foldl timer_manager2.applyCmd
        { m with pending_cmds := [] }).time_wheel.set
          (((m.pending_cmds.foldl timer_manager2.applyCmd
            { m with pending_cmds := [] }).cur_time + 1)
            % (m.pending_cmds.foldl timer_manager2.applyCmd
              { m with pending_cmds := [] }).time_wheel.length) [] }
  refine ⟨?_, ?_, ?_, ?_, ?_, ?_⟩
  · rw [g1]
    show ((m.pending_cmds.foldl timer_manager2.applyCmd
      { m with pending_cmds := [] }).getSlot s).frontend.epoch = e
    rw [hslot3]
    exact hC.hfe
  · rw [g1]
    show ((m.pending_cmds.foldl timer_manager2.applyCmd
      { m with pending_cmds := [] }).getSlot s).owned = true
    rw [hslot3]
    exact hC.hown
  · rw [g1]
    show ((m.pending_cmds.foldl timer_manager2.applyCmd
      { m with pending_cmds := [] }).getSlot s).backend.state = state_t.expired
    exact hst3
  · rw [p2]
    show T ≤ (m.pending_cmds.foldl timer_manager2.applyCmd
      { m with pending_cmds := [] }).cur_time + 1
    rw [CT3]
    show T ≤ m.cur_time + 1
    have := hC.hcur
    omega
  · intro c' hc'
    rw [p1] at hc'
    have hpe : ((m.pending_cmds.foldl timer_manager2.applyCmd
        { m with pending_cmds := [] })).pending_cmds = [] :=
      P3.trans (show ({ m with pending_cmds := [] } : timer_manager2).pending_cmds = []
        from rfl)
    rw [show ({ (m.pending_cmds.foldl timer_manager2.applyCmd
        { m with pending_cmds := [] }) with
      cur_time := (m.pending_cmds.foldl timer_manager2.applyCmd
        { m with pending_cmds := [] }).cur_time + 1
      time_wheel := (m.pending_cmds.foldl timer_manager2.applyCmd
        { m with pending_cmds := [] }).time_wheel.set
          (((m.pending_cmds.foldl timer_manager2.applyCmd
            { m with pending_cmds := [] }).cur_time + 1)
            % (m.pending_cmds.foldl timer_manager2.applyCmd
              { m with pending_cmds := [] }).time_wheel.length) [] } :
      timer_manager2).pending_cmds = (m.pending_cmds.foldl timer_manager2.applyCmd
        { m with pending_cmds := [] }).pending_cmds from rfl, hpe] at hc'
    cases hc'
  · rw [g3]
    show (m.pending_cmds.foldl timer_manager2.applyCmd
      { m with pending_cmds := [] }).dispatch_log.count (s, e) = 1
    rw [L3]
    exact hC.hlog1

theorem track_step {m : timer_manager2} {o : op} {s e c d : Nat}
    (hInv : Inv m) (ht : Track m s e c d) (ho : rearms s o = false) (hd : 0 < d) :
    Track (step m o) s e c d := by
  cases o with
  | create => exact track_create hInv ht
  | fset j dur => exact track_fset j dur ht
  | fset_cb j dur => exact track_fset_cb j dur ht
  | frun j =>
    have hne : j ≠ s := by
      intro hq
      subst hq
      simp [rearms] at ho
    exact track_frun hInv hne ht
  | fstop j =>
    have hne : j ≠ s := by
      intro hq
      subst hq
      simp [rearms] at ho
    exact track_fstop hInv hne ht
  | fdestroy j =>
    have hne : j ≠ s := by
      intro hq
      subst hq
      simp [rearms] at ho
    exact track_fdestroy hInv hne ht
  | tick =>
    rcases ht with hA | hB | hC
    · rcases track_tick_A hInv hd hA with h | h
      · exact Or.inr (Or.inl h)
      · exact Or.inr (Or.inr h)
    · rcases track_tick_B hInv hB with h | h
      · exact Or.inr (Or.inl h)
      · exact Or.inr (Or.inr h)
    · exact Or.inr (Or.inr (track_tick_C hInv hC))
  | run_disp n => exact track_run_disp n ht

theorem track_applyOps {s e c d : Nat} (hd : 0 < d) : ∀ (p : List op) (m : timer_manager2),
    Inv m → Track m s e c d → (∀ o ∈ p, rearms s o = false) →
    Track (applyOps m p) s e c d := by
  intro p
  induction p with
  | nil => exact fun m _ ht _ => ht
  | cons o p ih =>
    intro m hInv ht hall
    exact ih (step m o) (inv_step hInv o)
      (track_step hInv ht (hall o (List.mem_cons_self o p)) hd)
      (fun o' ho' => hall o' (List.mem_cons_of_mem o ho'))

/-- Arming a run through the owning handle starts phase A of the
tracking: the fresh start command sits last in the mailbox. -/
theorem track_init_run {m0 : timer_manager2} {s : Nat} (hInv : Inv m0)
    (hown : (m0.getSlot s).owned = true) :
    TrackA (step m0 (op.frun s)) s ((m0.getSlot s).frontend.epoch + 1) m0.cur_time
      ((m0.getSlot s).frontend.duration) := by
  have hlt : s < m0.timer_list.length := timer_manager2.lt_of_owned hown
  have hid : (m0.getSlot s).id = s := hInv.1.idIdx s hlt
  have hstep : step m0 (op.frun s) = timer_handle.run m0 s := by
    show (if (m0.getSlot s).owned = true then timer_handle.run m0 s else m0)
      = timer_handle.run m0 s
    rw [if_pos hown]
  rw [hstep, run_eq]
  have hget : ((m0.setSlot s { m0.getSlot s with frontend := { (m0.getSlot s).frontend with
      epoch := (m0.getSlot s).frontend.epoch + 1, state := .running } }).getSlot s)
      = { m0.getSlot s with frontend := { (m0.getSlot s).frontend with
          epoch := (m0.getSlot s).frontend.epoch + 1, state := .running } } :=
    timer_manager2.getSlot_setSlot_self _ _ _ hlt
  refine ⟨rfl, ?_, ?_, ?_, ?_, ?_⟩
  · exact congrArg (fun x => x.frontend.epoch) hget
  · exact (congrArg (fun x => x.owned) hget).trans hown
  · refine ⟨m0.pending_cmds, [], ?_, ?_⟩
    · show m0.pending_cmds ++ [(⟨(m0.getSlot s).id, (m0.getSlot s).frontend.epoch + 1,
        action_t.start, (m0.getSlot s).frontend.duration⟩ : cmd_t)]
        = m0.pending_cmds ++ (⟨s, (m0.getSlot s).frontend.epoch + 1,
          action_t.start, (m0.getSlot s).frontend.duration⟩ : cmd_t) :: []
      rw [hid]
    · intro c' hc'
      cases hc'
  · apply count_pair_eq_zero
    intro pp hpp hp1
    have hb := (hInv.1.dispBound pp hpp).2
    rw [hp1] at hb
    omega
  · apply count_pair_eq_zero
    intro pp hpp hp1
    have hb := (hInv.1.logBound pp hpp).2
    rw [hp1] at hb
    omega

/-- C1: corrected form of the deadline claim.  A run armed through the
owning handle at cursor c with positive duration d, left undisturbed on
its slot (no further run, stop or destroy for that slot), is dispatched
exactly once, precisely from the tick at which the cursor reaches
c + d: after every prefix of the continuation, the dispatch log holds
the run's (slot, epoch) pair once when the cursor has reached c + d and
not at all before.  The literal claim is refuted by
C1_rearm_counterexample: an intervening re-arm (neither a stop nor a
destroy) moves the deadline, so the expiry does not fire when the
cursor first becomes c + d. -/
theorem C1_deadline_amended (W : Nat) (tr ws : List op) (s : Nat) (hW : 0 < W)
    (hown : ((applyOps (timer_manager2.init W) tr).getSlot s).owned = true)
    (hd : 0 < ((applyOps (timer_manager2.init W) tr).getSlot s).frontend.duration)
    (hws : ∀ o ∈ ws, rearms s o = false) :
    ∀ p q : List op, ws = p ++ q →
      (applyOps (step (applyOps (timer_manager2.init W) tr) (op.frun s)) p).dispatch_log.count
          (s, ((applyOps (timer_manager2.init W) tr).getSlot s).frontend.epoch + 1)
        = if (applyOps (timer_manager2.init W) tr).cur_time
              + ((applyOps (timer_manager2.init W) tr).getSlot s).frontend.duration
            ≤ (applyOps (step (applyOps (timer_manager2.init W) tr) (op.frun s)) p).cur_time
          then 1 else 0 := by
  intro p q hpq
  have hInv0 : Inv (applyOps (timer_manager2.init W) tr) := inv_reach hW tr
  have hInv1 : Inv (step (applyOps (timer_manager2.init W) tr) (op.frun s)) :=
    inv_step hInv0 _
  have hA := track_init_run hInv0 hown
  have hp : ∀ o ∈ p, rearms s o = false := fun o ho =>
    hws o (by rw [hpq]; exact List.mem_append_left q ho)
  have htr := track_applyOps hd p _ hInv1 (Or.inl hA) hp
  exact track_log_count hd htr

theorem C1_deadline_amended_witness :
    (0 < 8
      ∧ ((applyOps (timer_manager2.init 8) [op.create, op.fset_cb 0 2]).getSlot 0).owned = true
      ∧ 0 < ((applyOps (timer_manager2.init 8) [op.create, op.fset_cb 0 2]).getSlot 0).frontend.duration
      ∧ (∀ o ∈ [op.tick, op.tick, op.tick], rearms 0 o = false))
    ∧ (applyOps (step (applyOps (timer_manager2.init 8) [op.create, op.fset_cb 0 2]) (op.frun 0))
          [op.tick, op.tick]).dispatch_log.count
        (0, ((applyOps (timer_manager2.init 8) [op.create, op.fset_cb 0 2]).getSlot 0).frontend.epoch + 1)
      = if (applyOps (timer_manager2.init 8) [op.create, op.fset_cb 0 2]).cur_time
            + ((applyOps (timer_manager2.init 8) [op.create, op.fset_cb 0 2]).getSlot 0).frontend.duration
          ≤ (applyOps (step (applyOps (timer_manager2.init 8) [op.create, op.fset_cb 0 2]) (op.frun 0))
              [op.tick, op.tick]).cur_time
        then 1 else 0 :=
  ⟨⟨by decide, by decide, by decide, by decide⟩,
    C1_deadline_amended 8 [op.create, op.fset_cb 0 2] [op.tick, op.tick, op.tick] 0
      (by decide) (by decide) (by decide) (by decide)
      [op.tick, op.tick] [op.tick] rfl⟩

/-- True for the stop and destroy events on any slot: the interveners
the literal deadline claim excludes. -/
def stopDestroy : op → Bool
  | .fstop _ => true
  | .fdestroy _ => true
  | _ => false

/-- C1 fails as literally stated: a timer armed at cursor 0 with
duration 2 whose trace holds no stop and no destroy (only a re-arm at
cursor 1) produces no dispatch at all by the tick at which the cursor
becomes 0 + 2 = 2. -/
theorem C1_rearm_counterexample :
    ([op.create, op.fset_cb 0 2, op.frun 0, op.tick, op.frun 0, op.tick].all
        (fun o => ! stopDestroy o)) = true
    ∧ (applyOps (timer_manager2.init 8) [op.create, op.fset_cb 0 2, op.frun 0]).cur_time = 0
    ∧ ((applyOps (timer_manager2.init 8)
        [op.create, op.fset_cb 0 2, op.frun 0]).getSlot 0).frontend.duration = 2
    ∧ ((applyOps (timer_manager2.init 8)
        [op.create, op.fset_cb 0 2, op.frun 0]).getSlot 0).frontend.state = state_t.running
    ∧ (applyOps (timer_manager2.init 8)
        [op.create, op.fset_cb 0 2, op.frun 0, op.tick, op.frun 0, op.tick]).cur_time = 2
    ∧ (applyOps (timer_manager2.init 8)
        [op.create, op.fset_cb 0 2, op.frun 0, op.tick, op.frun 0, op.tick]).dispatch_log
      = [] := by
  decide

end srsran
